import Mathlib

/-!
Shallow embedding of the novadb-lite storage core (src/src/page/raw.rs,
header.rs, slot.rs, slotted_page.rs and src/src/pager/file.rs) and proofs
of the specification claims about it.

A page buffer is a `List Nat` of bytes (the Rust code works on `&mut [u8]`
of length `PAGE_SIZE = 4096`).  Fallible Rust code returning `DbResult<T>`
becomes `Except DbError T`; operations that mutate the buffer additionally
return the buffer (Rust mutates in place and may leave partial mutations
behind an `Err` return).  A Rust panic (out-of-range slice indexing, or the
`todo` macro in the pager stubs) is modelled by an `Option` wrapper whose
`none` value means "panicked".
-/

namespace Nova

/-- Error type, transcribed from src/src/error.rs (`DbError`).  The `Io`
payload is not modelled (no OS I/O in the embedding). -/
inductive DbError where
  | Io : DbError
  | OutOfBounds (off size len : Nat) : DbError
  | Corruption (msg : String) : DbError
  | NoSpace (msg : String) : DbError
  | InvalidArgument (msg : String) : DbError
  deriving DecidableEq, Repr

/-- A page buffer: the byte slice the Rust code operates on. -/
abbrev Buf := List Nat

/-- Read one byte (Rust `buf[i]`; out-of-range reads never happen at the
call sites because every access is bounds-checked first). -/
def getByte (b : Buf) (i : Nat) : Nat := b.getD i 0

/-- Overwrite `d.length` bytes of `b` starting at `off` (Rust
`buf[off..off+d.len()].copy_from_slice(d)`).  Call sites establish
`off + d.length ≤ b.length`. -/
def writeBytes (b : Buf) (off : Nat) (d : List Nat) : Buf :=
  b.take off ++ d ++ b.drop (off + d.length)

/-- Read `n` bytes of `b` starting at `off` (Rust `&buf[off..off+n]`). -/
def readBytes (b : Buf) (off n : Nat) : List Nat :=
  (b.drop off).take n

/-! ## Raw byte codec (src/src/page/raw.rs) -/

/-- `checked_range` from raw.rs: the single bounds-checking chokepoint. -/
def checked_range (len off size : Nat) : Except DbError Unit :=
  if off > len ∨ size > len ∨ off + size > len then
    .error (.OutOfBounds off size len)
  else
    .ok ()

def read_u16_le (b : Buf) (off : Nat) : Except DbError Nat :=
  match checked_range b.length off 2 with
  | .error e => .error e
  | .ok _ => .ok (getByte b off + 256 * getByte b (off + 1))

def write_u16_le (b : Buf) (off : Nat) (v : Nat) : Except DbError Buf :=
  match checked_range b.length off 2 with
  | .error e => .error e
  | .ok _ => .ok (writeBytes b off [v % 256, v / 256 % 256])

def read_u32_le (b : Buf) (off : Nat) : Except DbError Nat :=
  match checked_range b.length off 4 with
  | .error e => .error e
  | .ok _ => .ok (getByte b off + 256 * getByte b (off + 1) +
      65536 * getByte b (off + 2) + 16777216 * getByte b (off + 3))

def write_u32_le (b : Buf) (off : Nat) (v : Nat) : Except DbError Buf :=
  match checked_range b.length off 4 with
  | .error e => .error e
  | .ok _ => .ok (writeBytes b off
      [v % 256, v / 256 % 256, v / 65536 % 256, v / 16777216 % 256])

def read_u64_le (b : Buf) (off : Nat) : Except DbError Nat :=
  match checked_range b.length off 8 with
  | .error e => .error e
  | .ok _ => .ok (getByte b off + 256 * getByte b (off + 1) +
      65536 * getByte b (off + 2) + 16777216 * getByte b (off + 3) +
      4294967296 * getByte b (off + 4) + 1099511627776 * getByte b (off + 5) +
      281474976710656 * getByte b (off + 6) + 72057594037927936 * getByte b (off + 7))

def write_u64_le (b : Buf) (off : Nat) (v : Nat) : Except DbError Buf :=
  match checked_range b.length off 8 with
  | .error e => .error e
  | .ok _ => .ok (writeBytes b off
      [v % 256, v / 256 % 256, v / 65536 % 256, v / 16777216 % 256,
       v / 4294967296 % 256, v / 1099511627776 % 256,
       v / 281474976710656 % 256, v / 72057594037927936 % 256])

/-! ## Constants (src/src/constants.rs, src/src/page/mod.rs) -/

def PAGE_SIZE : Nat := 4096
def SLOTTED_HEADER_SIZE : Nat := 16
def SLOTTED_SLOT_SIZE : Nat := 6

/-! ## Page header codec (src/src/page/header.rs) -/

namespace header

def OFF_LOWER : Nat := 0
def OFF_UPPER : Nat := 2
def OFF_SLOT_COUNT : Nat := 4
def OFF_FLAGS : Nat := 6
def OFF_RESERVED : Nat := 8

def FLAG_HAS_FREE_SLOTS : Nat := 16

def lower (b : Buf) : Except DbError Nat := read_u16_le b OFF_LOWER
def set_lower (b : Buf) (v : Nat) : Except DbError Buf := write_u16_le b OFF_LOWER v
def upper (b : Buf) : Except DbError Nat := read_u16_le b OFF_UPPER
def set_upper (b : Buf) (v : Nat) : Except DbError Buf := write_u16_le b OFF_UPPER v
def slot_count (b : Buf) : Except DbError Nat := read_u16_le b OFF_SLOT_COUNT
def set_slot_count (b : Buf) (v : Nat) : Except DbError Buf := write_u16_le b OFF_SLOT_COUNT v
def flags (b : Buf) : Except DbError Nat := read_u16_le b OFF_FLAGS
def set_flags (b : Buf) (v : Nat) : Except DbError Buf := write_u16_le b OFF_FLAGS v
def reserved (b : Buf) : Except DbError Nat := read_u64_le b OFF_RESERVED
def set_reserved (b : Buf) (v : Nat) : Except DbError Buf := write_u64_le b OFF_RESERVED v

/-- Rust `set_flag(flags, mask) = flags | mask`. -/
def set_flag (f mask : Nat) : Nat := f ||| mask

/-- Rust `clear_flag(flags, mask) = flags & !mask` (u16 bitwise not). -/
def clear_flag (f mask : Nat) : Nat := f &&& (mask ^^^ 65535)

def has_flag (f mask : Nat) : Bool := f &&& mask != 0

def has_free_slots (f : Nat) : Bool := f &&& FLAG_HAS_FREE_SLOTS != 0

/-- `init_empty` from header.rs: reset a buffer to the empty-page state. -/
def init_empty (b : Buf) (page_type : Nat) : Except DbError Buf :=
  let fl := page_type &&& 15
  match set_lower b SLOTTED_HEADER_SIZE with
  | .error e => .error e
  | .ok b₁ =>
  match set_upper b₁ PAGE_SIZE with
  | .error e => .error e
  | .ok b₂ =>
  match set_slot_count b₂ 0 with
  | .error e => .error e
  | .ok b₃ =>
  match set_flags b₃ fl with
  | .error e => .error e
  | .ok b₄ =>
  match set_reserved b₄ 0 with
  | .error e => .error e
  | .ok b₅ => .ok b₅

end header

/-! ## Slot codec (src/src/page/slot.rs) -/

namespace slot

structure Slot where
  offset : Nat
  len : Nat
  flags : Nat
  deriving DecidableEq, Repr

/-- `slot_off(slot_id) = HEADER_SIZE + slot_id * SLOT_SIZE`. -/
def slot_off (slot_id : Nat) : Nat := SLOTTED_HEADER_SIZE + slot_id * SLOTTED_SLOT_SIZE

def current_pos (b : Buf) (slot_id : Nat) : Except DbError Nat :=
  let base := slot_off slot_id
  if base + SLOTTED_SLOT_SIZE > b.length then
    .error (.Corruption "slot entry out of bounds")
  else
    .ok base

def read_slot (b : Buf) (slot_id : Nat) : Except DbError Slot :=
  match current_pos b slot_id with
  | .error e => .error e
  | .ok pos =>
  match read_u16_le b (pos + 0) with
  | .error e => .error e
  | .ok o =>
  match read_u16_le b (pos + 2) with
  | .error e => .error e
  | .ok l =>
  match read_u16_le b (pos + 4) with
  | .error e => .error e
  | .ok f => .ok ⟨o, l, f⟩

def write_slot (b : Buf) (slot_id : Nat) (s : Slot) : Except DbError Buf :=
  match current_pos b slot_id with
  | .error e => .error e
  | .ok pos =>
  match write_u16_le b (pos + 0) s.offset with
  | .error e => .error e
  | .ok b₁ =>
  match write_u16_le b₁ (pos + 2) s.len with
  | .error e => .error e
  | .ok b₂ => write_u16_le b₂ (pos + 4) s.flags

def is_dead (f : Nat) : Bool := f &&& 1 != 0

def is_redirected (f : Nat) : Bool := f &&& 2 != 0

def is_overflow (f : Nat) : Bool := f &&& 4 != 0

/-- Modelled from the spec: `Slot::new(offset, len, flags)` is called by
`SlottedPage::insert`/`update` but its definition is absent from
src/src/page/slot.rs; per the slot layout (§3, §6 of the spec) it builds a
slot record from its three u16 fields. -/
def Slot.new (offset len flags : Nat) : Slot := ⟨offset, len, flags⟩

/-- Modelled from the spec: `Slot::mark_flags_dead` is called by
`SlottedPage::delete` but absent from src/src/page/slot.rs; spec §4.4 says
delete "marks the slot DEAD (bit 0)". -/
def Slot.mark_flags_dead (s : Slot) : Slot := ⟨s.offset, s.len, s.flags ||| 1⟩

end slot

/-! ## Slotted page (src/src/page/slotted_page.rs)

The Rust `SlottedPage` wraps a `&mut [u8]`; here each operation takes the
buffer and returns the (possibly mutated) buffer next to the result. -/

open slot in
/-- `SlottedPage::new`: rejects buffers whose length is not PAGE_SIZE. -/
def pageNew (b : Buf) : Except DbError Buf :=
  if b.length ≠ PAGE_SIZE then .error (.Corruption "buffer length must equal PAGE_SIZE")
  else .ok b

/-- `SlottedPage::init`: delegates to `header::init_empty`. -/
def init (b : Buf) (page_type : Nat) : Except DbError Buf :=
  header.init_empty b page_type

/-- `SlottedPage::validate_header`.  The `checked_mul`/`checked_add`
overflow branches of the Rust code cannot fire over `Nat` and are omitted;
every other check and its order is kept. -/
def validate_header (b : Buf) : Except DbError Unit :=
  match header.lower b with
  | .error e => .error e
  | .ok lo =>
  match header.upper b with
  | .error e => .error e
  | .ok up =>
  match header.slot_count b with
  | .error e => .error e
  | .ok sc =>
  if lo < SLOTTED_HEADER_SIZE then
    .error (.Corruption "corrupt header: lower < header size")
  else if up > PAGE_SIZE then
    .error (.Corruption "corrupt header: upper > PAGE_SIZE")
  else if lo > up then
    .error (.Corruption "corrupt header: lower > upper")
  else if SLOTTED_HEADER_SIZE + sc * SLOTTED_SLOT_SIZE > PAGE_SIZE then
    .error (.Corruption "corrupt header: slot directory out of page")
  else if lo ≠ SLOTTED_HEADER_SIZE + sc * SLOTTED_SLOT_SIZE then
    .error (.Corruption "corrupt header: lower != header_size + slot_count*slot_size")
  else .ok ()

/-- `SlottedPage::free_space`: `upper - lower` via `checked_sub`. -/
def free_space (b : Buf) : Except DbError Nat :=
  match header.upper b with
  | .error e => .error e
  | .ok up =>
  match header.lower b with
  | .error e => .error e
  | .ok lo =>
  if up < lo then .error (.Corruption "corrupt header: lower > upper")
  else .ok (up - lo)

open slot in
/-- `SlottedPage::get`.  The `checked_add` overflow branch cannot fire over
`Nat`; all other checks and their order are kept. -/
def get (b : Buf) (slot_id : Nat) : Except DbError (Option (List Nat)) :=
  match validate_header b with
  | .error e => .error e
  | .ok _ =>
  match header.slot_count b with
  | .error e => .error e
  | .ok sc =>
  if slot_id ≥ sc then .error (.InvalidArgument "invalid slot_id")
  else
  match read_slot b slot_id with
  | .error e => .error e
  | .ok s =>
  if is_dead s.flags then .ok none
  else
  match header.upper b with
  | .error e => .error e
  | .ok up =>
  if s.offset < up then .error (.Corruption "tuple overlaps free space")
  else if s.offset + s.len > PAGE_SIZE then
    .error (.Corruption "tuple end must be <= PAGE_SIZE")
  else .ok (some (readBytes b s.offset s.len))

open slot in
/-- The scan loop inside `find_free_slot`: visit slots `i, i+1, …` while
`fuel` lasts, returning the first DEAD one. -/
def findDeadFrom (b : Buf) : Nat → Nat → Except DbError (Option Nat)
  | _, 0 => .ok none
  | i, fuel + 1 =>
    match read_slot b i with
    | .error e => .error e
    | .ok s =>
      if is_dead s.flags then .ok (some i)
      else findDeadFrom b (i + 1) fuel

open slot in
/-- `SlottedPage::find_free_slot`: scan for a reusable tombstone only when
the page-level HAS_FREE_SLOTS flag is set; a scan that finds nothing
lazily clears the flag (a buffer mutation). -/
def find_free_slot (b : Buf) : Except DbError (Option Nat) × Buf :=
  match header.flags b with
  | .error e => (.error e, b)
  | .ok pf =>
  if pf &&& header.FLAG_HAS_FREE_SLOTS == 0 then (.ok none, b)
  else
  match header.slot_count b with
  | .error e => (.error e, b)
  | .ok sc =>
  match findDeadFrom b 0 sc with
  | .error e => (.error e, b)
  | .ok (some i) => (.ok (some i), b)
  | .ok none =>
    match header.set_flags b (header.clear_flag pf header.FLAG_HAS_FREE_SLOTS) with
    | .error e => (.error e, b)
    | .ok b' => (.ok none, b')

open slot in
/-- `SlottedPage::insert`.  `data.len()` must fit in a u16
(`try_into` → Corruption) and `need_data + need_slot` is a u16
`checked_add` (overflow → Corruption); both guards are kept.  Note the
tombstone scan runs, and may clear HAS_FREE_SLOTS, before the NoSpace
check. -/
def insert (b : Buf) (data : List Nat) : Except DbError Nat × Buf :=
  match validate_header b with
  | .error e => (.error e, b)
  | .ok _ =>
  match header.upper b with
  | .error e => (.error e, b)
  | .ok up =>
  match header.slot_count b with
  | .error e => (.error e, b)
  | .ok sc =>
  if data.length > 65535 then (.error (.Corruption "record is too large"), b)
  else
  match find_free_slot b with
  | (.error e, b₁) => (.error e, b₁)
  | (.ok reuse, b₁) =>
  let slot_id := reuse.getD sc
  let need_slot := if reuse.isSome then 0 else SLOTTED_SLOT_SIZE
  if data.length + need_slot > 65535 then (.error (.Corruption "need size overflow"), b₁)
  else
  match free_space b₁ with
  | .error e => (.error e, b₁)
  | .ok free =>
  if data.length + need_slot > free then (.error (.NoSpace "not enough space"), b₁)
  else if up < data.length then (.error (.Corruption "record is too large"), b₁)
  else
  let upper_new := up - data.length
  let b₂ := writeBytes b₁ upper_new data
  match write_slot b₂ slot_id (Slot.new upper_new data.length 0) with
  | .error e => (.error e, b₂)
  | .ok b₃ =>
  if reuse.isSome then
    match header.set_upper b₃ upper_new with
    | .error e => (.error e, b₃)
    | .ok b₆ => (.ok slot_id, b₆)
  else
    match header.set_slot_count b₃ (sc + 1) with
    | .error e => (.error e, b₃)
    | .ok b₄ =>
    match header.set_lower b₄ (SLOTTED_HEADER_SIZE + (sc + 1) * SLOTTED_SLOT_SIZE) with
    | .error e => (.error e, b₄)
    | .ok b₅ =>
    match header.set_upper b₅ upper_new with
    | .error e => (.error e, b₅)
    | .ok b₆ => (.ok slot_id, b₆)

open slot in
/-- `SlottedPage::update`.  The in-place branch indexes
`buf[start..start+need]` and `buf[start+need..start+old_len]` without any
bounds check, and the move branch indexes `buf[upper_new..up]`; a range end
past the buffer length panics in Rust, modelled as `none`. -/
def update (b : Buf) (slot_id : Nat) (data : List Nat) :
    Option (Except DbError Bool × Buf) :=
  match validate_header b with
  | .error e => some (.error e, b)
  | .ok _ =>
  match header.slot_count b with
  | .error e => some (.error e, b)
  | .ok sc =>
  if slot_id ≥ sc then some (.error (.InvalidArgument "invalid slot_id"), b)
  else
  match read_slot b slot_id with
  | .error e => some (.error e, b)
  | .ok s =>
  if is_dead s.flags then some (.error (.Corruption "slot is dead"), b)
  else if data.length > 65535 then some (.error (.Corruption "record is too large"), b)
  else
  let old_len := s.len
  if data.length ≤ old_len then
    let start := s.offset
    let end_new := start + data.length
    let end_old := start + old_len
    if end_new > b.length then none
    else
    let b₁ := writeBytes b start data
    if end_old > b₁.length then none
    else
    let b₂ := writeBytes b₁ end_new (List.replicate (end_old - end_new) 0)
    match write_slot b₂ slot_id (Slot.new s.offset data.length s.flags) with
    | .error e => some (.error e, b₂)
    | .ok b₃ => some (.ok false, b₃)
  else
    match free_space b with
    | .error e => some (.error e, b)
    | .ok free =>
    if data.length > free then some (.error (.NoSpace "not enough space"), b)
    else
    match header.upper b with
    | .error e => some (.error e, b)
    | .ok up =>
    if up < data.length then some (.error (.Corruption "record is too large"), b)
    else
    let upper_new := up - data.length
    if up > b.length then none
    else
    let b₁ := writeBytes b upper_new data
    match write_slot b₁ slot_id (Slot.new upper_new data.length s.flags) with
    | .error e => some (.error e, b₁)
    | .ok b₂ =>
    match header.set_upper b₂ upper_new with
    | .error e => some (.error e, b₂)
    | .ok b₃ => some (.ok true, b₃)

open slot in
/-- `SlottedPage::delete`: tombstone the slot and set HAS_FREE_SLOTS. -/
def delete (b : Buf) (slot_id : Nat) : Except DbError Unit × Buf :=
  match validate_header b with
  | .error e => (.error e, b)
  | .ok _ =>
  match header.slot_count b with
  | .error e => (.error e, b)
  | .ok sc =>
  if slot_id ≥ sc then (.error (.InvalidArgument "invalid slot_id"), b)
  else
  match read_slot b slot_id with
  | .error e => (.error e, b)
  | .ok s =>
  if is_dead s.flags then (.ok (), b)
  else
  match write_slot b slot_id s.mark_flags_dead with
  | .error e => (.error e, b)
  | .ok b₁ =>
  match header.flags b₁ with
  | .error e => (.error e, b₁)
  | .ok pf =>
  match header.set_flags b₁ (header.set_flag pf header.FLAG_HAS_FREE_SLOTS) with
  | .error e => (.error e, b₁)
  | .ok b₂ => (.ok (), b₂)

/-! ## Pager (src/src/pager/file.rs)

The backing file is modelled by its byte contents (a `List Nat`); OS-level
I/O failures are not modelled.  `read_page`, `write_page`, `alloc_page` and
`free_page` are `todo` stubs in the source — calling any of them executes
the todo macro, which panics unconditionally — so each is embedded as the
constant panic outcome `none`. -/

structure FilePager where
  f : List Nat
  freelist : List Nat
  next_pid : Nat
  deriving DecidableEq, Repr

namespace FilePager

/-- `FilePager::open`: `file` holds the current bytes of the file at the
given path (the empty list when the path did not exist, since the file is
opened with `create(true)`).  The page count is the u64 division cast
`as u32`, i.e. truncated mod 2^32; a count that truncates to zero takes
the create branch, whose `write_all` at the start of the file overwrites
its first PAGE_SIZE bytes with zeros. -/
def openPager (file : List Nat) : Except DbError FilePager :=
  if file.length % PAGE_SIZE ≠ 0 then
    .error (.Corruption "db file length is not page-aligned")
  else
    let pages := file.length / PAGE_SIZE % 4294967296
    if pages = 0 then
      .ok ⟨writeBytes file 0 (List.replicate PAGE_SIZE 0), [], 1⟩
    else
      .ok ⟨file, [], pages⟩

/-- `FilePager::num_pages`: file length divided by PAGE_SIZE. -/
def num_pages (p : FilePager) : Except DbError Nat :=
  .ok (p.f.length / PAGE_SIZE)

/-- `FilePager::read_page`: the body in the source is the todo macro, which
panics unconditionally on every call. -/
def read_page (_p : FilePager) (_pid : Nat) (_out : Buf) :
    Option (Except DbError Buf × FilePager) := none

/-- `FilePager::write_page`: the body in the source is the todo macro, which
panics unconditionally on every call. -/
def write_page (_p : FilePager) (_pid : Nat) (_buf : Buf) :
    Option (Except DbError Unit × FilePager) := none

/-- `FilePager::alloc_page`: the body in the source is the todo macro, which
panics unconditionally on every call. -/
def alloc_page (_p : FilePager) : Option (Except DbError Nat × FilePager) := none

/-- `FilePager::free_page`: the body in the source is the todo macro, which
panics unconditionally on every call. -/
def free_page (_p : FilePager) (_pid : Nat) :
    Option (Except DbError Unit × FilePager) := none

/-- `FilePager::flush`: `sync_data`, modelled as success. -/
def flush (_p : FilePager) : Except DbError Unit := .ok ()

end FilePager

/-! ## Pure observation functions used by the claim statements -/

/-- The `lower` header field as a pure value (little-endian bytes 0,1). -/
def hLower (b : Buf) : Nat := getByte b 0 + 256 * getByte b 1

/-- The `upper` header field as a pure value (little-endian bytes 2,3). -/
def hUpper (b : Buf) : Nat := getByte b 2 + 256 * getByte b 3

/-- The `slot_count` header field as a pure value (bytes 4,5). -/
def hSlotCount (b : Buf) : Nat := getByte b 4 + 256 * getByte b 5

/-- The `flags` header field as a pure value (bytes 6,7). -/
def hFlags (b : Buf) : Nat := getByte b 6 + 256 * getByte b 7

/-- The stored `offset` field of slot `i` (bytes 16+6i, 16+6i+1). -/
def sOffset (b : Buf) (i : Nat) : Nat :=
  getByte b (16 + 6 * i) + 256 * getByte b (16 + 6 * i + 1)

/-- The stored `len` field of slot `i`. -/
def sLen (b : Buf) (i : Nat) : Nat :=
  getByte b (16 + 6 * i + 2) + 256 * getByte b (16 + 6 * i + 3)

/-- The stored `flags` field of slot `i`. -/
def sFlags (b : Buf) (i : Nat) : Nat :=
  getByte b (16 + 6 * i + 4) + 256 * getByte b (16 + 6 * i + 5)

/-- The slot record stored at index `i`, as a pure value. -/
def sSlot (b : Buf) (i : Nat) : slot.Slot := ⟨sOffset b i, sLen b i, sFlags b i⟩

/-! ## Byte-level lemmas -/

theorem getElem?_eq_some_getByte {b : Buf} {i : Nat} (h : i < b.length) :
    b[i]? = some (getByte b i) := by
  simp [getByte, List.getD_eq_getElem?_getD, List.getElem?_eq_getElem h]

theorem length_writeBytes {b : Buf} {off : Nat} {d : List Nat}
    (h : off + d.length ≤ b.length) : (writeBytes b off d).length = b.length := by
  simp [writeBytes]
  omega

theorem getByte_writeBytes_lt {b : Buf} {off : Nat} {d : List Nat} {j : Nat}
    (h : off + d.length ≤ b.length) (hj : j < off) :
    getByte (writeBytes b off d) j = getByte b j := by
  have h1 : j < (b.take off).length := by simp [List.length_take]; omega
  simp only [getByte, writeBytes, List.getD_eq_getElem?_getD, List.append_assoc]
  rw [List.getElem?_append_left h1, List.getElem?_take_of_lt hj]

theorem getByte_writeBytes_in {b : Buf} {off : Nat} {d : List Nat} {j : Nat}
    (h : off + d.length ≤ b.length) (h1 : off ≤ j) (h2 : j < off + d.length) :
    getByte (writeBytes b off d) j = getByte d (j - off) := by
  have hto : (b.take off).length = off := by simp [List.length_take]; omega
  have hjo : j - off < d.length := by omega
  simp only [getByte, writeBytes, List.getD_eq_getElem?_getD, List.append_assoc]
  rw [List.getElem?_append_right (by rw [hto]; omega), hto,
    List.getElem?_append_left (by omega)]

theorem getByte_writeBytes_ge {b : Buf} {off : Nat} {d : List Nat} {j : Nat}
    (h : off + d.length ≤ b.length) (hj : off + d.length ≤ j) :
    getByte (writeBytes b off d) j = getByte b j := by
  have hto : (b.take off).length = off := by simp [List.length_take]; omega
  simp only [getByte, writeBytes, List.getD_eq_getElem?_getD, List.append_assoc]
  rw [List.getElem?_append_right (by rw [hto]; omega), hto,
    List.getElem?_append_right (by omega), List.getElem?_drop]
  congr 2
  omega

/-- One lemma covering all three regions of a `writeBytes`. -/
theorem getByte_writeBytes {b : Buf} {off : Nat} {d : List Nat} (j : Nat)
    (h : off + d.length ≤ b.length) :
    getByte (writeBytes b off d) j =
      if off ≤ j ∧ j < off + d.length then getByte d (j - off) else getByte b j := by
  split
  · exact getByte_writeBytes_in h (by omega) (by omega)
  · rcases Nat.lt_or_ge j off with hlt | hge
    · exact getByte_writeBytes_lt h hlt
    · exact getByte_writeBytes_ge h (by omega)

theorem length_readBytes {b : Buf} {off n : Nat} :
    (readBytes b off n).length = min n (b.length - off) := by
  simp [readBytes]

theorem readBytes_eq {b : Buf} {off n : Nat} {d : List Nat}
    (hlen : d.length = n) (hin : off + n ≤ b.length)
    (hpt : ∀ j, j < n → getByte b (off + j) = getByte d j) :
    readBytes b off n = d := by
  apply List.ext_getElem?
  intro j
  by_cases hj : j < n
  · have h1 : (readBytes b off n)[j]? = b[off + j]? := by
      simp only [readBytes]
      rw [List.getElem?_take_of_lt hj, List.getElem?_drop]
    rw [h1, getElem?_eq_some_getByte (by omega), hpt j hj,
      getElem?_eq_some_getByte (by omega)]
  · have h1 : (readBytes b off n)[j]? = none := by
      apply List.getElem?_eq_none
      rw [length_readBytes]
      omega
    have h2 : d[j]? = none := by
      apply List.getElem?_eq_none
      omega
    rw [h1, h2]

/-! ## Primitive-codec reduction lemmas -/

theorem read_u16_le_ok {b : Buf} {off : Nat} (h : off + 2 ≤ b.length) :
    read_u16_le b off = .ok (getByte b off + 256 * getByte b (off + 1)) := by
  simp only [read_u16_le, checked_range]
  rw [if_neg (by omega)]

theorem write_u16_le_ok {b : Buf} {off v : Nat} (h : off + 2 ≤ b.length) :
    write_u16_le b off v = .ok (writeBytes b off [v % 256, v / 256 % 256]) := by
  simp only [write_u16_le, checked_range]
  rw [if_neg (by omega)]

theorem read_u64_le_ok {b : Buf} {off : Nat} (h : off + 8 ≤ b.length) :
    read_u64_le b off = .ok (getByte b off + 256 * getByte b (off + 1) +
      65536 * getByte b (off + 2) + 16777216 * getByte b (off + 3) +
      4294967296 * getByte b (off + 4) + 1099511627776 * getByte b (off + 5) +
      281474976710656 * getByte b (off + 6) +
      72057594037927936 * getByte b (off + 7)) := by
  simp only [read_u64_le, checked_range]
  rw [if_neg (by omega)]

theorem write_u64_le_ok {b : Buf} {off v : Nat} (h : off + 8 ≤ b.length) :
    write_u64_le b off v = .ok (writeBytes b off
      [v % 256, v / 256 % 256, v / 65536 % 256, v / 16777216 % 256,
       v / 4294967296 % 256, v / 1099511627776 % 256,
       v / 281474976710656 % 256, v / 72057594037927936 % 256]) := by
  simp only [write_u64_le, checked_range]
  rw [if_neg (by omega)]

/-- The two bytes a u16 write deposits combine back to `v % 65536`. -/
theorem u16_bytes_recombine (v : Nat) : v % 256 + 256 * (v / 256 % 256) = v % 65536 := by
  omega

/-- All bytes of a buffer are below 256 (true of any buffer that models a
Rust `[u8]` slice; `getByte` out of range is 0). -/
def Bytes (b : Buf) : Prop := ∀ i, getByte b i < 256

theorem Bytes_of_mem {b : Buf} (h : ∀ x ∈ b, x < 256) : Bytes b := by
  intro i
  by_cases hi : i < b.length
  · rw [getByte, List.getD_eq_getElem?_getD, List.getElem?_eq_getElem hi]
    exact h _ (List.getElem_mem hi)
  · rw [getByte, List.getD_eq_getElem?_getD, List.getElem?_eq_none (by omega)]
    simp

theorem Bytes_writeBytes {b : Buf} {off : Nat} {d : List Nat}
    (hb : Bytes b) (hd : ∀ j, getByte d j < 256)
    (h : off + d.length ≤ b.length) : Bytes (writeBytes b off d) := by
  intro j
  rw [getByte_writeBytes j h]
  split
  · exact hd _
  · exact hb _

/-! ### Two-byte (u16) write observations -/

theorem getByte_write2_self0 {b : Buf} {off x y : Nat} (h : off + 2 ≤ b.length) :
    getByte (writeBytes b off [x, y]) off = x := by
  rw [getByte_writeBytes_in (by simpa using h) (by omega) (by simp)]
  simp [getByte]

theorem getByte_write2_self1 {b : Buf} {off x y : Nat} (h : off + 2 ≤ b.length) :
    getByte (writeBytes b off [x, y]) (off + 1) = y := by
  rw [getByte_writeBytes_in (by simpa using h) (by omega) (by simp)]
  simp [getByte]

theorem getByte_write2_out {b : Buf} {off x y j : Nat} (h : off + 2 ≤ b.length)
    (hj : j < off ∨ off + 2 ≤ j) : getByte (writeBytes b off [x, y]) j = getByte b j := by
  rcases hj with hj | hj
  · exact getByte_writeBytes_lt (by simpa using h) hj
  · exact getByte_writeBytes_ge (by simpa using h) (by simpa using hj)

/-! ### Header field reduction lemmas -/

theorem lower_ok {b : Buf} (h : 2 ≤ b.length) : header.lower b = .ok (hLower b) := by
  rw [header.lower, header.OFF_LOWER, read_u16_le_ok (by omega)]
  rfl

theorem upper_ok {b : Buf} (h : 4 ≤ b.length) : header.upper b = .ok (hUpper b) := by
  rw [header.upper, header.OFF_UPPER, read_u16_le_ok (by omega)]
  rfl

theorem slot_count_ok {b : Buf} (h : 6 ≤ b.length) :
    header.slot_count b = .ok (hSlotCount b) := by
  rw [header.slot_count, header.OFF_SLOT_COUNT, read_u16_le_ok (by omega)]
  rfl

theorem flags_ok {b : Buf} (h : 8 ≤ b.length) : header.flags b = .ok (hFlags b) := by
  rw [header.flags, header.OFF_FLAGS, read_u16_le_ok (by omega)]
  rfl

theorem set_lower_ok {b : Buf} {v : Nat} (h : 2 ≤ b.length) :
    header.set_lower b v = .ok (writeBytes b 0 [v % 256, v / 256 % 256]) := by
  rw [header.set_lower, header.OFF_LOWER, write_u16_le_ok (by omega)]

theorem set_upper_ok {b : Buf} {v : Nat} (h : 4 ≤ b.length) :
    header.set_upper b v = .ok (writeBytes b 2 [v % 256, v / 256 % 256]) := by
  rw [header.set_upper, header.OFF_UPPER, write_u16_le_ok (by omega)]

theorem set_slot_count_ok {b : Buf} {v : Nat} (h : 6 ≤ b.length) :
    header.set_slot_count b v = .ok (writeBytes b 4 [v % 256, v / 256 % 256]) := by
  rw [header.set_slot_count, header.OFF_SLOT_COUNT, write_u16_le_ok (by omega)]

theorem set_flags_ok {b : Buf} {v : Nat} (h : 8 ≤ b.length) :
    header.set_flags b v = .ok (writeBytes b 6 [v % 256, v / 256 % 256]) := by
  rw [header.set_flags, header.OFF_FLAGS, write_u16_le_ok (by omega)]

/-! ### Slot codec reduction lemmas -/

/-- The buffer produced by a successful `write_slot`. -/
def slotWrite (b : Buf) (id : Nat) (s : slot.Slot) : Buf :=
  writeBytes (writeBytes (writeBytes b (16 + id * 6)
      [s.offset % 256, s.offset / 256 % 256]) (16 + id * 6 + 2)
      [s.len % 256, s.len / 256 % 256]) (16 + id * 6 + 4)
      [s.flags % 256, s.flags / 256 % 256]

theorem read_slot_ok {b : Buf} {id : Nat} (h : 16 + id * 6 + 6 ≤ b.length) :
    slot.read_slot b id = .ok ⟨sOffset b id, sLen b id, sFlags b id⟩ := by
  rw [slot.read_slot, slot.current_pos]
  simp only [slot.slot_off, SLOTTED_HEADER_SIZE, SLOTTED_SLOT_SIZE]
  rw [if_neg (by omega)]
  simp only [Nat.add_zero]
  rw [read_u16_le_ok (show 16 + id * 6 + 2 ≤ b.length by omega)]
  simp only []
  rw [read_u16_le_ok (show 16 + id * 6 + 2 + 2 ≤ b.length by omega)]
  simp only []
  rw [read_u16_le_ok (show 16 + id * 6 + 4 + 2 ≤ b.length by omega)]
  simp only [sOffset, sLen, sFlags,
    show 16 + id * 6 = 16 + 6 * id from by ring,
    show 16 + id * 6 + 1 = 16 + 6 * id + 1 from by ring,
    show 16 + id * 6 + 2 = 16 + 6 * id + 2 from by ring,
    show 16 + id * 6 + 2 + 1 = 16 + 6 * id + 3 from by ring,
    show 16 + 6 * id + 2 + 1 = 16 + 6 * id + 3 from by ring,
    show 16 + id * 6 + 4 = 16 + 6 * id + 4 from by ring,
    show 16 + id * 6 + 4 + 1 = 16 + 6 * id + 5 from by ring,
    show 16 + 6 * id + 4 + 1 = 16 + 6 * id + 5 from by ring]

theorem write_slot_ok {b : Buf} {id : Nat} {s : slot.Slot}
    (h : 16 + id * 6 + 6 ≤ b.length) :
    slot.write_slot b id s = .ok (slotWrite b id s) := by
  have h0 : (writeBytes b (16 + id * 6) [s.offset % 256, s.offset / 256 % 256]).length
      = b.length := by
    rw [length_writeBytes] <;> simp <;> omega
  have h1 : (writeBytes (writeBytes b (16 + id * 6) [s.offset % 256, s.offset / 256 % 256])
      (16 + id * 6 + 2) [s.len % 256, s.len / 256 % 256]).length = b.length := by
    rw [length_writeBytes] <;> simp [h0] <;> omega
  rw [slot.write_slot, slot.current_pos]
  simp only [slot.slot_off, SLOTTED_HEADER_SIZE, SLOTTED_SLOT_SIZE]
  rw [if_neg (by omega)]
  simp only [Nat.add_zero]
  rw [write_u16_le_ok (show 16 + id * 6 + 2 ≤ b.length by omega)]
  simp only []
  rw [write_u16_le_ok (by rw [h0]; omega)]
  simp only []
  rw [write_u16_le_ok (by rw [h1]; omega)]
  rw [slotWrite]

theorem length_slotWrite {b : Buf} {id : Nat} {s : slot.Slot}
    (h : 16 + id * 6 + 6 ≤ b.length) : (slotWrite b id s).length = b.length := by
  have h0 : (writeBytes b (16 + id * 6) [s.offset % 256, s.offset / 256 % 256]).length
      = b.length := by
    rw [length_writeBytes] <;> simp <;> omega
  have h1 : (writeBytes (writeBytes b (16 + id * 6) [s.offset % 256, s.offset / 256 % 256])
      (16 + id * 6 + 2) [s.len % 256, s.len / 256 % 256]).length = b.length := by
    rw [length_writeBytes] <;> simp [h0] <;> omega
  rw [slotWrite, length_writeBytes] <;> simp [h1] <;> omega

/-! ### Bitwise helpers -/

theorem lor_one_mod_two (f : Nat) : (f ||| 1) % 2 = 1 := by
  have h2 : (f ||| 1).testBit 0 = true := by
    rw [Nat.testBit_or, Nat.testBit_one_zero]
    simp
  rw [Nat.testBit_zero] at h2
  exact of_decide_eq_true h2

theorem lor_lt_two16 {f m : Nat} (hf : f < 65536) (hm : m < 65536) : f ||| m < 65536 := by
  have h1 : f < 2 ^ 16 := by norm_num; exact hf
  have h2 : m < 2 ^ 16 := by norm_num; exact hm
  have h3 := Nat.or_lt_two_pow h1 h2
  norm_num at h3
  exact h3

theorem and16_eq_zero_iff (f : Nat) : f &&& 16 = 0 ↔ f.testBit 4 = false := by
  have h : f &&& 16 = (f.testBit 4).toNat * 16 := by
    have := Nat.and_two_pow f 4
    norm_num at this
    exact this
  rw [h]
  cases f.testBit 4 <;> simp

theorem testBit4_lor16 (f : Nat) : (f ||| 16).testBit 4 = true := by
  rw [Nat.testBit_or]
  have : (16 : Nat).testBit 4 = true := by decide
  simp [this]

theorem clear_flag_le (f m : Nat) : header.clear_flag f m ≤ f :=
  Nat.and_le_left

/-- `is_dead` tests bit 0: it is `false` exactly on even flag words. -/
theorem is_dead_eq (f : Nat) : slot.is_dead f = decide (f % 2 = 1) := by
  rw [slot.is_dead, Nat.and_one_is_mod]
  rcases Nat.mod_two_eq_zero_or_one f with h | h <;> simp [h]

theorem getByte_slotWrite_out {b : Buf} {id : Nat} {s : slot.Slot} {j : Nat}
    (h : 16 + id * 6 + 6 ≤ b.length) (hj : j < 16 + 6 * id ∨ 16 + 6 * id + 6 ≤ j) :
    getByte (slotWrite b id s) j = getByte b j := by
  have h0 : (writeBytes b (16 + id * 6) [s.offset % 256, s.offset / 256 % 256]).length
      = b.length := by
    rw [length_writeBytes] <;> simp <;> omega
  have h1 : (writeBytes (writeBytes b (16 + id * 6) [s.offset % 256, s.offset / 256 % 256])
      (16 + id * 6 + 2) [s.len % 256, s.len / 256 % 256]).length = b.length := by
    rw [length_writeBytes] <;> simp [h0] <;> omega
  rw [slotWrite, getByte_write2_out (by rw [h1]; omega) (by omega),
    getByte_write2_out (by rw [h0]; omega) (by omega),
    getByte_write2_out (by omega) (by omega)]

/-- Full pointwise characterization of the buffer a `write_slot` produces. -/
theorem getByte_slotWrite {b : Buf} {id : Nat} {s : slot.Slot}
    (h : 16 + id * 6 + 6 ≤ b.length) (j : Nat) :
    getByte (slotWrite b id s) j =
      if j = 16 + id * 6 then s.offset % 256
      else if j = 16 + id * 6 + 1 then s.offset / 256 % 256
      else if j = 16 + id * 6 + 2 then s.len % 256
      else if j = 16 + id * 6 + 3 then s.len / 256 % 256
      else if j = 16 + id * 6 + 4 then s.flags % 256
      else if j = 16 + id * 6 + 5 then s.flags / 256 % 256
      else getByte b j := by
  have h0 : (writeBytes b (16 + id * 6) [s.offset % 256, s.offset / 256 % 256]).length
      = b.length := by
    rw [length_writeBytes] <;> simp <;> omega
  have h1 : (writeBytes (writeBytes b (16 + id * 6) [s.offset % 256, s.offset / 256 % 256])
      (16 + id * 6 + 2) [s.len % 256, s.len / 256 % 256]).length = b.length := by
    rw [length_writeBytes] <;> simp [h0] <;> omega
  rw [slotWrite, getByte_writeBytes j (by simp [h1]; omega),
    getByte_writeBytes j (by simp [h0]; omega),
    getByte_writeBytes j (by simp; omega)]
  simp only [List.length_cons, List.length_nil]
  by_cases c0 : j = 16 + id * 6
  · rw [if_neg (by omega), if_neg (by omega), if_pos (by omega), if_pos c0,
      show j - (16 + id * 6) = 0 from by omega]
    simp [getByte]
  by_cases c1 : j = 16 + id * 6 + 1
  · rw [if_neg (by omega), if_neg (by omega), if_pos (by omega), if_neg c0, if_pos c1,
      show j - (16 + id * 6) = 1 from by omega]
    simp [getByte]
  by_cases c2 : j = 16 + id * 6 + 2
  · rw [if_neg (by omega), if_pos (by omega), if_neg c0, if_neg c1, if_pos c2,
      show j - (16 + id * 6 + 2) = 0 from by omega]
    simp [getByte]
  by_cases c3 : j = 16 + id * 6 + 3
  · rw [if_neg (by omega), if_pos (by omega), if_neg c0, if_neg c1, if_neg c2, if_pos c3,
      show j - (16 + id * 6 + 2) = 1 from by omega]
    simp [getByte]
  by_cases c4 : j = 16 + id * 6 + 4
  · rw [if_pos (by omega), if_neg c0, if_neg c1, if_neg c2, if_neg c3, if_pos c4,
      show j - (16 + id * 6 + 4) = 0 from by omega]
    simp [getByte]
  by_cases c5 : j = 16 + id * 6 + 5
  · rw [if_pos (by omega), if_neg c0, if_neg c1, if_neg c2, if_neg c3, if_neg c4, if_pos c5,
      show j - (16 + id * 6 + 4) = 1 from by omega]
    simp [getByte]
  · rw [if_neg (by omega), if_neg (by omega), if_neg (by omega), if_neg c0, if_neg c1,
      if_neg c2, if_neg c3, if_neg c4, if_neg c5]

theorem sOffset_slotWrite_self {b : Buf} {id : Nat} {s : slot.Slot}
    (h : 16 + id * 6 + 6 ≤ b.length) :
    sOffset (slotWrite b id s) id = s.offset % 65536 := by
  rw [sOffset, getByte_slotWrite h, getByte_slotWrite h,
    if_pos (by omega : 16 + 6 * id = 16 + id * 6), if_neg (by omega),
    if_pos (by omega : 16 + 6 * id + 1 = 16 + id * 6 + 1)]
  omega

theorem sLen_slotWrite_self {b : Buf} {id : Nat} {s : slot.Slot}
    (h : 16 + id * 6 + 6 ≤ b.length) :
    sLen (slotWrite b id s) id = s.len % 65536 := by
  rw [sLen, getByte_slotWrite h, getByte_slotWrite h,
    if_neg (by omega), if_neg (by omega),
    if_pos (by omega : 16 + 6 * id + 2 = 16 + id * 6 + 2),
    if_neg (by omega), if_neg (by omega), if_neg (by omega),
    if_pos (by omega : 16 + 6 * id + 3 = 16 + id * 6 + 3)]
  omega

theorem sFlags_slotWrite_self {b : Buf} {id : Nat} {s : slot.Slot}
    (h : 16 + id * 6 + 6 ≤ b.length) :
    sFlags (slotWrite b id s) id = s.flags % 65536 := by
  rw [sFlags, getByte_slotWrite h, getByte_slotWrite h,
    if_neg (by omega), if_neg (by omega), if_neg (by omega), if_neg (by omega),
    if_pos (by omega : 16 + 6 * id + 4 = 16 + id * 6 + 4),
    if_neg (by omega), if_neg (by omega), if_neg (by omega), if_neg (by omega),
    if_neg (by omega),
    if_pos (by omega : 16 + 6 * id + 5 = 16 + id * 6 + 5)]
  omega

theorem sOffset_slotWrite_other {b : Buf} {id : Nat} {s : slot.Slot} {j : Nat}
    (h : 16 + id * 6 + 6 ≤ b.length) (hne : j ≠ id) :
    sOffset (slotWrite b id s) j = sOffset b j := by
  rcases Nat.lt_or_ge j id with hj | hj
  · rw [sOffset, getByte_slotWrite_out h (by omega), getByte_slotWrite_out h (by omega),
      sOffset]
  · have hj2 : id < j := by omega
    rw [sOffset, getByte_slotWrite_out h (by omega), getByte_slotWrite_out h (by omega),
      sOffset]

theorem sLen_slotWrite_other {b : Buf} {id : Nat} {s : slot.Slot} {j : Nat}
    (h : 16 + id * 6 + 6 ≤ b.length) (hne : j ≠ id) :
    sLen (slotWrite b id s) j = sLen b j := by
  rcases Nat.lt_or_ge j id with hj | hj
  · rw [sLen, getByte_slotWrite_out h (by omega), getByte_slotWrite_out h (by omega), sLen]
  · have hj2 : id < j := by omega
    rw [sLen, getByte_slotWrite_out h (by omega), getByte_slotWrite_out h (by omega), sLen]

theorem sFlags_slotWrite_other {b : Buf} {id : Nat} {s : slot.Slot} {j : Nat}
    (h : 16 + id * 6 + 6 ≤ b.length) (hne : j ≠ id) :
    sFlags (slotWrite b id s) j = sFlags b j := by
  rcases Nat.lt_or_ge j id with hj | hj
  · rw [sFlags, getByte_slotWrite_out h (by omega), getByte_slotWrite_out h (by omega),
      sFlags]
  · have hj2 : id < j := by omega
    rw [sFlags, getByte_slotWrite_out h (by omega), getByte_slotWrite_out h (by omega),
      sFlags]

theorem hLower_slotWrite {b : Buf} {id : Nat} {s : slot.Slot}
    (h : 16 + id * 6 + 6 ≤ b.length) : hLower (slotWrite b id s) = hLower b := by
  rw [hLower, getByte_slotWrite_out h (by omega), getByte_slotWrite_out h (by omega), hLower]

theorem hUpper_slotWrite {b : Buf} {id : Nat} {s : slot.Slot}
    (h : 16 + id * 6 + 6 ≤ b.length) : hUpper (slotWrite b id s) = hUpper b := by
  rw [hUpper, getByte_slotWrite_out h (by omega), getByte_slotWrite_out h (by omega), hUpper]

theorem hSlotCount_slotWrite {b : Buf} {id : Nat} {s : slot.Slot}
    (h : 16 + id * 6 + 6 ≤ b.length) : hSlotCount (slotWrite b id s) = hSlotCount b := by
  rw [hSlotCount, getByte_slotWrite_out h (by omega), getByte_slotWrite_out h (by omega),
    hSlotCount]

theorem hFlags_slotWrite {b : Buf} {id : Nat} {s : slot.Slot}
    (h : 16 + id * 6 + 6 ≤ b.length) : hFlags (slotWrite b id s) = hFlags b := by
  rw [hFlags, getByte_slotWrite_out h (by omega), getByte_slotWrite_out h (by omega), hFlags]

theorem getByte_pair_lt {x y : Nat} (hx : x < 256) (hy : y < 256) (j : Nat) :
    getByte [x, y] j < 256 := by
  rcases j with _ | _ | j <;> simp [getByte, hx, hy]

theorem Bytes_slotWrite {b : Buf} {id : Nat} {s : slot.Slot}
    (h : 16 + id * 6 + 6 ≤ b.length) (hb : Bytes b) : Bytes (slotWrite b id s) := by
  have h0 : (writeBytes b (16 + id * 6) [s.offset % 256, s.offset / 256 % 256]).length
      = b.length := by
    rw [length_writeBytes] <;> simp <;> omega
  have h1 : (writeBytes (writeBytes b (16 + id * 6) [s.offset % 256, s.offset / 256 % 256])
      (16 + id * 6 + 2) [s.len % 256, s.len / 256 % 256]).length = b.length := by
    rw [length_writeBytes] <;> simp [h0] <;> omega
  refine Bytes_writeBytes (Bytes_writeBytes (Bytes_writeBytes hb ?_ ?_) ?_ ?_) ?_ ?_
  · exact getByte_pair_lt (by omega) (by omega)
  · simp; omega
  · exact getByte_pair_lt (by omega) (by omega)
  · simp [h0]; omega
  · exact getByte_pair_lt (by omega) (by omega)
  · simp [h1]; omega

/-! ### Validation and free-space reduction -/

theorem validate_header_ok_iff {b : Buf} (h8 : 8 ≤ b.length) :
    validate_header b = .ok () ↔
      (16 ≤ hLower b ∧ hUpper b ≤ 4096 ∧ hLower b ≤ hUpper b ∧
        hLower b = 16 + hSlotCount b * 6) := by
  rw [validate_header, lower_ok (by omega), upper_ok (by omega), slot_count_ok (by omega)]
  simp only [SLOTTED_HEADER_SIZE, PAGE_SIZE, SLOTTED_SLOT_SIZE]
  split_ifs with h1 h2 h3 h4 h5 <;> simp <;> omega

theorem free_space_ok {b : Buf} (h4 : 4 ≤ b.length) (hlu : hLower b ≤ hUpper b) :
    free_space b = .ok (hUpper b - hLower b) := by
  rw [free_space, upper_ok (by omega), lower_ok (by omega)]
  simp only []
  rw [if_neg (by omega)]

/-! ### Tombstone scan reduction -/

theorem findDeadFrom_none {b : Buf} (n : Nat) : ∀ i, 16 + (i + n) * 6 ≤ b.length →
    (∀ j, i ≤ j → j < i + n → sFlags b j % 2 = 0) →
    findDeadFrom b i n = .ok none := by
  induction n with
  | zero => intro i _ _; rfl
  | succ n ih =>
    intro i hlen hall
    rw [findDeadFrom, read_slot_ok (by omega)]
    simp only [is_dead_eq]
    have hi : sFlags b i % 2 = 0 := hall i (Nat.le_refl i) (by omega)
    rw [hi]
    norm_num
    exact ih (i + 1) (by omega) (fun j hj1 hj2 => hall j (by omega) (by omega))

theorem findDeadFrom_found {b : Buf} (n : Nat) : ∀ i k, 16 + (i + n) * 6 ≤ b.length →
    i ≤ k → k < i + n → sFlags b k % 2 = 1 →
    (∀ j, i ≤ j → j < k → sFlags b j % 2 = 0) →
    findDeadFrom b i n = .ok (some k) := by
  induction n with
  | zero => intro i k _ h1 h2 _ _; omega
  | succ n ih =>
    intro i k hlen hik hkn hdead hmin
    rw [findDeadFrom, read_slot_ok (by omega)]
    simp only [is_dead_eq]
    by_cases hik2 : i = k
    · subst hik2
      rw [hdead]
      simp
    · have hi : sFlags b i % 2 = 0 := hmin i (Nat.le_refl i) (by omega)
      rw [hi]
      norm_num
      exact ih (i + 1) k (by omega) (by omega) (by omega) hdead
        (fun j hj1 hj2 => hmin j (by omega) hj2)

/-- `find_free_slot` when HAS_FREE_SLOTS is clear: no scan, no mutation. -/
theorem ffs_noflag {b : Buf} (h8 : 8 ≤ b.length) (hf : hFlags b &&& 16 = 0) :
    find_free_slot b = (.ok none, b) := by
  rw [find_free_slot, flags_ok (by omega)]
  simp only [header.FLAG_HAS_FREE_SLOTS]
  rw [if_pos (by simp [hf])]

/-- `find_free_slot` when the flag is set and slot `k` is the first dead
slot: returns `k`, no mutation. -/
theorem ffs_found {b : Buf} {k : Nat} (h8 : 8 ≤ b.length)
    (hsc : 16 + hSlotCount b * 6 ≤ b.length)
    (hf : hFlags b &&& 16 ≠ 0) (hk : k < hSlotCount b)
    (hdead : sFlags b k % 2 = 1)
    (hmin : ∀ j, j < k → sFlags b j % 2 = 0) :
    find_free_slot b = (.ok (some k), b) := by
  rw [find_free_slot, flags_ok (by omega)]
  simp only [header.FLAG_HAS_FREE_SLOTS]
  rw [if_neg (by simp [hf]), slot_count_ok (by omega)]
  simp only []
  rw [findDeadFrom_found (hSlotCount b) 0 k (by omega) (by omega) (by omega) hdead
    (fun j _ hj => hmin j hj)]

/-- The buffer produced when the tombstone scan lazily clears
HAS_FREE_SLOTS. -/
def clearBuf (b : Buf) : Buf :=
  writeBytes b 6 [header.clear_flag (hFlags b) 16 % 256,
    header.clear_flag (hFlags b) 16 / 256 % 256]

/-- `find_free_slot` when the flag is set but no slot is dead: clears the
flag (a buffer mutation) and returns none. -/
theorem ffs_clear {b : Buf} (h8 : 8 ≤ b.length)
    (hsc : 16 + hSlotCount b * 6 ≤ b.length)
    (hf : hFlags b &&& 16 ≠ 0)
    (hall : ∀ j, j < hSlotCount b → sFlags b j % 2 = 0) :
    find_free_slot b = (.ok none, clearBuf b) := by
  rw [find_free_slot, flags_ok (by omega)]
  simp only [header.FLAG_HAS_FREE_SLOTS]
  rw [if_neg (by simp [hf]), slot_count_ok (by omega)]
  simp only []
  rw [findDeadFrom_none (hSlotCount b) 0 (by omega) (fun j _ hj => hall j (by omega))]
  simp only []
  rw [set_flags_ok (by omega), clearBuf]

theorem clearBuf_length {b : Buf} (h8 : 8 ≤ b.length) :
    (clearBuf b).length = b.length := by
  rw [clearBuf, length_writeBytes (by simp; omega)]

theorem clearBuf_getByte_out {b : Buf} (h8 : 8 ≤ b.length) (p : Nat)
    (hp : p < 6 ∨ 8 ≤ p) : getByte (clearBuf b) p = getByte b p := by
  rw [clearBuf, getByte_write2_out (by omega) (by omega)]

theorem clearBuf_hLower {b : Buf} (h8 : 8 ≤ b.length) : hLower (clearBuf b) = hLower b := by
  rw [hLower, clearBuf_getByte_out h8 0 (by omega), clearBuf_getByte_out h8 1 (by omega),
    hLower]

theorem clearBuf_hUpper {b : Buf} (h8 : 8 ≤ b.length) : hUpper (clearBuf b) = hUpper b := by
  rw [hUpper, clearBuf_getByte_out h8 2 (by omega), clearBuf_getByte_out h8 3 (by omega),
    hUpper]

theorem clearBuf_hSlotCount {b : Buf} (h8 : 8 ≤ b.length) :
    hSlotCount (clearBuf b) = hSlotCount b := by
  rw [hSlotCount, clearBuf_getByte_out h8 4 (by omega),
    clearBuf_getByte_out h8 5 (by omega), hSlotCount]

theorem clearBuf_hFlags {b : Buf} (h8 : 8 ≤ b.length) :
    hFlags (clearBuf b) = header.clear_flag (hFlags b) 16 % 65536 := by
  rw [hFlags, clearBuf, getByte_write2_self0 (by omega),
    show (7:Nat) = 6 + 1 from rfl, getByte_write2_self1 (by omega)]
  omega

theorem clearBuf_sOffset {b : Buf} (h8 : 8 ≤ b.length) (j : Nat) :
    sOffset (clearBuf b) j = sOffset b j := by
  rw [sOffset, clearBuf_getByte_out h8 _ (by omega), clearBuf_getByte_out h8 _ (by omega),
    sOffset]

theorem clearBuf_sLen {b : Buf} (h8 : 8 ≤ b.length) (j : Nat) :
    sLen (clearBuf b) j = sLen b j := by
  rw [sLen, clearBuf_getByte_out h8 _ (by omega), clearBuf_getByte_out h8 _ (by omega), sLen]

theorem clearBuf_sFlags {b : Buf} (h8 : 8 ≤ b.length) (j : Nat) :
    sFlags (clearBuf b) j = sFlags b j := by
  rw [sFlags, clearBuf_getByte_out h8 _ (by omega), clearBuf_getByte_out h8 _ (by omega),
    sFlags]

/-! ### Derived facts about a validated page -/

theorem hdr_bounds {b : Buf} (hlen : b.length = 4096) (hv : validate_header b = .ok ()) :
    16 ≤ hLower b ∧ hUpper b ≤ 4096 ∧ hLower b ≤ hUpper b ∧
      hLower b = 16 + hSlotCount b * 6 :=
  (validate_header_ok_iff (by omega)).mp hv

theorem clearBuf_valid {b : Buf} (hlen : b.length = 4096)
    (hv : validate_header b = .ok ()) : validate_header (clearBuf b) = .ok () := by
  have hb := hdr_bounds hlen hv
  rw [validate_header_ok_iff (by rw [clearBuf_length (by omega)]; omega),
    clearBuf_hLower (by omega), clearBuf_hUpper (by omega),
    clearBuf_hSlotCount (by omega)]
  exact ⟨by omega, by omega, by omega, by omega⟩


theorem pair_val_lt {b : Buf} (hb : Bytes b) (i j : Nat) :
    getByte b i + 256 * getByte b j < 65536 := by
  have h1 := hb i
  have h2 := hb j
  omega

theorem hFlags_lt {b : Buf} (hb : Bytes b) : hFlags b < 65536 := pair_val_lt hb 6 7

theorem sFlags_lt {b : Buf} (hb : Bytes b) (i : Nat) : sFlags b i < 65536 :=
  pair_val_lt hb _ _

theorem sOffset_lt {b : Buf} (hb : Bytes b) (i : Nat) : sOffset b i < 65536 :=
  pair_val_lt hb _ _

theorem sLen_lt {b : Buf} (hb : Bytes b) (i : Nat) : sLen b i < 65536 :=
  pair_val_lt hb _ _

/-! ### delete: characterization -/

/-- The buffer a live-slot `delete` produces. -/
def deleteBuf (b : Buf) (id : Nat) : Buf :=
  writeBytes (slotWrite b id ⟨sOffset b id, sLen b id, sFlags b id ||| 1⟩) 6
    [header.set_flag (hFlags b) 16 % 256, header.set_flag (hFlags b) 16 / 256 % 256]

theorem delete_invalid {b : Buf} {id : Nat}
    (hlen : b.length = 4096) (hv : validate_header b = .ok ())
    (hid : hSlotCount b ≤ id) :
    delete b id = (.error (.InvalidArgument "invalid slot_id"), b) := by
  rw [delete, hv]
  simp only []
  rw [slot_count_ok (by omega)]
  simp only []
  rw [if_pos (by omega)]

theorem delete_dead {b : Buf} {id : Nat}
    (hlen : b.length = 4096) (hv : validate_header b = .ok ())
    (hid : id < hSlotCount b) (hdead : sFlags b id % 2 = 1) :
    delete b id = (.ok (), b) := by
  have hb := hdr_bounds hlen hv
  have hid6 : 16 + id * 6 + 6 ≤ b.length := by omega
  rw [delete, hv]
  simp only []
  rw [slot_count_ok (by omega)]
  simp only []
  rw [if_neg (by omega), read_slot_ok hid6]
  simp only [is_dead_eq]
  rw [hdead]
  simp

theorem delete_live_eq {b : Buf} {id : Nat}
    (hlen : b.length = 4096) (hv : validate_header b = .ok ())
    (hid : id < hSlotCount b) (hlive : sFlags b id % 2 = 0) :
    delete b id = (.ok (), deleteBuf b id) := by
  have hb := hdr_bounds hlen hv
  have hid6 : 16 + id * 6 + 6 ≤ b.length := by omega
  rw [delete, hv]
  simp only []
  rw [slot_count_ok (by omega)]
  simp only []
  rw [if_neg (by omega), read_slot_ok hid6]
  simp only [is_dead_eq]
  rw [hlive]
  norm_num
  rw [slot.Slot.mark_flags_dead]
  simp only []
  rw [write_slot_ok hid6]
  simp only []
  rw [flags_ok (by rw [length_slotWrite hid6]; omega)]
  simp only []
  rw [set_flags_ok (by rw [length_slotWrite hid6]; omega)]
  simp only [deleteBuf, hFlags_slotWrite hid6, header.FLAG_HAS_FREE_SLOTS]

theorem deleteBuf_length {b : Buf} {id : Nat}
    (hid6 : 16 + id * 6 + 6 ≤ b.length) (h8 : 8 ≤ b.length) :
    (deleteBuf b id).length = b.length := by
  rw [deleteBuf, length_writeBytes (by rw [length_slotWrite hid6]; simp; omega),
    length_slotWrite hid6]

theorem deleteBuf_hLower {b : Buf} {id : Nat}
    (hid6 : 16 + id * 6 + 6 ≤ b.length) (h8 : 8 ≤ b.length) :
    hLower (deleteBuf b id) = hLower b := by
  rw [deleteBuf, hLower, getByte_write2_out (by rw [length_slotWrite hid6]; omega) (by omega),
    getByte_write2_out (by rw [length_slotWrite hid6]; omega) (by omega),
    getByte_slotWrite_out hid6 (by omega), getByte_slotWrite_out hid6 (by omega), hLower]

theorem deleteBuf_hUpper {b : Buf} {id : Nat}
    (hid6 : 16 + id * 6 + 6 ≤ b.length) (h8 : 8 ≤ b.length) :
    hUpper (deleteBuf b id) = hUpper b := by
  rw [deleteBuf, hUpper, getByte_write2_out (by rw [length_slotWrite hid6]; omega) (by omega),
    getByte_write2_out (by rw [length_slotWrite hid6]; omega) (by omega),
    getByte_slotWrite_out hid6 (by omega), getByte_slotWrite_out hid6 (by omega), hUpper]

theorem deleteBuf_hSlotCount {b : Buf} {id : Nat}
    (hid6 : 16 + id * 6 + 6 ≤ b.length) (h8 : 8 ≤ b.length) :
    hSlotCount (deleteBuf b id) = hSlotCount b := by
  rw [deleteBuf, hSlotCount,
    getByte_write2_out (by rw [length_slotWrite hid6]; omega) (by omega),
    getByte_write2_out (by rw [length_slotWrite hid6]; omega) (by omega),
    getByte_slotWrite_out hid6 (by omega), getByte_slotWrite_out hid6 (by omega), hSlotCount]

theorem deleteBuf_hFlags {b : Buf} {id : Nat}
    (hid6 : 16 + id * 6 + 6 ≤ b.length) (h8 : 8 ≤ b.length) :
    hFlags (deleteBuf b id) = (hFlags b ||| 16) % 65536 := by
  rw [deleteBuf, hFlags,
    getByte_write2_self0 (by rw [length_slotWrite hid6]; omega),
    show (7:Nat) = 6 + 1 from rfl,
    getByte_write2_self1 (by rw [length_slotWrite hid6]; omega)]
  rw [header.set_flag]
  omega

theorem deleteBuf_sOffset {b : Buf} {id : Nat}
    (hid6 : 16 + id * 6 + 6 ≤ b.length) (h8 : 8 ≤ b.length) :
    sOffset (deleteBuf b id) id = sOffset b id % 65536 := by
  rw [deleteBuf, sOffset,
    getByte_write2_out (by rw [length_slotWrite hid6]; omega) (by omega),
    getByte_write2_out (by rw [length_slotWrite hid6]; omega) (by omega)]
  exact sOffset_slotWrite_self (s := ⟨sOffset b id, sLen b id, sFlags b id ||| 1⟩) hid6

theorem deleteBuf_sLen {b : Buf} {id : Nat}
    (hid6 : 16 + id * 6 + 6 ≤ b.length) (h8 : 8 ≤ b.length) :
    sLen (deleteBuf b id) id = sLen b id % 65536 := by
  rw [deleteBuf, sLen,
    getByte_write2_out (by rw [length_slotWrite hid6]; omega) (by omega),
    getByte_write2_out (by rw [length_slotWrite hid6]; omega) (by omega)]
  exact sLen_slotWrite_self (s := ⟨sOffset b id, sLen b id, sFlags b id ||| 1⟩) hid6

theorem deleteBuf_sFlags {b : Buf} {id : Nat}
    (hid6 : 16 + id * 6 + 6 ≤ b.length) (h8 : 8 ≤ b.length) :
    sFlags (deleteBuf b id) id = (sFlags b id ||| 1) % 65536 := by
  rw [deleteBuf, sFlags,
    getByte_write2_out (by rw [length_slotWrite hid6]; omega) (by omega),
    getByte_write2_out (by rw [length_slotWrite hid6]; omega) (by omega)]
  exact sFlags_slotWrite_self (s := ⟨sOffset b id, sLen b id, sFlags b id ||| 1⟩) hid6

theorem deleteBuf_sOffset_other {b : Buf} {id j : Nat}
    (hid6 : 16 + id * 6 + 6 ≤ b.length) (h8 : 8 ≤ b.length) (hne : j ≠ id) :
    sOffset (deleteBuf b id) j = sOffset b j := by
  rw [deleteBuf, sOffset,
    getByte_write2_out (by rw [length_slotWrite hid6]; omega) (by omega),
    getByte_write2_out (by rw [length_slotWrite hid6]; omega) (by omega)]
  exact sOffset_slotWrite_other (s := ⟨sOffset b id, sLen b id, sFlags b id ||| 1⟩) hid6 hne

theorem deleteBuf_sLen_other {b : Buf} {id j : Nat}
    (hid6 : 16 + id * 6 + 6 ≤ b.length) (h8 : 8 ≤ b.length) (hne : j ≠ id) :
    sLen (deleteBuf b id) j = sLen b j := by
  rw [deleteBuf, sLen,
    getByte_write2_out (by rw [length_slotWrite hid6]; omega) (by omega),
    getByte_write2_out (by rw [length_slotWrite hid6]; omega) (by omega)]
  exact sLen_slotWrite_other (s := ⟨sOffset b id, sLen b id, sFlags b id ||| 1⟩) hid6 hne

theorem deleteBuf_sFlags_other {b : Buf} {id j : Nat}
    (hid6 : 16 + id * 6 + 6 ≤ b.length) (h8 : 8 ≤ b.length) (hne : j ≠ id) :
    sFlags (deleteBuf b id) j = sFlags b j := by
  rw [deleteBuf, sFlags,
    getByte_write2_out (by rw [length_slotWrite hid6]; omega) (by omega),
    getByte_write2_out (by rw [length_slotWrite hid6]; omega) (by omega)]
  exact sFlags_slotWrite_other (s := ⟨sOffset b id, sLen b id, sFlags b id ||| 1⟩) hid6 hne

theorem deleteBuf_tail {b : Buf} {id p : Nat}
    (hid6 : 16 + id * 6 + 6 ≤ b.length) (h8 : 8 ≤ b.length)
    (hp : 16 + id * 6 + 6 ≤ p) :
    getByte (deleteBuf b id) p = getByte b p := by
  rw [deleteBuf, getByte_write2_out (by rw [length_slotWrite hid6]; omega) (by omega),
    getByte_slotWrite_out hid6 (by omega)]

theorem deleteBuf_Bytes {b : Buf} {id : Nat}
    (hid6 : 16 + id * 6 + 6 ≤ b.length) (h8 : 8 ≤ b.length) (hb : Bytes b) :
    Bytes (deleteBuf b id) := by
  refine Bytes_writeBytes (Bytes_slotWrite hid6 hb) ?_ ?_
  · exact getByte_pair_lt (by omega) (by omega)
  · rw [length_slotWrite hid6]
    simp
    omega

/-! ### get: characterization -/

theorem get_invalid {b : Buf} {id : Nat}
    (hlen : b.length = 4096) (hv : validate_header b = .ok ())
    (hid : hSlotCount b ≤ id) :
    get b id = .error (.InvalidArgument "invalid slot_id") := by
  rw [get, hv]
  simp only []
  rw [slot_count_ok (by omega)]
  simp only []
  rw [if_pos (by omega)]

theorem get_dead {b : Buf} {id : Nat}
    (hlen : b.length = 4096) (hv : validate_header b = .ok ())
    (hid : id < hSlotCount b) (hdead : sFlags b id % 2 = 1) :
    get b id = .ok none := by
  have hb := hdr_bounds hlen hv
  rw [get, hv]
  simp only []
  rw [slot_count_ok (by omega)]
  simp only []
  rw [if_neg (by omega), read_slot_ok (by omega)]
  simp only [is_dead_eq]
  rw [hdead]
  simp

theorem get_live {b : Buf} {id : Nat}
    (hlen : b.length = 4096) (hv : validate_header b = .ok ())
    (hid : id < hSlotCount b) (hlive : sFlags b id % 2 = 0)
    (hup : hUpper b ≤ sOffset b id) (hend : sOffset b id + sLen b id ≤ 4096) :
    get b id = .ok (some (readBytes b (sOffset b id) (sLen b id))) := by
  have hb := hdr_bounds hlen hv
  rw [get, hv]
  simp only []
  rw [slot_count_ok (by omega)]
  simp only []
  rw [if_neg (by omega), read_slot_ok (by omega)]
  simp only [is_dead_eq]
  rw [hlive]
  norm_num
  rw [upper_ok (by omega)]
  simp only [PAGE_SIZE]
  rw [if_neg (by omega), if_neg (by omega)]

/-! ### update: characterization -/

/-- The buffer produced by an in-place (shrinking) `update`. -/
def updateBufIn (b : Buf) (id : Nat) (d : List Nat) : Buf :=
  slotWrite (writeBytes (writeBytes b (sOffset b id) d) (sOffset b id + d.length)
    (List.replicate (sOffset b id + sLen b id - (sOffset b id + d.length)) 0)) id
    ⟨sOffset b id, d.length, sFlags b id⟩

/-- The buffer produced by a moving (growing) `update`. -/
def updateBufMove (b : Buf) (id : Nat) (d : List Nat) : Buf :=
  writeBytes (slotWrite (writeBytes b (hUpper b - d.length) d) id
    ⟨hUpper b - d.length, d.length, sFlags b id⟩) 2
    [(hUpper b - d.length) % 256, (hUpper b - d.length) / 256 % 256]

theorem update_invalid {b : Buf} {id : Nat} {d : List Nat}
    (hlen : b.length = 4096) (hv : validate_header b = .ok ())
    (hid : hSlotCount b ≤ id) :
    update b id d = some (.error (.InvalidArgument "invalid slot_id"), b) := by
  rw [update, hv]
  simp only []
  rw [slot_count_ok (by omega)]
  simp only []
  rw [if_pos (by omega)]

theorem update_dead {b : Buf} {id : Nat} {d : List Nat}
    (hlen : b.length = 4096) (hv : validate_header b = .ok ())
    (hid : id < hSlotCount b) (hdead : sFlags b id % 2 = 1) :
    update b id d = some (.error (.Corruption "slot is dead"), b) := by
  have hb := hdr_bounds hlen hv
  rw [update, hv]
  simp only []
  rw [slot_count_ok (by omega)]
  simp only []
  rw [if_neg (by omega), read_slot_ok (by omega)]
  simp only [is_dead_eq]
  rw [hdead]
  simp

theorem update_toolarge {b : Buf} {id : Nat} {d : List Nat}
    (hlen : b.length = 4096) (hv : validate_header b = .ok ())
    (hid : id < hSlotCount b) (hlive : sFlags b id % 2 = 0)
    (hdl : 65535 < d.length) :
    update b id d = some (.error (.Corruption "record is too large"), b) := by
  have hb := hdr_bounds hlen hv
  rw [update, hv]
  simp only []
  rw [slot_count_ok (by omega)]
  simp only []
  rw [if_neg (show ¬ id ≥ hSlotCount b by omega), read_slot_ok (by omega)]
  simp only [is_dead_eq, decide_eq_true_eq]
  rw [if_neg (show ¬ sFlags b id % 2 = 1 by omega),
    if_pos (show d.length > 65535 by omega)]

theorem update_inplace_eq {b : Buf} {id : Nat} {d : List Nat}
    (hlen : b.length = 4096) (hv : validate_header b = .ok ())
    (hid : id < hSlotCount b) (hlive : sFlags b id % 2 = 0)
    (hdl : d.length ≤ sLen b id) (hdl65 : d.length ≤ 65535)
    (hnp : sOffset b id + sLen b id ≤ b.length) :
    update b id d = some (.ok false, updateBufIn b id d) := by
  have hb := hdr_bounds hlen hv
  have hid6 : 16 + id * 6 + 6 ≤ b.length := by omega
  have hoff : sOffset b id + d.length ≤ b.length := by omega
  have l1 : (writeBytes b (sOffset b id) d).length = b.length := length_writeBytes hoff
  rw [update, hv]
  simp only []
  rw [slot_count_ok (by omega)]
  simp only []
  rw [if_neg (show ¬ id ≥ hSlotCount b by omega), read_slot_ok hid6]
  simp only [is_dead_eq, decide_eq_true_eq]
  rw [if_neg (show ¬ sFlags b id % 2 = 1 by omega),
    if_neg (show ¬ d.length > 65535 by omega),
    if_pos (show d.length ≤ sLen b id from hdl),
    if_neg (show ¬ sOffset b id + d.length > b.length by omega)]
  rw [if_neg (show ¬ sOffset b id + sLen b id > (writeBytes b (sOffset b id) d).length by
    rw [l1]; omega)]
  simp only [slot.Slot.new]
  rw [write_slot_ok (by
    rw [length_writeBytes (by rw [l1]; simp; omega), l1]
    omega)]
  rw [updateBufIn]

theorem update_move_nospace {b : Buf} {id : Nat} {d : List Nat}
    (hlen : b.length = 4096) (hv : validate_header b = .ok ())
    (hid : id < hSlotCount b) (hlive : sFlags b id % 2 = 0)
    (hgt : sLen b id < d.length) (hdl65 : d.length ≤ 65535)
    (hsp : hUpper b - hLower b < d.length) :
    update b id d = some (.error (.NoSpace "not enough space"), b) := by
  have hb := hdr_bounds hlen hv
  rw [update, hv]
  simp only []
  rw [slot_count_ok (by omega)]
  simp only []
  rw [if_neg (show ¬ id ≥ hSlotCount b by omega), read_slot_ok (by omega)]
  simp only [is_dead_eq, decide_eq_true_eq]
  rw [if_neg (show ¬ sFlags b id % 2 = 1 by omega),
    if_neg (show ¬ d.length > 65535 by omega),
    if_neg (show ¬ d.length ≤ sLen b id by omega),
    free_space_ok (by omega) (by omega)]
  simp only []
  rw [if_pos (show d.length > hUpper b - hLower b by omega)]

theorem update_move_eq {b : Buf} {id : Nat} {d : List Nat}
    (hlen : b.length = 4096) (hv : validate_header b = .ok ())
    (hid : id < hSlotCount b) (hlive : sFlags b id % 2 = 0)
    (hgt : sLen b id < d.length)
    (hsp : d.length ≤ hUpper b - hLower b) :
    update b id d = some (.ok true, updateBufMove b id d) := by
  have hb := hdr_bounds hlen hv
  have hid6 : 16 + id * 6 + 6 ≤ b.length := by omega
  have hcp : hUpper b - d.length + d.length ≤ b.length := by omega
  have l1 : (writeBytes b (hUpper b - d.length) d).length = b.length :=
    length_writeBytes hcp
  rw [update, hv]
  simp only []
  rw [slot_count_ok (by omega)]
  simp only []
  rw [if_neg (show ¬ id ≥ hSlotCount b by omega), read_slot_ok hid6]
  simp only [is_dead_eq, decide_eq_true_eq]
  rw [if_neg (show ¬ sFlags b id % 2 = 1 by omega),
    if_neg (show ¬ d.length > 65535 by omega),
    if_neg (show ¬ d.length ≤ sLen b id by omega),
    free_space_ok (by omega) (by omega)]
  simp only []
  rw [if_neg (show ¬ d.length > hUpper b - hLower b by omega), upper_ok (by omega)]
  simp only []
  rw [if_neg (show ¬ hUpper b < d.length by omega),
    if_neg (show ¬ hUpper b > b.length by omega)]
  simp only [slot.Slot.new]
  rw [write_slot_ok (by rw [l1]; omega)]
  simp only []
  rw [set_upper_ok (by rw [length_slotWrite (by rw [l1]; omega), l1]; omega)]
  rw [updateBufMove]

theorem getByte_replicate (n j : Nat) : getByte (List.replicate n 0) j = 0 := by
  rw [getByte, List.getD_eq_getElem?_getD]
  rcases Nat.lt_or_ge j n with hj | hj
  · rw [List.getElem?_eq_getElem (by simpa using hj)]
    simp
  · rw [List.getElem?_eq_none (by simpa using hj)]
    simp

section UpdateInObs

variable {b : Buf} {id : Nat} {d : List Nat}

/-- Shared length facts for the in-place update buffer. -/
theorem uIn_lengths (hlen : b.length = 4096) (hdl : d.length ≤ sLen b id)
    (hend : sOffset b id + sLen b id ≤ 4096) :
    (writeBytes b (sOffset b id) d).length = 4096 ∧
    (writeBytes (writeBytes b (sOffset b id) d) (sOffset b id + d.length)
      (List.replicate (sOffset b id + sLen b id - (sOffset b id + d.length)) 0)).length
      = 4096 := by
  have l1 : (writeBytes b (sOffset b id) d).length = b.length :=
    length_writeBytes (by omega)
  constructor
  · omega
  · rw [length_writeBytes (by rw [l1]; simp; omega)]
    omega

theorem uIn_length (hlen : b.length = 4096) (hv : validate_header b = .ok ())
    (hid : id < hSlotCount b) (hdl : d.length ≤ sLen b id)
    (hend : sOffset b id + sLen b id ≤ 4096) :
    (updateBufIn b id d).length = 4096 := by
  have hb := hdr_bounds hlen hv
  obtain ⟨l1, l2⟩ := uIn_lengths hlen hdl hend
  rw [updateBufIn, length_slotWrite (by rw [l2]; omega), l2]

theorem uIn_getByte_low (hlen : b.length = 4096) (hv : validate_header b = .ok ())
    (hid : id < hSlotCount b) (hdl : d.length ≤ sLen b id)
    (hoffup : hUpper b ≤ sOffset b id)
    (hend : sOffset b id + sLen b id ≤ 4096) (p : Nat) (hp : p < 16) :
    getByte (updateBufIn b id d) p = getByte b p := by
  have hb := hdr_bounds hlen hv
  obtain ⟨l1, l2⟩ := uIn_lengths hlen hdl hend
  rw [updateBufIn, getByte_slotWrite_out (by rw [l2]; omega) (by omega),
    getByte_writeBytes_lt (by rw [l1]; simp; omega) (by omega),
    getByte_writeBytes_lt (by omega) (by omega)]

theorem uIn_hLower (hlen : b.length = 4096) (hv : validate_header b = .ok ())
    (hid : id < hSlotCount b) (hdl : d.length ≤ sLen b id)
    (hoffup : hUpper b ≤ sOffset b id)
    (hend : sOffset b id + sLen b id ≤ 4096) :
    hLower (updateBufIn b id d) = hLower b := by
  rw [hLower, uIn_getByte_low hlen hv hid hdl hoffup hend 0 (by omega),
    uIn_getByte_low hlen hv hid hdl hoffup hend 1 (by omega), hLower]

theorem uIn_hUpper (hlen : b.length = 4096) (hv : validate_header b = .ok ())
    (hid : id < hSlotCount b) (hdl : d.length ≤ sLen b id)
    (hoffup : hUpper b ≤ sOffset b id)
    (hend : sOffset b id + sLen b id ≤ 4096) :
    hUpper (updateBufIn b id d) = hUpper b := by
  rw [hUpper, uIn_getByte_low hlen hv hid hdl hoffup hend 2 (by omega),
    uIn_getByte_low hlen hv hid hdl hoffup hend 3 (by omega), hUpper]

theorem uIn_hSlotCount (hlen : b.length = 4096) (hv : validate_header b = .ok ())
    (hid : id < hSlotCount b) (hdl : d.length ≤ sLen b id)
    (hoffup : hUpper b ≤ sOffset b id)
    (hend : sOffset b id + sLen b id ≤ 4096) :
    hSlotCount (updateBufIn b id d) = hSlotCount b := by
  rw [hSlotCount, uIn_getByte_low hlen hv hid hdl hoffup hend 4 (by omega),
    uIn_getByte_low hlen hv hid hdl hoffup hend 5 (by omega), hSlotCount]

theorem uIn_hFlags (hlen : b.length = 4096) (hv : validate_header b = .ok ())
    (hid : id < hSlotCount b) (hdl : d.length ≤ sLen b id)
    (hoffup : hUpper b ≤ sOffset b id)
    (hend : sOffset b id + sLen b id ≤ 4096) :
    hFlags (updateBufIn b id d) = hFlags b := by
  rw [hFlags, uIn_getByte_low hlen hv hid hdl hoffup hend 6 (by omega),
    uIn_getByte_low hlen hv hid hdl hoffup hend 7 (by omega), hFlags]

theorem uIn_valid (hlen : b.length = 4096) (hv : validate_header b = .ok ())
    (hid : id < hSlotCount b) (hdl : d.length ≤ sLen b id)
    (hoffup : hUpper b ≤ sOffset b id)
    (hend : sOffset b id + sLen b id ≤ 4096) :
    validate_header (updateBufIn b id d) = .ok () := by
  have hb := hdr_bounds hlen hv
  rw [validate_header_ok_iff (by rw [uIn_length hlen hv hid hdl hend]; omega),
    uIn_hLower hlen hv hid hdl hoffup hend, uIn_hUpper hlen hv hid hdl hoffup hend,
    uIn_hSlotCount hlen hv hid hdl hoffup hend]
  exact ⟨by omega, by omega, by omega, by omega⟩

theorem uIn_sOffset_self (hlen : b.length = 4096) (hv : validate_header b = .ok ())
    (hid : id < hSlotCount b) (hdl : d.length ≤ sLen b id)
    (hend : sOffset b id + sLen b id ≤ 4096) :
    sOffset (updateBufIn b id d) id = sOffset b id % 65536 := by
  have hb := hdr_bounds hlen hv
  obtain ⟨l1, l2⟩ := uIn_lengths hlen hdl hend
  rw [updateBufIn]
  exact sOffset_slotWrite_self (by rw [l2]; omega)

theorem uIn_sLen_self (hlen : b.length = 4096) (hv : validate_header b = .ok ())
    (hid : id < hSlotCount b) (hdl : d.length ≤ sLen b id)
    (hend : sOffset b id + sLen b id ≤ 4096) :
    sLen (updateBufIn b id d) id = d.length % 65536 := by
  have hb := hdr_bounds hlen hv
  obtain ⟨l1, l2⟩ := uIn_lengths hlen hdl hend
  rw [updateBufIn]
  exact sLen_slotWrite_self (by rw [l2]; omega)

theorem uIn_sFlags_self (hlen : b.length = 4096) (hv : validate_header b = .ok ())
    (hid : id < hSlotCount b) (hdl : d.length ≤ sLen b id)
    (hend : sOffset b id + sLen b id ≤ 4096) :
    sFlags (updateBufIn b id d) id = sFlags b id % 65536 := by
  have hb := hdr_bounds hlen hv
  obtain ⟨l1, l2⟩ := uIn_lengths hlen hdl hend
  rw [updateBufIn]
  exact sFlags_slotWrite_self (by rw [l2]; omega)

theorem uIn_data (hlen : b.length = 4096) (hv : validate_header b = .ok ())
    (hid : id < hSlotCount b) (hdl : d.length ≤ sLen b id)
    (hoffup : hUpper b ≤ sOffset b id)
    (hend : sOffset b id + sLen b id ≤ 4096) (k : Nat) (hk : k < d.length) :
    getByte (updateBufIn b id d) (sOffset b id + k) = getByte d k := by
  have hb := hdr_bounds hlen hv
  obtain ⟨l1, l2⟩ := uIn_lengths hlen hdl hend
  rw [updateBufIn, getByte_slotWrite_out (by rw [l2]; omega) (by omega),
    getByte_writeBytes_lt (by rw [l1]; simp; omega) (by omega),
    getByte_writeBytes_in (by omega) (by omega) (by omega),
    show sOffset b id + k - sOffset b id = k from by omega]

theorem uIn_zero (hlen : b.length = 4096) (hv : validate_header b = .ok ())
    (hid : id < hSlotCount b) (hdl : d.length ≤ sLen b id)
    (hoffup : hUpper b ≤ sOffset b id)
    (hend : sOffset b id + sLen b id ≤ 4096) (k : Nat)
    (hk1 : d.length ≤ k) (hk2 : k < sLen b id) :
    getByte (updateBufIn b id d) (sOffset b id + k) = 0 := by
  have hb := hdr_bounds hlen hv
  obtain ⟨l1, l2⟩ := uIn_lengths hlen hdl hend
  rw [updateBufIn, getByte_slotWrite_out (by rw [l2]; omega) (by omega),
    getByte_writeBytes_in (by rw [l1]; simp; omega) (by omega) (by simp; omega),
    getByte_replicate]

theorem uIn_outside (hlen : b.length = 4096) (hv : validate_header b = .ok ())
    (hid : id < hSlotCount b) (hdl : d.length ≤ sLen b id)
    (hoffup : hUpper b ≤ sOffset b id)
    (hend : sOffset b id + sLen b id ≤ 4096) (p : Nat)
    (hpu : hUpper b ≤ p)
    (hp : p < sOffset b id ∨ sOffset b id + sLen b id ≤ p) :
    getByte (updateBufIn b id d) p = getByte b p := by
  have hb := hdr_bounds hlen hv
  obtain ⟨l1, l2⟩ := uIn_lengths hlen hdl hend
  rcases hp with hp | hp
  · rw [updateBufIn, getByte_slotWrite_out (by rw [l2]; omega) (by omega),
      getByte_writeBytes_lt (by rw [l1]; simp; omega) (by omega),
      getByte_writeBytes_lt (by omega) (by omega)]
  · rw [updateBufIn, getByte_slotWrite_out (by rw [l2]; omega) (by omega),
      getByte_writeBytes_ge (by rw [l1]; simp; omega) (by simp; omega),
      getByte_writeBytes_ge (by omega) (by omega)]

end UpdateInObs

section UpdateMoveObs

variable {b : Buf} {id : Nat} {d : List Nat}

theorem uMv_lengths (hlen : b.length = 4096) (hv : validate_header b = .ok ())
    (hid : id < hSlotCount b) (hsp : d.length ≤ hUpper b - hLower b) :
    (writeBytes b (hUpper b - d.length) d).length = 4096 ∧
    (slotWrite (writeBytes b (hUpper b - d.length) d) id
      ⟨hUpper b - d.length, d.length, sFlags b id⟩).length = 4096 := by
  have hb := hdr_bounds hlen hv
  have l1 : (writeBytes b (hUpper b - d.length) d).length = b.length :=
    length_writeBytes (by omega)
  refine ⟨by omega, ?_⟩
  rw [length_slotWrite (by rw [l1]; omega)]
  omega

theorem uMv_length (hlen : b.length = 4096) (hv : validate_header b = .ok ())
    (hid : id < hSlotCount b) (hsp : d.length ≤ hUpper b - hLower b) :
    (updateBufMove b id d).length = 4096 := by
  obtain ⟨l1, l2⟩ := uMv_lengths hlen hv hid hsp
  rw [updateBufMove, length_writeBytes (by rw [l2]; simp), l2]

theorem uMv_getByte_low (hlen : b.length = 4096) (hv : validate_header b = .ok ())
    (hid : id < hSlotCount b) (hsp : d.length ≤ hUpper b - hLower b)
    (p : Nat) (hp : p < 16) (hp2 : p < 2 ∨ 4 ≤ p) :
    getByte (updateBufMove b id d) p = getByte b p := by
  have hb := hdr_bounds hlen hv
  obtain ⟨l1, l2⟩ := uMv_lengths hlen hv hid hsp
  rw [updateBufMove, getByte_write2_out (by rw [l2]; omega) (by omega),
    getByte_slotWrite_out (by rw [l1]; omega) (by omega),
    getByte_writeBytes_lt (by omega) (by omega)]

theorem uMv_hLower (hlen : b.length = 4096) (hv : validate_header b = .ok ())
    (hid : id < hSlotCount b) (hsp : d.length ≤ hUpper b - hLower b) :
    hLower (updateBufMove b id d) = hLower b := by
  rw [hLower, uMv_getByte_low hlen hv hid hsp 0 (by omega) (by omega),
    uMv_getByte_low hlen hv hid hsp 1 (by omega) (by omega), hLower]

theorem uMv_hSlotCount (hlen : b.length = 4096) (hv : validate_header b = .ok ())
    (hid : id < hSlotCount b) (hsp : d.length ≤ hUpper b - hLower b) :
    hSlotCount (updateBufMove b id d) = hSlotCount b := by
  rw [hSlotCount, uMv_getByte_low hlen hv hid hsp 4 (by omega) (by omega),
    uMv_getByte_low hlen hv hid hsp 5 (by omega) (by omega), hSlotCount]

theorem uMv_hFlags (hlen : b.length = 4096) (hv : validate_header b = .ok ())
    (hid : id < hSlotCount b) (hsp : d.length ≤ hUpper b - hLower b) :
    hFlags (updateBufMove b id d) = hFlags b := by
  rw [hFlags, uMv_getByte_low hlen hv hid hsp 6 (by omega) (by omega),
    uMv_getByte_low hlen hv hid hsp 7 (by omega) (by omega), hFlags]

theorem uMv_hUpper (hlen : b.length = 4096) (hv : validate_header b = .ok ())
    (hid : id < hSlotCount b) (hsp : d.length ≤ hUpper b - hLower b) :
    hUpper (updateBufMove b id d) = hUpper b - d.length := by
  have hb := hdr_bounds hlen hv
  obtain ⟨l1, l2⟩ := uMv_lengths hlen hv hid hsp
  rw [hUpper, updateBufMove, getByte_write2_self0 (by rw [l2]; omega),
    show (3:Nat) = 2 + 1 from rfl, getByte_write2_self1 (by rw [l2]; omega)]
  omega

theorem uMv_valid (hlen : b.length = 4096) (hv : validate_header b = .ok ())
    (hid : id < hSlotCount b) (hsp : d.length ≤ hUpper b - hLower b) :
    validate_header (updateBufMove b id d) = .ok () := by
  have hb := hdr_bounds hlen hv
  rw [validate_header_ok_iff (by rw [uMv_length hlen hv hid hsp]; omega),
    uMv_hLower hlen hv hid hsp, uMv_hUpper hlen hv hid hsp,
    uMv_hSlotCount hlen hv hid hsp]
  exact ⟨by omega, by omega, by omega, by omega⟩

theorem uMv_sOffset_self (hlen : b.length = 4096) (hv : validate_header b = .ok ())
    (hid : id < hSlotCount b) (hsp : d.length ≤ hUpper b - hLower b) :
    sOffset (updateBufMove b id d) id = hUpper b - d.length := by
  have hb := hdr_bounds hlen hv
  obtain ⟨l1, l2⟩ := uMv_lengths hlen hv hid hsp
  rw [updateBufMove, sOffset, getByte_write2_out (by rw [l2]; omega) (by omega),
    getByte_write2_out (by rw [l2]; omega) (by omega)]
  have h := @sOffset_slotWrite_self (writeBytes b (hUpper b - d.length) d) id
    (⟨hUpper b - d.length, d.length, sFlags b id⟩ : slot.Slot) (by rw [l1]; omega)
  rw [sOffset] at h
  rw [h]
  dsimp only
  omega

theorem uMv_sLen_self (hlen : b.length = 4096) (hv : validate_header b = .ok ())
    (hid : id < hSlotCount b) (hsp : d.length ≤ hUpper b - hLower b) :
    sLen (updateBufMove b id d) id = d.length := by
  have hb := hdr_bounds hlen hv
  obtain ⟨l1, l2⟩ := uMv_lengths hlen hv hid hsp
  rw [updateBufMove, sLen, getByte_write2_out (by rw [l2]; omega) (by omega),
    getByte_write2_out (by rw [l2]; omega) (by omega)]
  have h := @sLen_slotWrite_self (writeBytes b (hUpper b - d.length) d) id
    (⟨hUpper b - d.length, d.length, sFlags b id⟩ : slot.Slot) (by rw [l1]; omega)
  rw [sLen] at h
  rw [h]
  dsimp only
  omega

theorem uMv_sFlags_self (hlen : b.length = 4096) (hv : validate_header b = .ok ())
    (hid : id < hSlotCount b) (hsp : d.length ≤ hUpper b - hLower b) :
    sFlags (updateBufMove b id d) id = sFlags b id % 65536 := by
  have hb := hdr_bounds hlen hv
  obtain ⟨l1, l2⟩ := uMv_lengths hlen hv hid hsp
  rw [updateBufMove, sFlags, getByte_write2_out (by rw [l2]; omega) (by omega),
    getByte_write2_out (by rw [l2]; omega) (by omega)]
  exact sFlags_slotWrite_self (by rw [l1]; omega)

theorem uMv_slot_other (hlen : b.length = 4096) (hv : validate_header b = .ok ())
    (hid : id < hSlotCount b) (hsp : d.length ≤ hUpper b - hLower b)
    {j : Nat} (hne : j ≠ id) (hj6 : 16 + 6 * j + 6 ≤ hLower b) :
    sOffset (updateBufMove b id d) j = sOffset b j ∧
    sLen (updateBufMove b id d) j = sLen b j ∧
    sFlags (updateBufMove b id d) j = sFlags b j := by
  have hb := hdr_bounds hlen hv
  obtain ⟨l1, l2⟩ := uMv_lengths hlen hv hid hsp
  have ho : sOffset (slotWrite (writeBytes b (hUpper b - d.length) d) id
      ⟨hUpper b - d.length, d.length, sFlags b id⟩) j = sOffset b j := by
    rw [sOffset_slotWrite_other (by rw [l1]; omega) hne, sOffset,
      getByte_writeBytes_lt (by omega) (by omega),
      getByte_writeBytes_lt (by omega) (by omega), sOffset]
  have hl : sLen (slotWrite (writeBytes b (hUpper b - d.length) d) id
      ⟨hUpper b - d.length, d.length, sFlags b id⟩) j = sLen b j := by
    rw [sLen_slotWrite_other (by rw [l1]; omega) hne, sLen,
      getByte_writeBytes_lt (by omega) (by omega),
      getByte_writeBytes_lt (by omega) (by omega), sLen]
  have hf : sFlags (slotWrite (writeBytes b (hUpper b - d.length) d) id
      ⟨hUpper b - d.length, d.length, sFlags b id⟩) j = sFlags b j := by
    rw [sFlags_slotWrite_other (by rw [l1]; omega) hne, sFlags,
      getByte_writeBytes_lt (by omega) (by omega),
      getByte_writeBytes_lt (by omega) (by omega), sFlags]
  refine ⟨?_, ?_, ?_⟩
  · rw [updateBufMove, sOffset, getByte_write2_out (by rw [l2]; omega) (by omega),
      getByte_write2_out (by rw [l2]; omega) (by omega)]
    exact ho
  · rw [updateBufMove, sLen, getByte_write2_out (by rw [l2]; omega) (by omega),
      getByte_write2_out (by rw [l2]; omega) (by omega)]
    exact hl
  · rw [updateBufMove, sFlags, getByte_write2_out (by rw [l2]; omega) (by omega),
      getByte_write2_out (by rw [l2]; omega) (by omega)]
    exact hf

theorem uMv_data (hlen : b.length = 4096) (hv : validate_header b = .ok ())
    (hid : id < hSlotCount b) (hsp : d.length ≤ hUpper b - hLower b)
    (k : Nat) (hk : k < d.length) :
    getByte (updateBufMove b id d) (hUpper b - d.length + k) = getByte d k := by
  have hb := hdr_bounds hlen hv
  obtain ⟨l1, l2⟩ := uMv_lengths hlen hv hid hsp
  rw [updateBufMove, getByte_write2_out (by rw [l2]; omega) (by omega),
    getByte_slotWrite_out (by rw [l1]; omega) (by omega),
    getByte_writeBytes_in (by omega) (by omega) (by omega),
    show hUpper b - d.length + k - (hUpper b - d.length) = k from by omega]

theorem uMv_tail (hlen : b.length = 4096) (hv : validate_header b = .ok ())
    (hid : id < hSlotCount b) (hsp : d.length ≤ hUpper b - hLower b)
    (p : Nat) (hp : hUpper b ≤ p) :
    getByte (updateBufMove b id d) p = getByte b p := by
  have hb := hdr_bounds hlen hv
  obtain ⟨l1, l2⟩ := uMv_lengths hlen hv hid hsp
  rw [updateBufMove, getByte_write2_out (by rw [l2]; omega) (by omega),
    getByte_slotWrite_out (by rw [l1]; omega) (by omega),
    getByte_writeBytes_ge (by omega) (by omega)]

end UpdateMoveObs

/-! ### insert: characterization -/

/-- The buffer a fresh-slot `insert` success produces (applied to the
post-scan buffer). -/
def insertBufNew (b : Buf) (d : List Nat) : Buf :=
  writeBytes (writeBytes (writeBytes (slotWrite (writeBytes b (hUpper b - d.length) d)
    (hSlotCount b) ⟨hUpper b - d.length, d.length, 0⟩) 4
    [(hSlotCount b + 1) % 256, (hSlotCount b + 1) / 256 % 256]) 0
    [(16 + (hSlotCount b + 1) * 6) % 256, (16 + (hSlotCount b + 1) * 6) / 256 % 256]) 2
    [(hUpper b - d.length) % 256, (hUpper b - d.length) / 256 % 256]

/-- The buffer a tombstone-reusing `insert` success produces. -/
def insertBufReuse (b : Buf) (k : Nat) (d : List Nat) : Buf :=
  writeBytes (slotWrite (writeBytes b (hUpper b - d.length) d) k
    ⟨hUpper b - d.length, d.length, 0⟩) 2
    [(hUpper b - d.length) % 256, (hUpper b - d.length) / 256 % 256]

theorem insert_ok_direct {b : Buf} {d : List Nat}
    (hlen : b.length = 4096) (hv : validate_header b = .ok ())
    (hfl : hFlags b &&& 16 = 0)
    (hsp : d.length + 6 ≤ hUpper b - hLower b) :
    insert b d = (.ok (hSlotCount b), insertBufNew b d) := by
  have hb := hdr_bounds hlen hv
  have l1 : (writeBytes b (hUpper b - d.length) d).length = 4096 := by
    rw [length_writeBytes (by omega)]
    omega
  have hsc6 : 16 + hSlotCount b * 6 + 6 ≤
      (writeBytes b (hUpper b - d.length) d).length := by rw [l1]; omega
  have l2 : (slotWrite (writeBytes b (hUpper b - d.length) d) (hSlotCount b)
      ⟨hUpper b - d.length, d.length, 0⟩).length = 4096 := by
    rw [length_slotWrite hsc6, l1]
  have l3 : (writeBytes (slotWrite (writeBytes b (hUpper b - d.length) d) (hSlotCount b)
      ⟨hUpper b - d.length, d.length, 0⟩) 4
      [(hSlotCount b + 1) % 256, (hSlotCount b + 1) / 256 % 256]).length = 4096 := by
    rw [length_writeBytes (by rw [l2]; norm_num), l2]
  have l4 : (writeBytes (writeBytes (slotWrite (writeBytes b (hUpper b - d.length) d)
      (hSlotCount b) ⟨hUpper b - d.length, d.length, 0⟩) 4
      [(hSlotCount b + 1) % 256, (hSlotCount b + 1) / 256 % 256]) 0
      [(16 + (hSlotCount b + 1) * 6) % 256,
        (16 + (hSlotCount b + 1) * 6) / 256 % 256]).length = 4096 := by
    rw [length_writeBytes (by rw [l3]; norm_num), l3]
  rw [insert, hv]
  simp only []
  rw [upper_ok (by omega)]
  simp only []
  rw [slot_count_ok (by omega)]
  simp only []
  rw [if_neg (show ¬ d.length > 65535 by omega), ffs_noflag (by omega) hfl]
  simp only [Option.getD_none, Option.isSome_none, Bool.false_eq_true, if_false,
    SLOTTED_SLOT_SIZE, SLOTTED_HEADER_SIZE]
  rw [if_neg (show ¬ d.length + 6 > 65535 by omega),
    free_space_ok (by omega) (by omega)]
  simp only []
  rw [if_neg (show ¬ d.length + 6 > hUpper b - hLower b by omega),
    if_neg (show ¬ hUpper b < d.length by omega)]
  simp only [slot.Slot.new]
  rw [write_slot_ok hsc6]
  simp only [Option.isSome_none, Bool.false_eq_true, if_false]
  rw [set_slot_count_ok (by rw [l2]; omega)]
  simp only []
  rw [set_lower_ok (by rw [l3]; omega)]
  simp only []
  rw [set_upper_ok (by rw [l4]; omega)]
  rw [insertBufNew]

theorem insert_nospace_direct {b : Buf} {d : List Nat}
    (hlen : b.length = 4096) (hv : validate_header b = .ok ())
    (hfl : hFlags b &&& 16 = 0)
    (hdl : d.length + 6 ≤ 65535)
    (hsp : hUpper b - hLower b < d.length + 6) :
    insert b d = (.error (.NoSpace "not enough space"), b) := by
  have hb := hdr_bounds hlen hv
  rw [insert, hv]
  simp only []
  rw [upper_ok (by omega)]
  simp only []
  rw [slot_count_ok (by omega)]
  simp only []
  rw [if_neg (show ¬ d.length > 65535 by omega), ffs_noflag (by omega) hfl]
  simp only [Option.getD_none, Option.isSome_none, Bool.false_eq_true, if_false,
    SLOTTED_SLOT_SIZE, SLOTTED_HEADER_SIZE]
  rw [if_neg (show ¬ d.length + 6 > 65535 by omega),
    free_space_ok (by omega) (by omega)]
  simp only []
  rw [if_pos (show d.length + 6 > hUpper b - hLower b by omega)]

theorem insert_ok_clear {b : Buf} {d : List Nat}
    (hlen : b.length = 4096) (hv : validate_header b = .ok ())
    (hfl : hFlags b &&& 16 ≠ 0)
    (hall : ∀ j, j < hSlotCount b → sFlags b j % 2 = 0)
    (hsp : d.length + 6 ≤ hUpper b - hLower b) :
    insert b d = (.ok (hSlotCount b), insertBufNew (clearBuf b) d) := by
  have hb := hdr_bounds hlen hv
  have hcl : (clearBuf b).length = 4096 := by
    rw [clearBuf_length (by omega)]
    omega
  have l1 : (writeBytes (clearBuf b) (hUpper b - d.length) d).length = 4096 := by
    rw [length_writeBytes (by rw [hcl]; omega), hcl]
  have hsc6 : 16 + hSlotCount b * 6 + 6 ≤
      (writeBytes (clearBuf b) (hUpper b - d.length) d).length := by rw [l1]; omega
  have l2 : (slotWrite (writeBytes (clearBuf b) (hUpper b - d.length) d) (hSlotCount b)
      ⟨hUpper b - d.length, d.length, 0⟩).length = 4096 := by
    rw [length_slotWrite hsc6, l1]
  have l3 : (writeBytes (slotWrite (writeBytes (clearBuf b) (hUpper b - d.length) d)
      (hSlotCount b) ⟨hUpper b - d.length, d.length, 0⟩) 4
      [(hSlotCount b + 1) % 256, (hSlotCount b + 1) / 256 % 256]).length = 4096 := by
    rw [length_writeBytes (by rw [l2]; norm_num), l2]
  have l4 : (writeBytes (writeBytes (slotWrite (writeBytes (clearBuf b)
      (hUpper b - d.length) d) (hSlotCount b) ⟨hUpper b - d.length, d.length, 0⟩) 4
      [(hSlotCount b + 1) % 256, (hSlotCount b + 1) / 256 % 256]) 0
      [(16 + (hSlotCount b + 1) * 6) % 256,
        (16 + (hSlotCount b + 1) * 6) / 256 % 256]).length = 4096 := by
    rw [length_writeBytes (by rw [l3]; norm_num), l3]
  rw [insert, hv]
  simp only []
  rw [upper_ok (by omega)]
  simp only []
  rw [slot_count_ok (by omega)]
  simp only []
  rw [if_neg (show ¬ d.length > 65535 by omega),
    ffs_clear (by omega) (by omega) hfl hall]
  simp only [Option.getD_none, Option.isSome_none, Bool.false_eq_true, if_false,
    SLOTTED_SLOT_SIZE, SLOTTED_HEADER_SIZE]
  rw [if_neg (show ¬ d.length + 6 > 65535 by omega),
    free_space_ok (by rw [hcl]; omega) (by
      rw [clearBuf_hLower (by omega), clearBuf_hUpper (by omega)]; omega)]
  simp only [clearBuf_hLower (show 8 ≤ b.length by omega),
    clearBuf_hUpper (show 8 ≤ b.length by omega)]
  rw [if_neg (show ¬ d.length + 6 > hUpper b - hLower b by omega),
    if_neg (show ¬ hUpper b < d.length by omega)]
  simp only [slot.Slot.new]
  rw [write_slot_ok hsc6]
  simp only [Option.isSome_none, Bool.false_eq_true, if_false]
  rw [set_slot_count_ok (by rw [l2]; omega)]
  simp only []
  rw [set_lower_ok (by rw [l3]; omega)]
  simp only []
  rw [set_upper_ok (by rw [l4]; omega)]
  rw [insertBufNew, clearBuf_hUpper (by omega), clearBuf_hSlotCount (by omega)]

theorem insert_nospace_clear {b : Buf} {d : List Nat}
    (hlen : b.length = 4096) (hv : validate_header b = .ok ())
    (hfl : hFlags b &&& 16 ≠ 0)
    (hall : ∀ j, j < hSlotCount b → sFlags b j % 2 = 0)
    (hdl : d.length + 6 ≤ 65535)
    (hsp : hUpper b - hLower b < d.length + 6) :
    insert b d = (.error (.NoSpace "not enough space"), clearBuf b) := by
  have hb := hdr_bounds hlen hv
  have hcl : (clearBuf b).length = 4096 := by
    rw [clearBuf_length (by omega)]
    omega
  rw [insert, hv]
  simp only []
  rw [upper_ok (by omega)]
  simp only []
  rw [slot_count_ok (by omega)]
  simp only []
  rw [if_neg (show ¬ d.length > 65535 by omega),
    ffs_clear (by omega) (by omega) hfl hall]
  simp only [Option.getD_none, Option.isSome_none, Bool.false_eq_true, if_false,
    SLOTTED_SLOT_SIZE, SLOTTED_HEADER_SIZE]
  rw [if_neg (show ¬ d.length + 6 > 65535 by omega),
    free_space_ok (by rw [hcl]; omega) (by
      rw [clearBuf_hLower (by omega), clearBuf_hUpper (by omega)]; omega)]
  simp only [clearBuf_hLower (show 8 ≤ b.length by omega),
    clearBuf_hUpper (show 8 ≤ b.length by omega)]
  rw [if_pos (show d.length + 6 > hUpper b - hLower b by omega)]

theorem insert_ok_reuse {b : Buf} {d : List Nat} {k : Nat}
    (hlen : b.length = 4096) (hv : validate_header b = .ok ())
    (hfl : hFlags b &&& 16 ≠ 0) (hk : k < hSlotCount b)
    (hdead : sFlags b k % 2 = 1)
    (hmin : ∀ j, j < k → sFlags b j % 2 = 0)
    (hsp : d.length ≤ hUpper b - hLower b) :
    insert b d = (.ok k, insertBufReuse b k d) := by
  have hb := hdr_bounds hlen hv
  have l1 : (writeBytes b (hUpper b - d.length) d).length = b.length :=
    length_writeBytes (by omega)
  have hk6 : 16 + k * 6 + 6 ≤ (writeBytes b (hUpper b - d.length) d).length := by
    rw [l1]; omega
  rw [insert, hv]
  simp only []
  rw [upper_ok (by omega)]
  simp only []
  rw [slot_count_ok (by omega)]
  simp only []
  rw [if_neg (show ¬ d.length > 65535 by omega),
    ffs_found (by omega) (by omega) hfl hk hdead hmin]
  simp only [Option.getD_some, Option.isSome_some, if_true, Nat.add_zero]
  rw [if_neg (show ¬ d.length > 65535 by omega),
    free_space_ok (by omega) (by omega)]
  simp only []
  rw [if_neg (show ¬ d.length > hUpper b - hLower b by omega),
    if_neg (show ¬ hUpper b < d.length by omega)]
  simp only [slot.Slot.new]
  rw [write_slot_ok hk6]
  simp only [Option.isSome_some, if_true]
  rw [set_upper_ok (by rw [length_slotWrite hk6, l1]; omega)]
  rw [insertBufReuse]

theorem insert_nospace_reuse {b : Buf} {d : List Nat} {k : Nat}
    (hlen : b.length = 4096) (hv : validate_header b = .ok ())
    (hfl : hFlags b &&& 16 ≠ 0) (hk : k < hSlotCount b)
    (hdead : sFlags b k % 2 = 1)
    (hmin : ∀ j, j < k → sFlags b j % 2 = 0)
    (hdl : d.length ≤ 65535)
    (hsp : hUpper b - hLower b < d.length) :
    insert b d = (.error (.NoSpace "not enough space"), b) := by
  have hb := hdr_bounds hlen hv
  rw [insert, hv]
  simp only []
  rw [upper_ok (by omega)]
  simp only []
  rw [slot_count_ok (by omega)]
  simp only []
  rw [if_neg (show ¬ d.length > 65535 by omega),
    ffs_found (by omega) (by omega) hfl hk hdead hmin]
  simp only [Option.getD_some, Option.isSome_some, if_true, Nat.add_zero]
  rw [if_neg (show ¬ d.length > 65535 by omega),
    free_space_ok (by omega) (by omega)]
  simp only []
  rw [if_pos (show d.length > hUpper b - hLower b by omega)]

section InsertNewObs

variable {b : Buf} {d : List Nat}

/-- Bundled length facts for the layers of `insertBufNew`. -/
theorem iN_lengths (hlen : b.length = 4096) (hv : validate_header b = .ok ())
    (hsp : d.length + 6 ≤ hUpper b - hLower b) :
    (writeBytes b (hUpper b - d.length) d).length = 4096 ∧
    (slotWrite (writeBytes b (hUpper b - d.length) d) (hSlotCount b)
      ⟨hUpper b - d.length, d.length, 0⟩).length = 4096 ∧
    (writeBytes (slotWrite (writeBytes b (hUpper b - d.length) d) (hSlotCount b)
      ⟨hUpper b - d.length, d.length, 0⟩) 4
      [(hSlotCount b + 1) % 256, (hSlotCount b + 1) / 256 % 256]).length = 4096 ∧
    (writeBytes (writeBytes (slotWrite (writeBytes b (hUpper b - d.length) d)
      (hSlotCount b) ⟨hUpper b - d.length, d.length, 0⟩) 4
      [(hSlotCount b + 1) % 256, (hSlotCount b + 1) / 256 % 256]) 0
      [(16 + (hSlotCount b + 1) * 6) % 256,
        (16 + (hSlotCount b + 1) * 6) / 256 % 256]).length = 4096 := by
  have hb := hdr_bounds hlen hv
  have l1 : (writeBytes b (hUpper b - d.length) d).length = 4096 := by
    rw [length_writeBytes (by omega)]
    omega
  have l2 : (slotWrite (writeBytes b (hUpper b - d.length) d) (hSlotCount b)
      ⟨hUpper b - d.length, d.length, 0⟩).length = 4096 := by
    rw [length_slotWrite (by rw [l1]; omega), l1]
  have l3 : (writeBytes (slotWrite (writeBytes b (hUpper b - d.length) d) (hSlotCount b)
      ⟨hUpper b - d.length, d.length, 0⟩) 4
      [(hSlotCount b + 1) % 256, (hSlotCount b + 1) / 256 % 256]).length = 4096 := by
    rw [length_writeBytes (by rw [l2]; norm_num), l2]
  have l4 : (writeBytes (writeBytes (slotWrite (writeBytes b (hUpper b - d.length) d)
      (hSlotCount b) ⟨hUpper b - d.length, d.length, 0⟩) 4
      [(hSlotCount b + 1) % 256, (hSlotCount b + 1) / 256 % 256]) 0
      [(16 + (hSlotCount b + 1) * 6) % 256,
        (16 + (hSlotCount b + 1) * 6) / 256 % 256]).length = 4096 := by
    rw [length_writeBytes (by rw [l3]; norm_num), l3]
  exact ⟨l1, l2, l3, l4⟩

theorem iN_length (hlen : b.length = 4096) (hv : validate_header b = .ok ())
    (hsp : d.length + 6 ≤ hUpper b - hLower b) :
    (insertBufNew b d).length = 4096 := by
  obtain ⟨l1, l2, l3, l4⟩ := iN_lengths hlen hv hsp
  rw [insertBufNew, length_writeBytes (by rw [l4]; norm_num), l4]

/-- Pointwise value of any byte of `insertBufNew` in the directory-or-lower
region expressed through the layers, byte by byte. -/
theorem iN_getByte (hlen : b.length = 4096) (hv : validate_header b = .ok ())
    (hsp : d.length + 6 ≤ hUpper b - hLower b) (p : Nat) :
    getByte (insertBufNew b d) p =
      if p = 0 then (16 + (hSlotCount b + 1) * 6) % 256
      else if p = 1 then (16 + (hSlotCount b + 1) * 6) / 256 % 256
      else if p = 2 then (hUpper b - d.length) % 256
      else if p = 3 then (hUpper b - d.length) / 256 % 256
      else if p = 4 then (hSlotCount b + 1) % 256
      else if p = 5 then (hSlotCount b + 1) / 256 % 256
      else getByte (slotWrite (writeBytes b (hUpper b - d.length) d) (hSlotCount b)
        ⟨hUpper b - d.length, d.length, 0⟩) p := by
  have hb := hdr_bounds hlen hv
  obtain ⟨l1, l2, l3, l4⟩ := iN_lengths hlen hv hsp
  by_cases c0 : p = 0
  · subst c0
    rw [insertBufNew, getByte_write2_out (by rw [l4]; norm_num) (by omega)]
    simp only [if_pos rfl]
    exact getByte_write2_self0 (by rw [l3]; norm_num)
  by_cases c1 : p = 1
  · subst c1
    rw [insertBufNew, getByte_write2_out (by rw [l4]; norm_num) (by omega)]
    rw [if_neg c0, if_pos rfl]
    exact getByte_write2_self1 (by rw [l3]; norm_num)
  by_cases c2 : p = 2
  · subst c2
    rw [insertBufNew]
    rw [if_neg c0, if_neg c1, if_pos rfl]
    exact getByte_write2_self0 (by rw [l4]; norm_num)
  by_cases c3 : p = 3
  · subst c3
    rw [insertBufNew]
    rw [if_neg c0, if_neg c1, if_neg c2, if_pos rfl]
    exact getByte_write2_self1 (by rw [l4]; norm_num)
  by_cases c4 : p = 4
  · subst c4
    rw [insertBufNew, getByte_write2_out (by rw [l4]; norm_num) (by omega),
      getByte_write2_out (by rw [l3]; norm_num) (by omega)]
    rw [if_neg c0, if_neg c1, if_neg c2, if_neg c3, if_pos rfl]
    exact getByte_write2_self0 (by rw [l2]; norm_num)
  by_cases c5 : p = 5
  · subst c5
    rw [insertBufNew, getByte_write2_out (by rw [l4]; norm_num) (by omega),
      getByte_write2_out (by rw [l3]; norm_num) (by omega)]
    rw [if_neg c0, if_neg c1, if_neg c2, if_neg c3, if_neg c4, if_pos rfl]
    exact getByte_write2_self1 (by rw [l2]; norm_num)
  · rw [insertBufNew, getByte_write2_out (by rw [l4]; norm_num) (by omega),
      getByte_write2_out (by rw [l3]; norm_num) (by omega),
      getByte_write2_out (by rw [l2]; norm_num) (by omega)]
    rw [if_neg c0, if_neg c1, if_neg c2, if_neg c3, if_neg c4, if_neg c5]

theorem iN_hLower (hlen : b.length = 4096) (hv : validate_header b = .ok ())
    (hsp : d.length + 6 ≤ hUpper b - hLower b) :
    hLower (insertBufNew b d) = 16 + (hSlotCount b + 1) * 6 := by
  have hb := hdr_bounds hlen hv
  rw [hLower, iN_getByte hlen hv hsp 0, iN_getByte hlen hv hsp 1]
  norm_num
  omega

theorem iN_hUpper (hlen : b.length = 4096) (hv : validate_header b = .ok ())
    (hsp : d.length + 6 ≤ hUpper b - hLower b) :
    hUpper (insertBufNew b d) = hUpper b - d.length := by
  have hb := hdr_bounds hlen hv
  rw [hUpper, iN_getByte hlen hv hsp 2, iN_getByte hlen hv hsp 3]
  norm_num
  omega

theorem iN_hSlotCount (hlen : b.length = 4096) (hv : validate_header b = .ok ())
    (hsp : d.length + 6 ≤ hUpper b - hLower b) :
    hSlotCount (insertBufNew b d) = hSlotCount b + 1 := by
  have hb := hdr_bounds hlen hv
  rw [hSlotCount, iN_getByte hlen hv hsp 4, iN_getByte hlen hv hsp 5]
  norm_num
  omega

theorem iN_hFlags (hlen : b.length = 4096) (hv : validate_header b = .ok ())
    (hsp : d.length + 6 ≤ hUpper b - hLower b) :
    hFlags (insertBufNew b d) = hFlags b := by
  have hb := hdr_bounds hlen hv
  obtain ⟨l1, l2, l3, l4⟩ := iN_lengths hlen hv hsp
  rw [hFlags, iN_getByte hlen hv hsp 6, iN_getByte hlen hv hsp 7]
  norm_num
  rw [getByte_slotWrite_out (by rw [l1]; omega) (by omega),
    getByte_slotWrite_out (by rw [l1]; omega) (by omega),
    getByte_writeBytes_lt (by omega) (by omega),
    getByte_writeBytes_lt (by omega) (by omega), hFlags]

/-- Above the six header/directory bytes the new-slot insert buffer is
the slot-written layer unchanged. -/
theorem iN_getByte_high (hlen : b.length = 4096) (hv : validate_header b = .ok ())
    (hsp : d.length + 6 ≤ hUpper b - hLower b) (p : Nat) (hp : 6 ≤ p) :
    getByte (insertBufNew b d) p =
      getByte (slotWrite (writeBytes b (hUpper b - d.length) d) (hSlotCount b)
        ⟨hUpper b - d.length, d.length, 0⟩) p := by
  obtain ⟨l1, l2, l3, l4⟩ := iN_lengths hlen hv hsp
  rw [insertBufNew, getByte_write2_out (by rw [l4]; norm_num) (by omega),
    getByte_write2_out (by rw [l3]; norm_num) (by omega),
    getByte_write2_out (by rw [l2]; norm_num) (by omega)]

theorem iN_valid (hlen : b.length = 4096) (hv : validate_header b = .ok ())
    (hsp : d.length + 6 ≤ hUpper b - hLower b) :
    validate_header (insertBufNew b d) = .ok () := by
  have hb := hdr_bounds hlen hv
  rw [validate_header_ok_iff (by rw [iN_length hlen hv hsp]; omega),
    iN_hLower hlen hv hsp, iN_hUpper hlen hv hsp, iN_hSlotCount hlen hv hsp]
  exact ⟨by omega, by omega, by omega, by omega⟩

theorem iN_slot_self (hlen : b.length = 4096) (hv : validate_header b = .ok ())
    (hsp : d.length + 6 ≤ hUpper b - hLower b) :
    sOffset (insertBufNew b d) (hSlotCount b) = hUpper b - d.length ∧
    sLen (insertBufNew b d) (hSlotCount b) = d.length ∧
    sFlags (insertBufNew b d) (hSlotCount b) = 0 := by
  have hb := hdr_bounds hlen hv
  obtain ⟨l1, l2, l3, l4⟩ := iN_lengths hlen hv hsp
  refine ⟨?_, ?_, ?_⟩
  · rw [sOffset, iN_getByte_high hlen hv hsp (16 + 6 * hSlotCount b) (by omega),
      iN_getByte_high hlen hv hsp (16 + 6 * hSlotCount b + 1) (by omega)]
    have h := @sOffset_slotWrite_self (writeBytes b (hUpper b - d.length) d)
      (hSlotCount b) (⟨hUpper b - d.length, d.length, 0⟩ : slot.Slot)
      (by rw [l1]; omega)
    rw [sOffset] at h
    rw [h]
    dsimp only
    omega
  · rw [sLen, iN_getByte_high hlen hv hsp (16 + 6 * hSlotCount b + 2) (by omega),
      iN_getByte_high hlen hv hsp (16 + 6 * hSlotCount b + 3) (by omega)]
    have h := @sLen_slotWrite_self (writeBytes b (hUpper b - d.length) d)
      (hSlotCount b) (⟨hUpper b - d.length, d.length, 0⟩ : slot.Slot)
      (by rw [l1]; omega)
    rw [sLen] at h
    rw [h]
    dsimp only
    omega
  · rw [sFlags, iN_getByte_high hlen hv hsp (16 + 6 * hSlotCount b + 4) (by omega),
      iN_getByte_high hlen hv hsp (16 + 6 * hSlotCount b + 5) (by omega)]
    have h := @sFlags_slotWrite_self (writeBytes b (hUpper b - d.length) d)
      (hSlotCount b) (⟨hUpper b - d.length, d.length, 0⟩ : slot.Slot)
      (by rw [l1]; omega)
    rw [sFlags] at h
    rw [h]
    dsimp only

theorem iN_slot_other (hlen : b.length = 4096) (hv : validate_header b = .ok ())
    (hsp : d.length + 6 ≤ hUpper b - hLower b)
    {j : Nat} (hj : j < hSlotCount b) :
    sOffset (insertBufNew b d) j = sOffset b j ∧
    sLen (insertBufNew b d) j = sLen b j ∧
    sFlags (insertBufNew b d) j = sFlags b j := by
  have hb := hdr_bounds hlen hv
  obtain ⟨l1, l2, l3, l4⟩ := iN_lengths hlen hv hsp
  have hne : j ≠ hSlotCount b := by omega
  have ho : sOffset (slotWrite (writeBytes b (hUpper b - d.length) d) (hSlotCount b)
      ⟨hUpper b - d.length, d.length, 0⟩) j = sOffset b j := by
    rw [sOffset_slotWrite_other (by rw [l1]; omega) hne, sOffset,
      getByte_writeBytes_lt (by omega) (by omega),
      getByte_writeBytes_lt (by omega) (by omega), sOffset]
  have hl : sLen (slotWrite (writeBytes b (hUpper b - d.length) d) (hSlotCount b)
      ⟨hUpper b - d.length, d.length, 0⟩) j = sLen b j := by
    rw [sLen_slotWrite_other (by rw [l1]; omega) hne, sLen,
      getByte_writeBytes_lt (by omega) (by omega),
      getByte_writeBytes_lt (by omega) (by omega), sLen]
  have hf : sFlags (slotWrite (writeBytes b (hUpper b - d.length) d) (hSlotCount b)
      ⟨hUpper b - d.length, d.length, 0⟩) j = sFlags b j := by
    rw [sFlags_slotWrite_other (by rw [l1]; omega) hne, sFlags,
      getByte_writeBytes_lt (by omega) (by omega),
      getByte_writeBytes_lt (by omega) (by omega), sFlags]
  refine ⟨?_, ?_, ?_⟩
  · rw [sOffset, iN_getByte_high hlen hv hsp (16 + 6 * j) (by omega),
      iN_getByte_high hlen hv hsp (16 + 6 * j + 1) (by omega)]
    exact ho
  · rw [sLen, iN_getByte_high hlen hv hsp (16 + 6 * j + 2) (by omega),
      iN_getByte_high hlen hv hsp (16 + 6 * j + 3) (by omega)]
    exact hl
  · rw [sFlags, iN_getByte_high hlen hv hsp (16 + 6 * j + 4) (by omega),
      iN_getByte_high hlen hv hsp (16 + 6 * j + 5) (by omega)]
    exact hf

theorem iN_data (hlen : b.length = 4096) (hv : validate_header b = .ok ())
    (hsp : d.length + 6 ≤ hUpper b - hLower b)
    (k : Nat) (hk : k < d.length) :
    getByte (insertBufNew b d) (hUpper b - d.length + k) = getByte d k := by
  have hb := hdr_bounds hlen hv
  obtain ⟨l1, l2, l3, l4⟩ := iN_lengths hlen hv hsp
  rw [iN_getByte_high hlen hv hsp (hUpper b - d.length + k) (by omega),
    getByte_slotWrite_out (by rw [l1]; omega) (by omega),
    getByte_writeBytes_in (by omega) (by omega) (by omega),
    show hUpper b - d.length + k - (hUpper b - d.length) = k from by omega]

theorem iN_tail (hlen : b.length = 4096) (hv : validate_header b = .ok ())
    (hsp : d.length + 6 ≤ hUpper b - hLower b)
    (p : Nat) (hp : hUpper b ≤ p) :
    getByte (insertBufNew b d) p = getByte b p := by
  have hb := hdr_bounds hlen hv
  obtain ⟨l1, l2, l3, l4⟩ := iN_lengths hlen hv hsp
  rw [iN_getByte_high hlen hv hsp p (by omega),
    getByte_slotWrite_out (by rw [l1]; omega) (by omega),
    getByte_writeBytes_ge (by omega) (by omega)]

end InsertNewObs

section InsertReuseObs

variable {b : Buf} {k : Nat} {d : List Nat}

theorem iR_lengths (hlen : b.length = 4096) (hv : validate_header b = .ok ())
    (hk : k < hSlotCount b) (hsp : d.length ≤ hUpper b - hLower b) :
    (writeBytes b (hUpper b - d.length) d).length = 4096 ∧
    (slotWrite (writeBytes b (hUpper b - d.length) d) k
      ⟨hUpper b - d.length, d.length, 0⟩).length = 4096 := by
  have hb := hdr_bounds hlen hv
  have l1 : (writeBytes b (hUpper b - d.length) d).length = 4096 := by
    rw [length_writeBytes (by omega)]
    omega
  refine ⟨l1, ?_⟩
  rw [length_slotWrite (by rw [l1]; omega), l1]

theorem iR_length (hlen : b.length = 4096) (hv : validate_header b = .ok ())
    (hk : k < hSlotCount b) (hsp : d.length ≤ hUpper b - hLower b) :
    (insertBufReuse b k d).length = 4096 := by
  obtain ⟨l1, l2⟩ := iR_lengths hlen hv hk hsp
  rw [insertBufReuse, length_writeBytes (by rw [l2]; norm_num), l2]

theorem iR_getByte_low (hlen : b.length = 4096) (hv : validate_header b = .ok ())
    (hk : k < hSlotCount b) (hsp : d.length ≤ hUpper b - hLower b)
    (p : Nat) (hp : p < 16) (hp2 : p < 2 ∨ 4 ≤ p) :
    getByte (insertBufReuse b k d) p = getByte b p := by
  have hb := hdr_bounds hlen hv
  obtain ⟨l1, l2⟩ := iR_lengths hlen hv hk hsp
  rw [insertBufReuse, getByte_write2_out (by rw [l2]; omega) (by omega),
    getByte_slotWrite_out (by rw [l1]; omega) (by omega),
    getByte_writeBytes_lt (by omega) (by omega)]

theorem iR_hLower (hlen : b.length = 4096) (hv : validate_header b = .ok ())
    (hk : k < hSlotCount b) (hsp : d.length ≤ hUpper b - hLower b) :
    hLower (insertBufReuse b k d) = hLower b := by
  rw [hLower, iR_getByte_low hlen hv hk hsp 0 (by omega) (by omega),
    iR_getByte_low hlen hv hk hsp 1 (by omega) (by omega), hLower]

theorem iR_hSlotCount (hlen : b.length = 4096) (hv : validate_header b = .ok ())
    (hk : k < hSlotCount b) (hsp : d.length ≤ hUpper b - hLower b) :
    hSlotCount (insertBufReuse b k d) = hSlotCount b := by
  rw [hSlotCount, iR_getByte_low hlen hv hk hsp 4 (by omega) (by omega),
    iR_getByte_low hlen hv hk hsp 5 (by omega) (by omega), hSlotCount]

theorem iR_hFlags (hlen : b.length = 4096) (hv : validate_header b = .ok ())
    (hk : k < hSlotCount b) (hsp : d.length ≤ hUpper b - hLower b) :
    hFlags (insertBufReuse b k d) = hFlags b := by
  rw [hFlags, iR_getByte_low hlen hv hk hsp 6 (by omega) (by omega),
    iR_getByte_low hlen hv hk hsp 7 (by omega) (by omega), hFlags]

theorem iR_hUpper (hlen : b.length = 4096) (hv : validate_header b = .ok ())
    (hk : k < hSlotCount b) (hsp : d.length ≤ hUpper b - hLower b) :
    hUpper (insertBufReuse b k d) = hUpper b - d.length := by
  have hb := hdr_bounds hlen hv
  obtain ⟨l1, l2⟩ := iR_lengths hlen hv hk hsp
  rw [hUpper, insertBufReuse, getByte_write2_self0 (by rw [l2]; omega),
    show (3:Nat) = 2 + 1 from rfl, getByte_write2_self1 (by rw [l2]; omega)]
  omega

theorem iR_valid (hlen : b.length = 4096) (hv : validate_header b = .ok ())
    (hk : k < hSlotCount b) (hsp : d.length ≤ hUpper b - hLower b) :
    validate_header (insertBufReuse b k d) = .ok () := by
  have hb := hdr_bounds hlen hv
  rw [validate_header_ok_iff (by rw [iR_length hlen hv hk hsp]; omega),
    iR_hLower hlen hv hk hsp, iR_hUpper hlen hv hk hsp,
    iR_hSlotCount hlen hv hk hsp]
  exact ⟨by omega, by omega, by omega, by omega⟩

theorem iR_slot_self (hlen : b.length = 4096) (hv : validate_header b = .ok ())
    (hk : k < hSlotCount b) (hsp : d.length ≤ hUpper b - hLower b) :
    sOffset (insertBufReuse b k d) k = hUpper b - d.length ∧
    sLen (insertBufReuse b k d) k = d.length ∧
    sFlags (insertBufReuse b k d) k = 0 := by
  have hb := hdr_bounds hlen hv
  obtain ⟨l1, l2⟩ := iR_lengths hlen hv hk hsp
  refine ⟨?_, ?_, ?_⟩
  · rw [insertBufReuse, sOffset, getByte_write2_out (by rw [l2]; omega) (by omega),
      getByte_write2_out (by rw [l2]; omega) (by omega)]
    have h := @sOffset_slotWrite_self (writeBytes b (hUpper b - d.length) d) k
      (⟨hUpper b - d.length, d.length, 0⟩ : slot.Slot) (by rw [l1]; omega)
    rw [sOffset] at h
    rw [h]
    dsimp only
    omega
  · rw [insertBufReuse, sLen, getByte_write2_out (by rw [l2]; omega) (by omega),
      getByte_write2_out (by rw [l2]; omega) (by omega)]
    have h := @sLen_slotWrite_self (writeBytes b (hUpper b - d.length) d) k
      (⟨hUpper b - d.length, d.length, 0⟩ : slot.Slot) (by rw [l1]; omega)
    rw [sLen] at h
    rw [h]
    dsimp only
    omega
  · rw [insertBufReuse, sFlags, getByte_write2_out (by rw [l2]; omega) (by omega),
      getByte_write2_out (by rw [l2]; omega) (by omega)]
    have h := @sFlags_slotWrite_self (writeBytes b (hUpper b - d.length) d) k
      (⟨hUpper b - d.length, d.length, 0⟩ : slot.Slot) (by rw [l1]; omega)
    rw [sFlags] at h
    rw [h]
    dsimp only

theorem iR_slot_other (hlen : b.length = 4096) (hv : validate_header b = .ok ())
    (hk : k < hSlotCount b) (hsp : d.length ≤ hUpper b - hLower b)
    {j : Nat} (hne : j ≠ k) (hj : j < hSlotCount b) :
    sOffset (insertBufReuse b k d) j = sOffset b j ∧
    sLen (insertBufReuse b k d) j = sLen b j ∧
    sFlags (insertBufReuse b k d) j = sFlags b j := by
  have hb := hdr_bounds hlen hv
  obtain ⟨l1, l2⟩ := iR_lengths hlen hv hk hsp
  have ho : sOffset (slotWrite (writeBytes b (hUpper b - d.length) d) k
      ⟨hUpper b - d.length, d.length, 0⟩) j = sOffset b j := by
    rw [sOffset_slotWrite_other (by rw [l1]; omega) hne, sOffset,
      getByte_writeBytes_lt (by omega) (by omega),
      getByte_writeBytes_lt (by omega) (by omega), sOffset]
  have hl : sLen (slotWrite (writeBytes b (hUpper b - d.length) d) k
      ⟨hUpper b - d.length, d.length, 0⟩) j = sLen b j := by
    rw [sLen_slotWrite_other (by rw [l1]; omega) hne, sLen,
      getByte_writeBytes_lt (by omega) (by omega),
      getByte_writeBytes_lt (by omega) (by omega), sLen]
  have hf : sFlags (slotWrite (writeBytes b (hUpper b - d.length) d) k
      ⟨hUpper b - d.length, d.length, 0⟩) j = sFlags b j := by
    rw [sFlags_slotWrite_other (by rw [l1]; omega) hne, sFlags,
      getByte_writeBytes_lt (by omega) (by omega),
      getByte_writeBytes_lt (by omega) (by omega), sFlags]
  refine ⟨?_, ?_, ?_⟩
  · rw [insertBufReuse, sOffset, getByte_write2_out (by rw [l2]; omega) (by omega),
      getByte_write2_out (by rw [l2]; omega) (by omega)]
    exact ho
  · rw [insertBufReuse, sLen, getByte_write2_out (by rw [l2]; omega) (by omega),
      getByte_write2_out (by rw [l2]; omega) (by omega)]
    exact hl
  · rw [insertBufReuse, sFlags, getByte_write2_out (by rw [l2]; omega) (by omega),
      getByte_write2_out (by rw [l2]; omega) (by omega)]
    exact hf

theorem iR_data (hlen : b.length = 4096) (hv : validate_header b = .ok ())
    (hk : k < hSlotCount b) (hsp : d.length ≤ hUpper b - hLower b)
    (j : Nat) (hj : j < d.length) :
    getByte (insertBufReuse b k d) (hUpper b - d.length + j) = getByte d j := by
  have hb := hdr_bounds hlen hv
  obtain ⟨l1, l2⟩ := iR_lengths hlen hv hk hsp
  rw [insertBufReuse, getByte_write2_out (by rw [l2]; omega) (by omega),
    getByte_slotWrite_out (by rw [l1]; omega) (by omega),
    getByte_writeBytes_in (by omega) (by omega) (by omega),
    show hUpper b - d.length + j - (hUpper b - d.length) = j from by omega]

theorem iR_tail (hlen : b.length = 4096) (hv : validate_header b = .ok ())
    (hk : k < hSlotCount b) (hsp : d.length ≤ hUpper b - hLower b)
    (p : Nat) (hp : hUpper b ≤ p) :
    getByte (insertBufReuse b k d) p = getByte b p := by
  have hb := hdr_bounds hlen hv
  obtain ⟨l1, l2⟩ := iR_lengths hlen hv hk hsp
  rw [insertBufReuse, getByte_write2_out (by rw [l2]; omega) (by omega),
    getByte_slotWrite_out (by rw [l1]; omega) (by omega),
    getByte_writeBytes_ge (by omega) (by omega)]

end InsertReuseObs

/-! ### init: characterization -/

/-- The buffer `init` (via `header::init_empty`) produces. -/
def initBuf (b : Buf) (pt : Nat) : Buf :=
  writeBytes (writeBytes (writeBytes (writeBytes (writeBytes b 0
    [16 % 256, 16 / 256 % 256]) 2 [4096 % 256, 4096 / 256 % 256]) 4
    [0 % 256, 0 / 256 % 256]) 6 [(pt &&& 15) % 256, (pt &&& 15) / 256 % 256]) 8
    [0 % 256, 0 / 256 % 256, 0 / 65536 % 256, 0 / 16777216 % 256,
     0 / 4294967296 % 256, 0 / 1099511627776 % 256,
     0 / 281474976710656 % 256, 0 / 72057594037927936 % 256]

section InitObs

variable {b : Buf} {pt : Nat}

theorem init_lengths (hlen : b.length = 4096) :
    (writeBytes b 0 [16 % 256, 16 / 256 % 256]).length = 4096 ∧
    (writeBytes (writeBytes b 0 [16 % 256, 16 / 256 % 256]) 2
      [4096 % 256, 4096 / 256 % 256]).length = 4096 ∧
    (writeBytes (writeBytes (writeBytes b 0 [16 % 256, 16 / 256 % 256]) 2
      [4096 % 256, 4096 / 256 % 256]) 4 [0 % 256, 0 / 256 % 256]).length = 4096 ∧
    (writeBytes (writeBytes (writeBytes (writeBytes b 0 [16 % 256, 16 / 256 % 256]) 2
      [4096 % 256, 4096 / 256 % 256]) 4 [0 % 256, 0 / 256 % 256]) 6
      [(pt &&& 15) % 256, (pt &&& 15) / 256 % 256]).length = 4096 := by
  have l1 : (writeBytes b 0 [16 % 256, 16 / 256 % 256]).length = 4096 := by
    rw [length_writeBytes (by rw [hlen]; norm_num)]
    omega
  have l2 : (writeBytes (writeBytes b 0 [16 % 256, 16 / 256 % 256]) 2
      [4096 % 256, 4096 / 256 % 256]).length = 4096 := by
    rw [length_writeBytes (by rw [l1]; norm_num), l1]
  have l3 : (writeBytes (writeBytes (writeBytes b 0 [16 % 256, 16 / 256 % 256]) 2
      [4096 % 256, 4096 / 256 % 256]) 4 [0 % 256, 0 / 256 % 256]).length = 4096 := by
    rw [length_writeBytes (by rw [l2]; norm_num), l2]
  have l4 : (writeBytes (writeBytes (writeBytes (writeBytes b 0
      [16 % 256, 16 / 256 % 256]) 2 [4096 % 256, 4096 / 256 % 256]) 4
      [0 % 256, 0 / 256 % 256]) 6
      [(pt &&& 15) % 256, (pt &&& 15) / 256 % 256]).length = 4096 := by
    rw [length_writeBytes (by rw [l3]; norm_num), l3]
  exact ⟨l1, l2, l3, l4⟩

theorem init_eq (hlen : b.length = 4096) : init b pt = .ok (initBuf b pt) := by
  obtain ⟨l1, l2, l3, l4⟩ := @init_lengths b pt hlen
  rw [init, header.init_empty]
  simp only [SLOTTED_HEADER_SIZE, PAGE_SIZE, header.set_lower, header.set_upper,
    header.set_slot_count, header.set_flags, header.set_reserved, header.OFF_LOWER,
    header.OFF_UPPER, header.OFF_SLOT_COUNT, header.OFF_FLAGS, header.OFF_RESERVED]
  rw [write_u16_le_ok (by rw [hlen]; norm_num)]
  simp only []
  rw [write_u16_le_ok (by rw [l1]; norm_num)]
  simp only []
  rw [write_u16_le_ok (by rw [l2]; norm_num)]
  simp only []
  rw [write_u16_le_ok (by rw [l3]; norm_num)]
  simp only []
  rw [write_u64_le_ok (by rw [l4]; norm_num)]
  rw [initBuf]

theorem initBuf_length (hlen : b.length = 4096) : (initBuf b pt).length = 4096 := by
  obtain ⟨l1, l2, l3, l4⟩ := @init_lengths b pt hlen
  rw [initBuf, length_writeBytes (by rw [l4]; norm_num), l4]

theorem initBuf_getByte (hlen : b.length = 4096) (p : Nat) (hp : p < 8) :
    getByte (initBuf b pt) p =
      if p = 0 then 16 else if p = 1 then 0
      else if p = 2 then 0 else if p = 3 then 16
      else if p = 4 then 0 else if p = 5 then 0
      else if p = 6 then (pt &&& 15) % 256 else (pt &&& 15) / 256 % 256 := by
  obtain ⟨l1, l2, l3, l4⟩ := @init_lengths b pt hlen
  rw [initBuf, getByte_writeBytes_lt (by rw [l4]; norm_num) (by omega)]
  by_cases c6 : p = 6
  · subst c6
    rw [if_neg (by omega), if_neg (by omega), if_neg (by omega), if_neg (by omega),
      if_neg (by omega), if_neg (by omega), if_pos rfl]
    exact getByte_write2_self0 (by rw [l3]; norm_num)
  by_cases c7 : p = 7
  · subst c7
    rw [if_neg (by omega), if_neg (by omega), if_neg (by omega), if_neg (by norm_num),
      if_neg (by omega), if_neg (by omega), if_neg (by omega)]
    exact getByte_write2_self1 (by rw [l3]; norm_num)
  rw [getByte_write2_out (by rw [l3]; norm_num) (by omega)]
  by_cases c4 : p = 4
  · subst c4
    rw [if_neg (by omega), if_neg (by omega), if_neg (by omega), if_neg (by omega),
      if_pos rfl]
    have h := @getByte_write2_self0 (writeBytes (writeBytes b 0
      [16 % 256, 16 / 256 % 256]) 2 [4096 % 256, 4096 / 256 % 256]) 4
      (0 % 256) (0 / 256 % 256) (by rw [l2]; norm_num)
    rw [h]
  by_cases c5 : p = 5
  · subst c5
    rw [if_neg (by omega), if_neg (by omega), if_neg (by omega), if_neg (by omega),
      if_neg (by omega), if_pos rfl]
    have h := @getByte_write2_self1 (writeBytes (writeBytes b 0
      [16 % 256, 16 / 256 % 256]) 2 [4096 % 256, 4096 / 256 % 256]) 4
      (0 % 256) (0 / 256 % 256) (by rw [l2]; norm_num)
    rw [h]
  rw [getByte_write2_out (by rw [l2]; norm_num) (by omega)]
  by_cases c2 : p = 2
  · subst c2
    rw [if_neg (by omega), if_neg (by omega), if_pos rfl]
    have h := @getByte_write2_self0 (writeBytes b 0 [16 % 256, 16 / 256 % 256])
      2 (4096 % 256) (4096 / 256 % 256) (by rw [l1]; norm_num)
    rw [h]
  by_cases c3 : p = 3
  · subst c3
    rw [if_neg (by omega), if_neg (by omega), if_neg (by omega), if_pos rfl]
    have h := @getByte_write2_self1 (writeBytes b 0 [16 % 256, 16 / 256 % 256])
      2 (4096 % 256) (4096 / 256 % 256) (by rw [l1]; norm_num)
    rw [h]
  rw [getByte_write2_out (by rw [l1]; norm_num) (by omega)]
  by_cases c0 : p = 0
  · subst c0
    rw [if_pos rfl]
    have h := @getByte_write2_self0 b 0 (16 % 256)
      (16 / 256 % 256) (by rw [hlen]; norm_num)
    rw [h]
  by_cases c1 : p = 1
  · subst c1
    rw [if_neg (by omega), if_pos rfl]
    have h := @getByte_write2_self1 b 0 (16 % 256)
      (16 / 256 % 256) (by rw [hlen]; norm_num)
    rw [h]
  omega

theorem initBuf_hLower (hlen : b.length = 4096) : hLower (initBuf b pt) = 16 := by
  rw [hLower, initBuf_getByte hlen 0 (by omega), initBuf_getByte hlen 1 (by omega)]
  norm_num

theorem initBuf_hUpper (hlen : b.length = 4096) : hUpper (initBuf b pt) = 4096 := by
  rw [hUpper, initBuf_getByte hlen 2 (by omega), initBuf_getByte hlen 3 (by omega)]
  norm_num

theorem initBuf_hSlotCount (hlen : b.length = 4096) : hSlotCount (initBuf b pt) = 0 := by
  rw [hSlotCount, initBuf_getByte hlen 4 (by omega), initBuf_getByte hlen 5 (by omega)]
  norm_num

theorem initBuf_hFlags (hlen : b.length = 4096) :
    hFlags (initBuf b pt) = pt &&& 15 := by
  rw [hFlags, initBuf_getByte hlen 6 (by omega), initBuf_getByte hlen 7 (by omega)]
  norm_num
  have h15 : pt &&& 15 < 16 := by
    calc pt &&& 15 ≤ 15 := Nat.and_le_right
    _ < 16 := by omega
  omega

theorem initBuf_flag16 (hlen : b.length = 4096) : hFlags (initBuf b pt) &&& 16 = 0 := by
  rw [initBuf_hFlags hlen, and16_eq_zero_iff]
  have h15 : pt &&& 15 < 16 := by
    calc pt &&& 15 ≤ 15 := Nat.and_le_right
    _ < 16 := by omega
  exact Nat.testBit_lt_two_pow (by norm_num; omega)

theorem initBuf_valid (hlen : b.length = 4096) :
    validate_header (initBuf b pt) = .ok () := by
  rw [validate_header_ok_iff (by rw [initBuf_length hlen]; omega),
    initBuf_hLower hlen, initBuf_hUpper hlen, initBuf_hSlotCount hlen]
  norm_num

end InitObs

/-! ### Codec helpers for the bounds claim -/

theorem read_u32_le_ok {b : Buf} {off : Nat} (h : off + 4 ≤ b.length) :
    read_u32_le b off = .ok (getByte b off + 256 * getByte b (off + 1) +
      65536 * getByte b (off + 2) + 16777216 * getByte b (off + 3)) := by
  simp only [read_u32_le, checked_range]
  rw [if_neg (by omega)]

theorem write_u32_le_ok {b : Buf} {off v : Nat} (h : off + 4 ≤ b.length) :
    write_u32_le b off v = .ok (writeBytes b off
      [v % 256, v / 256 % 256, v / 65536 % 256, v / 16777216 % 256]) := by
  simp only [write_u32_le, checked_range]
  rw [if_neg (by omega)]

theorem getByte_writeBytes_self {b : Buf} {off : Nat} {L : List Nat}
    (h : off + L.length ≤ b.length) (i : Nat) (hi : i < L.length) :
    getByte (writeBytes b off L) (off + i) = getByte L i := by
  rw [getByte_writeBytes_in h (by omega) (by omega)]
  congr 1
  omega

/-- Does the page advertise a reusable tombstone that the insert scan would
find?  (HAS_FREE_SLOTS set and some allocated slot DEAD.) -/
def hasReusable (b : Buf) : Bool :=
  (hFlags b &&& 16 != 0) && ((List.range (hSlotCount b)).any fun j => sFlags b j % 2 == 1)

theorem hasReusable_iff (b : Buf) :
    hasReusable b = true ↔
      (hFlags b &&& 16 ≠ 0 ∧ ∃ j, j < hSlotCount b ∧ sFlags b j % 2 = 1) := by
  simp [hasReusable, List.any_eq_true, List.mem_range]

/-! ### Concrete pages used to evaluate the code at specific inputs -/

/-- A zeroed page-sized buffer. -/
def zeros4096 : Buf := List.replicate 4096 0

/-- A page whose header validates but whose slot 0 records a tuple range
`[4000, 4200)` that extends past PAGE_SIZE (header: lower 22, upper 3000,
slot_count 1; slot 0: offset 4000, len 200, live). -/
def corruptSlotPage : Buf :=
  writeBytes (writeBytes zeros4096 0 [22, 0, 184, 11, 1, 0, 0, 0]) 16
    [160, 15, 200, 0, 0, 0]

/-- A page whose header validates but whose live slot 0 records offset 0
and length 8 — a tuple range aliasing the page header (header: lower 22,
upper 4090, slot_count 1). -/
def headerAliasPage : Buf :=
  writeBytes (writeBytes zeros4096 0 [22, 0, 250, 15, 1, 0, 0, 0]) 16
    [0, 0, 8, 0, 0, 0]

/-- A fully valid one-record page: header lower 22, upper 4086,
slot_count 1; slot 0 live at offset 4086 with length 10. -/
def onePage : Buf :=
  writeBytes (writeBytes zeros4096 0 [22, 0, 246, 15, 1, 0, 0, 0]) 16
    [246, 15, 10, 0, 0, 0]

/-- A valid empty page whose HAS_FREE_SLOTS flag is set although no slot
exists (header: lower 16, upper 4096, slot_count 0, flags 16). -/
def staleFlagPage : Buf :=
  writeBytes zeros4096 0 [16, 0, 0, 16, 0, 0, 16, 0]

/-! ### Fresh-page insert sequences (claim C1 machinery) -/

/-- Total payload bytes of a list of records. -/
def sumLens (ds : List (List Nat)) : Nat := (ds.map List.length).sum

theorem sumLens_append (xs ys : List (List Nat)) :
    sumLens (xs ++ ys) = sumLens xs + sumLens ys := by
  simp [sumLens]

theorem sumLens_take_le (ds : List (List Nat)) (i : Nat) :
    sumLens (ds.take i) ≤ sumLens ds := by
  conv_rhs => rw [← List.take_append_drop i ds]
  rw [sumLens_append]
  omega

theorem sumLens_take_succ (ds : List (List Nat)) (i : Nat) (hi : i < ds.length) :
    sumLens (ds.take (i + 1)) = sumLens (ds.take i) + (ds.getD i []).length := by
  rw [List.take_succ, sumLens_append, List.getElem?_eq_getElem hi]
  simp [sumLens, List.getD_eq_getElem?_getD, List.getElem?_eq_getElem hi]

/-- The state of a page after a fresh `init` followed by a sequence of
successful inserts of `ds`: headers, slot directory and tuple bytes are
fully determined (the page-type flags word only needs its HAS_FREE_SLOTS
bit clear). -/
def GoodState (ds : List (List Nat)) (b : Buf) : Prop :=
  b.length = 4096 ∧
  hLower b = 16 + 6 * ds.length ∧
  hUpper b = 4096 - sumLens ds ∧
  hSlotCount b = ds.length ∧
  hFlags b &&& 16 = 0 ∧
  16 + 6 * ds.length + sumLens ds ≤ 4096 ∧
  (∀ i, i < ds.length →
    sOffset b i = 4096 - sumLens (ds.take (i + 1)) ∧
    sLen b i = (ds.getD i []).length ∧
    sFlags b i = 0 ∧
    (∀ j, j < (ds.getD i []).length →
      getByte b (4096 - sumLens (ds.take (i + 1)) + j) = getByte (ds.getD i []) j))

theorem goodState_init {b : Buf} {pt : Nat} (hlen : b.length = 4096) :
    GoodState [] (initBuf b pt) := by
  refine ⟨initBuf_length hlen, ?_, ?_, ?_, initBuf_flag16 hlen, by simp [sumLens], ?_⟩
  · rw [initBuf_hLower hlen]
    simp
  · rw [initBuf_hUpper hlen]
    simp [sumLens]
  · rw [initBuf_hSlotCount hlen]
    simp
  · intro i hi
    simp at hi

theorem goodState_valid {ds : List (List Nat)} {b : Buf} (hgs : GoodState ds b) :
    validate_header b = .ok () := by
  obtain ⟨hlen, hlo, hup, hsc, hfl, hbound, _⟩ := hgs
  rw [validate_header_ok_iff (by omega), hlo, hup, hsc]
  exact ⟨by omega, by omega, by omega, by omega⟩

theorem goodState_insert_ok {ds : List (List Nat)} {d : List Nat} {b : Buf}
    (hgs : GoodState ds b)
    (hsp : 16 + 6 * ds.length + sumLens ds + d.length + 6 ≤ 4096) :
    insert b d = (.ok ds.length, insertBufNew b d) ∧
      GoodState (ds ++ [d]) (insertBufNew b d) := by
  have hv := goodState_valid hgs
  obtain ⟨hlen, hlo, hup, hsc, hfl, hbound, hslots⟩ := hgs
  have hSL : sumLens [d] = d.length := by simp [sumLens]
  have hlapp : (ds ++ [d]).length = ds.length + 1 := by simp
  have hsp' : d.length + 6 ≤ hUpper b - hLower b := by rw [hup, hlo]; omega
  refine ⟨by rw [insert_ok_direct hlen hv hfl hsp', hsc], ?_⟩
  refine ⟨iN_length hlen hv hsp', ?_, ?_, ?_, ?_, ?_, ?_⟩
  · rw [iN_hLower hlen hv hsp', hsc, hlapp]
    ring
  · rw [iN_hUpper hlen hv hsp', hup, sumLens_append, hSL]
    omega
  · rw [iN_hSlotCount hlen hv hsp', hsc, hlapp]
  · rw [iN_hFlags hlen hv hsp']
    exact hfl
  · rw [sumLens_append, hSL, hlapp]
    omega
  · intro i hi
    rw [hlapp] at hi
    by_cases hik : i < ds.length
    · obtain ⟨ho, hl, hf, hdata⟩ := hslots i hik
      obtain ⟨ho', hl', hf'⟩ := iN_slot_other hlen hv hsp' (by rw [hsc]; exact hik)
      have htake : (ds ++ [d]).take (i + 1) = ds.take (i + 1) :=
        List.take_append_of_le_length (by omega)
      have hgetD : (ds ++ [d]).getD i [] = ds.getD i [] := by
        rw [List.getD_eq_getElem?_getD, List.getElem?_append_left hik,
          List.getD_eq_getElem?_getD]
      rw [htake, hgetD, ho', hl', hf']
      refine ⟨ho, hl, hf, ?_⟩
      intro j hj
      rw [iN_tail hlen hv hsp' _ (by
        have := sumLens_take_le ds (i + 1)
        rw [hup]
        omega)]
      exact hdata j hj
    · have hik2 : i = ds.length := by omega
      subst hik2
      obtain ⟨ho', hl', hf'⟩ := iN_slot_self hlen hv hsp'
      rw [hsc] at ho' hl' hf'
      have htake : (ds ++ [d]).take (ds.length + 1) = ds ++ [d] := by
        rw [List.take_of_length_le (by simp)]
      have hgetD : (ds ++ [d]).getD ds.length [] = d := by
        rw [List.getD_eq_getElem?_getD, List.getElem?_append_right (by omega)]
        simp
      rw [htake, hgetD, ho', hl', hf', sumLens_append, hSL]
      refine ⟨by rw [hup]; omega, rfl, rfl, ?_⟩
      intro j hj
      have h := iN_data hlen hv hsp' j hj
      rw [hup] at h
      rw [show 4096 - (sumLens ds + d.length) + j =
        4096 - sumLens ds - d.length + j from by omega]
      exact h

/-! ### Error-path lemmas and success inversions -/

theorem insert_toolarge1 {b : Buf} {d : List Nat}
    (hlen : b.length = 4096) (hv : validate_header b = .ok ())
    (hdl : 65535 < d.length) :
    insert b d = (.error (.Corruption "record is too large"), b) := by
  rw [insert, hv]
  simp only []
  rw [upper_ok (by omega)]
  simp only []
  rw [slot_count_ok (by omega)]
  simp only []
  rw [if_pos (show d.length > 65535 by omega)]

theorem insert_toolarge2_direct {b : Buf} {d : List Nat}
    (hlen : b.length = 4096) (hv : validate_header b = .ok ())
    (hfl : hFlags b &&& 16 = 0)
    (hdl1 : d.length ≤ 65535) (hdl2 : 65535 < d.length + 6) :
    insert b d = (.error (.Corruption "need size overflow"), b) := by
  rw [insert, hv]
  simp only []
  rw [upper_ok (by omega)]
  simp only []
  rw [slot_count_ok (by omega)]
  simp only []
  rw [if_neg (show ¬ d.length > 65535 by omega), ffs_noflag (by omega) hfl]
  simp only [Option.getD_none, Option.isSome_none, Bool.false_eq_true, if_false,
    SLOTTED_SLOT_SIZE, SLOTTED_HEADER_SIZE]
  rw [if_pos (show d.length + 6 > 65535 by omega)]

theorem insert_toolarge2_clear {b : Buf} {d : List Nat}
    (hlen : b.length = 4096) (hv : validate_header b = .ok ())
    (hfl : hFlags b &&& 16 ≠ 0)
    (hall : ∀ j, j < hSlotCount b → sFlags b j % 2 = 0)
    (hdl1 : d.length ≤ 65535) (hdl2 : 65535 < d.length + 6) :
    insert b d = (.error (.Corruption "need size overflow"), clearBuf b) := by
  have hb := hdr_bounds hlen hv
  rw [insert, hv]
  simp only []
  rw [upper_ok (by omega)]
  simp only []
  rw [slot_count_ok (by omega)]
  simp only []
  rw [if_neg (show ¬ d.length > 65535 by omega),
    ffs_clear (by omega) (by omega) hfl hall]
  simp only [Option.getD_none, Option.isSome_none, Bool.false_eq_true, if_false,
    SLOTTED_SLOT_SIZE, SLOTTED_HEADER_SIZE]
  rw [if_pos (show d.length + 6 > 65535 by omega)]

/-- Classification of every `insert` success. -/
theorem insert_ok_inv {b bi : Buf} {d : List Nat} {r : Nat}
    (hlen : b.length = 4096) (hv : validate_header b = .ok ())
    (h : insert b d = (.ok r, bi)) :
    (hFlags b &&& 16 = 0 ∧ r = hSlotCount b ∧ bi = insertBufNew b d ∧
      d.length + 6 ≤ hUpper b - hLower b) ∨
    (hFlags b &&& 16 ≠ 0 ∧ (∀ j, j < hSlotCount b → sFlags b j % 2 = 0) ∧
      r = hSlotCount b ∧ bi = insertBufNew (clearBuf b) d ∧
      d.length + 6 ≤ hUpper b - hLower b) ∨
    (hFlags b &&& 16 ≠ 0 ∧ r < hSlotCount b ∧ sFlags b r % 2 = 1 ∧
      (∀ j, j < r → sFlags b j % 2 = 0) ∧ bi = insertBufReuse b r d ∧
      d.length ≤ hUpper b - hLower b) := by
  have hb := hdr_bounds hlen hv
  by_cases hdl : d.length ≤ 65535
  case neg =>
    rw [insert_toolarge1 hlen hv (by omega)] at h
    simp at h
  by_cases hfl : hFlags b &&& 16 = 0
  · by_cases hsp : d.length + 6 ≤ hUpper b - hLower b
    · rw [insert_ok_direct hlen hv hfl hsp] at h
      simp only [Prod.mk.injEq, Except.ok.injEq] at h
      obtain ⟨h1, h2⟩ := h
      subst h1
      exact Or.inl ⟨hfl, rfl, h2.symm, hsp⟩
    · exfalso
      by_cases hdl2 : d.length + 6 ≤ 65535
      · rw [insert_nospace_direct hlen hv hfl hdl2 (by omega)] at h
        simp at h
      · rw [insert_toolarge2_direct hlen hv hfl hdl (by omega)] at h
        simp at h
  · by_cases hdead : ∃ k, k < hSlotCount b ∧ sFlags b k % 2 = 1
    · have hwf : ∃ k, k < hSlotCount b ∧ sFlags b k % 2 = 1 := hdead
      classical
      let k := Nat.find hwf
      have hkprop : k < hSlotCount b ∧ sFlags b k % 2 = 1 := Nat.find_spec hwf
      have hkmin : ∀ j, j < k → sFlags b j % 2 = 0 := by
        intro j hj
        have := Nat.find_min hwf hj
        have hj2 : j < hSlotCount b := by omega
        simp only [hj2, true_and] at this
        omega
      by_cases hsp : d.length ≤ hUpper b - hLower b
      · rw [insert_ok_reuse hlen hv hfl hkprop.1 hkprop.2 hkmin hsp] at h
        simp only [Prod.mk.injEq, Except.ok.injEq] at h
        obtain ⟨h1, h2⟩ := h
        subst h1
        exact Or.inr (Or.inr ⟨hfl, hkprop.1, hkprop.2, hkmin, h2.symm, hsp⟩)
      · exfalso
        rw [insert_nospace_reuse hlen hv hfl hkprop.1 hkprop.2 hkmin hdl
          (by omega)] at h
        simp at h
    · have hall : ∀ j, j < hSlotCount b → sFlags b j % 2 = 0 := by
        intro j hj
        by_contra hcon
        exact hdead ⟨j, hj, by omega⟩
      by_cases hsp : d.length + 6 ≤ hUpper b - hLower b
      · rw [insert_ok_clear hlen hv hfl hall hsp] at h
        simp only [Prod.mk.injEq, Except.ok.injEq] at h
        obtain ⟨h1, h2⟩ := h
        subst h1
        exact Or.inr (Or.inl ⟨hfl, hall, rfl, h2.symm, hsp⟩)
      · exfalso
        by_cases hdl2 : d.length + 6 ≤ 65535
        · rw [insert_nospace_clear hlen hv hfl hall hdl2 (by omega)] at h
          simp at h
        · rw [insert_toolarge2_clear hlen hv hfl hall hdl (by omega)] at h
          simp at h

/-- Classification of every `delete` success. -/
theorem delete_ok_inv {b bd : Buf} {id : Nat}
    (hlen : b.length = 4096) (hv : validate_header b = .ok ())
    (h : delete b id = (.ok (), bd)) :
    id < hSlotCount b ∧
    ((sFlags b id % 2 = 1 ∧ bd = b) ∨
     (sFlags b id % 2 = 0 ∧ bd = deleteBuf b id)) := by
  by_cases hid : id < hSlotCount b
  · refine ⟨hid, ?_⟩
    by_cases hdead : sFlags b id % 2 = 1
    · rw [delete_dead hlen hv hid hdead] at h
      have h2 := congrArg Prod.snd h
      simp only [] at h2
      exact Or.inl ⟨hdead, h2.symm⟩
    · rw [delete_live_eq hlen hv hid (by omega)] at h
      have h2 := congrArg Prod.snd h
      simp only [] at h2
      exact Or.inr ⟨by omega, h2.symm⟩
  · exfalso
    rw [delete_invalid hlen hv (by omega)] at h
    simp at h

theorem update_inplace_panic {b : Buf} {id : Nat} {d : List Nat}
    (hlen : b.length = 4096) (hv : validate_header b = .ok ())
    (hid : id < hSlotCount b) (hlive : sFlags b id % 2 = 0)
    (hdl : d.length ≤ sLen b id) (hdl65 : d.length ≤ 65535)
    (hnp : b.length < sOffset b id + sLen b id) :
    update b id d = none := by
  have hb := hdr_bounds hlen hv
  rw [update, hv]
  simp only []
  rw [slot_count_ok (by omega)]
  simp only []
  rw [if_neg (show ¬ id ≥ hSlotCount b by omega), read_slot_ok (by omega)]
  simp only [is_dead_eq, decide_eq_true_eq]
  rw [if_neg (show ¬ sFlags b id % 2 = 1 by omega),
    if_neg (show ¬ d.length > 65535 by omega),
    if_pos (show d.length ≤ sLen b id from hdl)]
  by_cases hnp1 : sOffset b id + d.length > b.length
  · rw [if_pos hnp1]
  · rw [if_neg hnp1,
      if_pos (show sOffset b id + sLen b id >
        (writeBytes b (sOffset b id) d).length by
        rw [length_writeBytes (by omega)]
        omega)]

/-- Classification of every `update` success. -/
theorem update_ok_inv {b bu : Buf} {id : Nat} {d : List Nat} {mv : Bool}
    (hlen : b.length = 4096) (hv : validate_header b = .ok ())
    (h : update b id d = some (.ok mv, bu)) :
    id < hSlotCount b ∧ sFlags b id % 2 = 0 ∧ d.length ≤ 65535 ∧
    ((d.length ≤ sLen b id ∧ mv = false ∧ bu = updateBufIn b id d ∧
        sOffset b id + sLen b id ≤ b.length) ∨
     (sLen b id < d.length ∧ mv = true ∧ bu = updateBufMove b id d ∧
        d.length ≤ hUpper b - hLower b)) := by
  by_cases hid : id < hSlotCount b
  case neg =>
    rw [update_invalid hlen hv (by omega)] at h
    simp at h
  by_cases hdead : sFlags b id % 2 = 1
  case pos =>
    rw [update_dead hlen hv hid hdead] at h
    simp at h
  have hlive : sFlags b id % 2 = 0 := by omega
  by_cases hdl : d.length ≤ 65535
  case neg =>
    rw [update_toolarge hlen hv hid hlive (by omega)] at h
    simp at h
  refine ⟨hid, hlive, hdl, ?_⟩
  by_cases hcase : d.length ≤ sLen b id
  · by_cases hnp : sOffset b id + sLen b id ≤ b.length
    · rw [update_inplace_eq hlen hv hid hlive hcase hdl hnp] at h
      simp only [Option.some.injEq, Prod.mk.injEq, Except.ok.injEq] at h
      exact Or.inl ⟨hcase, h.1.symm, h.2.symm, hnp⟩
    · exfalso
      rw [update_inplace_panic hlen hv hid hlive hcase hdl (by omega)] at h
      simp at h
  · by_cases hsp : d.length ≤ hUpper b - hLower b
    · rw [update_move_eq hlen hv hid hlive (by omega) hsp] at h
      simp only [Option.some.injEq, Prod.mk.injEq, Except.ok.injEq] at h
      exact Or.inr ⟨by omega, h.1.symm, h.2.symm, hsp⟩
    · exfalso
      rw [update_move_nospace hlen hv hid hlive (by omega) hdl (by omega)] at h
      simp at h

/-- Running a list of inserts in order, stopping at the first failure. -/
def runInserts (b : Buf) : List (List Nat) → Except DbError (List Nat × Buf)
  | [] => .ok ([], b)
  | d :: rest =>
    match insert b d with
    | (.ok id, b₁) =>
      match runInserts b₁ rest with
      | .ok (ids, bf) => .ok (id :: ids, bf)
      | .error e => .error e
    | (.error e, _) => .error e

/-- If the page is in a fresh-inserts state and `insert` reports success,
the success is the fresh-slot one. -/
theorem goodState_insert_inv {ds : List (List Nat)} {d : List Nat} {b b₁ : Buf}
    {id : Nat} (hgs : GoodState ds b) (h : insert b d = (.ok id, b₁)) :
    id = ds.length ∧ b₁ = insertBufNew b d ∧
      16 + 6 * ds.length + sumLens ds + d.length + 6 ≤ 4096 := by
  have hv := goodState_valid hgs
  obtain ⟨hlen, hlo, hup, hsc, hfl, hbound, hslots⟩ := hgs
  by_cases hsp : d.length + 6 ≤ hUpper b - hLower b
  · rw [insert_ok_direct hlen hv hfl hsp, hsc] at h
    have h1 := congrArg Prod.fst h
    have h2 := congrArg Prod.snd h
    simp only [] at h1 h2
    constructor
    · cases h1
      rfl
    · exact ⟨h2.symm, by rw [hup, hlo] at hsp; omega⟩
  · exfalso
    by_cases hdl : d.length + 6 ≤ 65535
    · rw [insert_nospace_direct hlen hv hfl hdl (by omega)] at h
      simp at h
    · by_cases hdl1 : d.length ≤ 65535
      · rw [insert, hv] at h
        simp only [] at h
        rw [upper_ok (by omega)] at h
        simp only [] at h
        rw [slot_count_ok (by omega)] at h
        simp only [] at h
        rw [if_neg (show ¬ d.length > 65535 by omega), ffs_noflag (by omega) hfl]
          at h
        simp only [Option.getD_none, Option.isSome_none, Bool.false_eq_true, if_false,
          SLOTTED_SLOT_SIZE, SLOTTED_HEADER_SIZE] at h
        rw [if_pos (show d.length + 6 > 65535 by omega)] at h
        simp at h
      · rw [insert, hv] at h
        simp only [] at h
        rw [upper_ok (by omega)] at h
        simp only [] at h
        rw [slot_count_ok (by omega)] at h
        simp only [] at h
        rw [if_pos (show d.length > 65535 by omega)] at h
        simp at h

/-- Main induction: a successful run of inserts from a fresh-state page
yields consecutive slot ids and the fully determined final state. -/
theorem runInserts_goodState (xs : List (List Nat)) :
    ∀ (ds₀ : List (List Nat)) (b : Buf) (ids : List Nat) (bf : Buf),
      GoodState ds₀ b → runInserts b xs = .ok (ids, bf) →
      ids = List.range' ds₀.length xs.length ∧ GoodState (ds₀ ++ xs) bf := by
  induction xs with
  | nil =>
    intro ds₀ b ids bf hgs hrun
    rw [runInserts] at hrun
    simp only [Except.ok.injEq, Prod.mk.injEq] at hrun
    obtain ⟨h1, h2⟩ := hrun
    subst h1
    subst h2
    exact ⟨by simp [List.range'], by simpa using hgs⟩
  | cons d rest ih =>
    intro ds₀ b ids bf hgs hrun
    rw [runInserts] at hrun
    rcases h1 : insert b d with ⟨r, b₁⟩
    rw [h1] at hrun
    cases r with
    | error e => simp at hrun
    | ok id =>
      simp only [] at hrun
      rcases h2 : runInserts b₁ rest with e | ⟨ids', bf'⟩
      · rw [h2] at hrun
        simp at hrun
      · rw [h2] at hrun
        simp only [Except.ok.injEq, Prod.mk.injEq] at hrun
        obtain ⟨hids, hbf⟩ := hrun
        obtain ⟨hid, hb₁, hsp⟩ := goodState_insert_inv hgs h1
        subst hb₁
        have hgs' := (goodState_insert_ok hgs hsp).2
        obtain ⟨hids', hgsf⟩ := ih (ds₀ ++ [d]) _ ids' bf' hgs' h2
        subst hids
        subst hbf
        constructor
        · rw [hids', hid]
          simp [List.range']
        · rw [List.append_cons]
          simpa using hgsf

/-- Reading any slot of a fresh-inserts state returns its record. -/
theorem goodState_get {ds : List (List Nat)} {b : Buf} {i : Nat}
    (hgs : GoodState ds b) (hi : i < ds.length) :
    get b i = .ok (some (ds.getD i [])) := by
  have hv := goodState_valid hgs
  obtain ⟨hlen, hlo, hup, hsc, hfl, hbound, hslots⟩ := hgs
  obtain ⟨ho, hl, hf, hdata⟩ := hslots i hi
  have htle := sumLens_take_le ds (i + 1)
  have hts := sumLens_take_succ ds i hi
  have htle2 := sumLens_take_le ds i
  rw [get_live hlen hv (by omega) (by omega) (by rw [hup, ho]; omega)
    (by rw [ho, hl]; omega)]
  rw [ho, hl]
  congr 1
  congr 1
  apply readBytes_eq rfl (by omega)
  intro j hj
  exact hdata j hj

/-! ### Facts about the concrete pages -/

theorem zeros4096_length : zeros4096.length = 4096 := by
  rw [zeros4096, List.length_replicate]

theorem getByte_zeros4096 (j : Nat) : getByte zeros4096 j = 0 := getByte_replicate 4096 j

theorem hdr8_getByte (hdr : List Nat) (h8 : hdr.length = 8) (j : Nat) :
    getByte (writeBytes zeros4096 0 hdr) j = if j < 8 then getByte hdr j else 0 := by
  rw [getByte_writeBytes j (by rw [zeros4096_length]; omega)]
  by_cases hc : j < 8
  · rw [if_pos (by omega), if_pos hc, Nat.sub_zero]
  · rw [if_neg (by omega), if_neg hc, getByte_zeros4096]

theorem hdrPage_length (hdr s6 : List Nat) (h8 : hdr.length = 8) (h6 : s6.length = 6) :
    (writeBytes (writeBytes zeros4096 0 hdr) 16 s6).length = 4096 := by
  have hA : (writeBytes zeros4096 0 hdr).length = 4096 := by
    rw [length_writeBytes (by rw [zeros4096_length]; omega), zeros4096_length]
  rw [length_writeBytes (by rw [hA]; omega), hA]

theorem hdrPage_getByte (hdr s6 : List Nat) (h8 : hdr.length = 8) (h6 : s6.length = 6)
    (j : Nat) :
    getByte (writeBytes (writeBytes zeros4096 0 hdr) 16 s6) j =
      if 16 ≤ j ∧ j < 22 then getByte s6 (j - 16)
      else if j < 8 then getByte hdr j
      else 0 := by
  have hA : (writeBytes zeros4096 0 hdr).length = 4096 := by
    rw [length_writeBytes (by rw [zeros4096_length]; omega), zeros4096_length]
  rw [getByte_writeBytes j (by rw [hA]; omega)]
  by_cases hc : 16 ≤ j ∧ j < 22
  · rw [if_pos (by omega), if_pos hc]
  · rw [if_neg (by omega), if_neg hc, hdr8_getByte hdr h8 j]

theorem corruptSlotPage_byte (j : Nat) :
    getByte corruptSlotPage j =
      if 16 ≤ j ∧ j < 22 then getByte [160, 15, 200, 0, 0, 0] (j - 16)
      else if j < 8 then getByte [22, 0, 184, 11, 1, 0, 0, 0] j
      else 0 :=
  hdrPage_getByte [22, 0, 184, 11, 1, 0, 0, 0] [160, 15, 200, 0, 0, 0] rfl rfl j

theorem corruptSlotPage_length : corruptSlotPage.length = 4096 :=
  hdrPage_length [22, 0, 184, 11, 1, 0, 0, 0] [160, 15, 200, 0, 0, 0] rfl rfl

theorem corruptSlotPage_hLower : hLower corruptSlotPage = 22 := by
  rw [hLower, corruptSlotPage_byte, corruptSlotPage_byte]
  norm_num [getByte]

theorem corruptSlotPage_hUpper : hUpper corruptSlotPage = 3000 := by
  rw [hUpper, corruptSlotPage_byte, corruptSlotPage_byte]
  norm_num [getByte]

theorem corruptSlotPage_hSlotCount : hSlotCount corruptSlotPage = 1 := by
  rw [hSlotCount, corruptSlotPage_byte, corruptSlotPage_byte]
  norm_num [getByte]

theorem corruptSlotPage_sOffset0 : sOffset corruptSlotPage 0 = 4000 := by
  rw [sOffset, corruptSlotPage_byte, corruptSlotPage_byte]
  norm_num [getByte]

theorem corruptSlotPage_sLen0 : sLen corruptSlotPage 0 = 200 := by
  rw [sLen, corruptSlotPage_byte, corruptSlotPage_byte]
  norm_num [getByte]

theorem corruptSlotPage_sFlags0 : sFlags corruptSlotPage 0 = 0 := by
  rw [sFlags, corruptSlotPage_byte, corruptSlotPage_byte]
  norm_num [getByte]

theorem corruptSlotPage_valid : validate_header corruptSlotPage = .ok () := by
  rw [validate_header_ok_iff (by rw [corruptSlotPage_length]; omega),
    corruptSlotPage_hLower, corruptSlotPage_hUpper, corruptSlotPage_hSlotCount]
  norm_num

theorem headerAliasPage_byte (j : Nat) :
    getByte headerAliasPage j =
      if 16 ≤ j ∧ j < 22 then getByte [0, 0, 8, 0, 0, 0] (j - 16)
      else if j < 8 then getByte [22, 0, 250, 15, 1, 0, 0, 0] j
      else 0 :=
  hdrPage_getByte [22, 0, 250, 15, 1, 0, 0, 0] [0, 0, 8, 0, 0, 0] rfl rfl j

theorem headerAliasPage_length : headerAliasPage.length = 4096 :=
  hdrPage_length [22, 0, 250, 15, 1, 0, 0, 0] [0, 0, 8, 0, 0, 0] rfl rfl

theorem headerAliasPage_hLower : hLower headerAliasPage = 22 := by
  rw [hLower, headerAliasPage_byte, headerAliasPage_byte]
  norm_num [getByte]

theorem headerAliasPage_hUpper : hUpper headerAliasPage = 4090 := by
  rw [hUpper, headerAliasPage_byte, headerAliasPage_byte]
  norm_num [getByte]

theorem headerAliasPage_hSlotCount : hSlotCount headerAliasPage = 1 := by
  rw [hSlotCount, headerAliasPage_byte, headerAliasPage_byte]
  norm_num [getByte]

theorem headerAliasPage_sOffset0 : sOffset headerAliasPage 0 = 0 := by
  rw [sOffset, headerAliasPage_byte, headerAliasPage_byte]
  norm_num [getByte]

theorem headerAliasPage_sLen0 : sLen headerAliasPage 0 = 8 := by
  rw [sLen, headerAliasPage_byte, headerAliasPage_byte]
  norm_num [getByte]

theorem headerAliasPage_sFlags0 : sFlags headerAliasPage 0 = 0 := by
  rw [sFlags, headerAliasPage_byte, headerAliasPage_byte]
  norm_num [getByte]

theorem headerAliasPage_valid : validate_header headerAliasPage = .ok () := by
  rw [validate_header_ok_iff (by rw [headerAliasPage_length]; omega),
    headerAliasPage_hLower, headerAliasPage_hUpper, headerAliasPage_hSlotCount]
  norm_num

theorem onePage_byte (j : Nat) :
    getByte onePage j =
      if 16 ≤ j ∧ j < 22 then getByte [246, 15, 10, 0, 0, 0] (j - 16)
      else if j < 8 then getByte [22, 0, 246, 15, 1, 0, 0, 0] j
      else 0 :=
  hdrPage_getByte [22, 0, 246, 15, 1, 0, 0, 0] [246, 15, 10, 0, 0, 0] rfl rfl j

theorem onePage_length : onePage.length = 4096 :=
  hdrPage_length [22, 0, 246, 15, 1, 0, 0, 0] [246, 15, 10, 0, 0, 0] rfl rfl

theorem onePage_hLower : hLower onePage = 22 := by
  rw [hLower, onePage_byte, onePage_byte]
  norm_num [getByte]

theorem onePage_hUpper : hUpper onePage = 4086 := by
  rw [hUpper, onePage_byte, onePage_byte]
  norm_num [getByte]

theorem onePage_hSlotCount : hSlotCount onePage = 1 := by
  rw [hSlotCount, onePage_byte, onePage_byte]
  norm_num [getByte]

theorem onePage_hFlags : hFlags onePage = 0 := by
  rw [hFlags, onePage_byte, onePage_byte]
  norm_num [getByte]

theorem onePage_sOffset0 : sOffset onePage 0 = 4086 := by
  rw [sOffset, onePage_byte, onePage_byte]
  norm_num [getByte]

theorem onePage_sLen0 : sLen onePage 0 = 10 := by
  rw [sLen, onePage_byte, onePage_byte]
  norm_num [getByte]

theorem onePage_sFlags0 : sFlags onePage 0 = 0 := by
  rw [sFlags, onePage_byte, onePage_byte]
  norm_num [getByte]

theorem onePage_valid : validate_header onePage = .ok () := by
  rw [validate_header_ok_iff (by rw [onePage_length]; omega),
    onePage_hLower, onePage_hUpper, onePage_hSlotCount]
  norm_num

theorem staleFlagPage_byte (j : Nat) :
    getByte staleFlagPage j =
      if j < 8 then getByte [16, 0, 0, 16, 0, 0, 16, 0] j else 0 :=
  hdr8_getByte [16, 0, 0, 16, 0, 0, 16, 0] rfl j

theorem staleFlagPage_length : staleFlagPage.length = 4096 := by
  rw [staleFlagPage, length_writeBytes (by rw [zeros4096_length]; norm_num),
    zeros4096_length]

theorem staleFlagPage_hLower : hLower staleFlagPage = 16 := by
  rw [hLower, staleFlagPage_byte, staleFlagPage_byte]
  norm_num [getByte]

theorem staleFlagPage_hUpper : hUpper staleFlagPage = 4096 := by
  rw [hUpper, staleFlagPage_byte, staleFlagPage_byte]
  norm_num [getByte]

theorem staleFlagPage_hSlotCount : hSlotCount staleFlagPage = 0 := by
  rw [hSlotCount, staleFlagPage_byte, staleFlagPage_byte]
  norm_num [getByte]

theorem staleFlagPage_hFlags : hFlags staleFlagPage = 16 := by
  rw [hFlags, staleFlagPage_byte, staleFlagPage_byte]
  norm_num [getByte]

theorem staleFlagPage_valid : validate_header staleFlagPage = .ok () := by
  rw [validate_header_ok_iff (by rw [staleFlagPage_length]; omega),
    staleFlagPage_hLower, staleFlagPage_hUpper, staleFlagPage_hSlotCount]
  norm_num

/-! ### Further delete-result facts -/

theorem deleteBuf_dead {b : Buf} {id : Nat}
    (hid6 : 16 + id * 6 + 6 ≤ b.length) (h8 : 8 ≤ b.length) :
    sFlags (deleteBuf b id) id % 2 = 1 := by
  rw [deleteBuf_sFlags hid6 h8]
  have h1 := lor_one_mod_two (sFlags b id)
  omega

theorem deleteBuf_flag16 {b : Buf} {id : Nat}
    (hid6 : 16 + id * 6 + 6 ≤ b.length) (h8 : 8 ≤ b.length) :
    hFlags (deleteBuf b id) &&& 16 ≠ 0 := by
  rw [deleteBuf_hFlags hid6 h8]
  intro hc
  have h1 := (and16_eq_zero_iff _).mp hc
  have h2 : ((hFlags b ||| 16) % 65536).testBit 4 = (hFlags b ||| 16).testBit 4 := by
    rw [show (65536:Nat) = 2 ^ 16 from by norm_num, Nat.testBit_mod_two_pow]
    simp
  rw [h2, testBit4_lor16] at h1
  simp at h1

theorem deleteBuf_valid {b : Buf} {id : Nat}
    (hlen : b.length = 4096) (hv : validate_header b = .ok ())
    (hid : id < hSlotCount b) :
    validate_header (deleteBuf b id) = .ok () := by
  have hb := hdr_bounds hlen hv
  have hid6 : 16 + id * 6 + 6 ≤ b.length := by omega
  rw [validate_header_ok_iff (by rw [deleteBuf_length hid6 (by omega)]; omega),
    deleteBuf_hLower hid6 (by omega), deleteBuf_hUpper hid6 (by omega),
    deleteBuf_hSlotCount hid6 (by omega)]
  exact ⟨by omega, by omega, by omega, by omega⟩


/-- Opening the empty file: the zero-page write on the empty byte string
leaves exactly one zeroed page. -/
theorem openPager_nil :
    FilePager.openPager [] = .ok ⟨List.replicate 4096 0, [], 1⟩ := by
  rw [FilePager.openPager]
  simp only [PAGE_SIZE, List.length_nil]
  rw [if_neg (by norm_num), if_pos (by norm_num), writeBytes]
  simp only [List.take_nil, List.drop_nil, List.append_nil, List.nil_append]

/-! ## Claim theorems -/

/-- C2: the claim that no core operation panics on malformed input is
refuted by the code itself: on a page whose header validates but whose
live slot 0 records the tuple range [4000, 4200) extending past
PAGE_SIZE, the in-place branch of `update` slices the buffer out of
range and panics (modelled as `none`); and the pager's `read_page`,
`write_page`, `alloc_page` and `free_page` bodies are todo stubs that
panic on every call, well-formed input included. -/
theorem C2_panics_on_malformed_input :
    validate_header corruptSlotPage = .ok () ∧
    sOffset corruptSlotPage 0 + sLen corruptSlotPage 0 > PAGE_SIZE ∧
    update corruptSlotPage 0 [1, 2] = none ∧
    FilePager.read_page ⟨zeros4096, [], 1⟩ 1 zeros4096 = none ∧
    FilePager.write_page ⟨zeros4096, [], 1⟩ 1 zeros4096 = none ∧
    FilePager.alloc_page ⟨zeros4096, [], 1⟩ = none ∧
    FilePager.free_page ⟨zeros4096, [], 1⟩ 1 = none := by
  refine ⟨corruptSlotPage_valid, ?_, ?_, rfl, rfl, rfl, rfl⟩
  · rw [corruptSlotPage_sOffset0, corruptSlotPage_sLen0, PAGE_SIZE]
    norm_num
  · exact update_inplace_panic corruptSlotPage_length corruptSlotPage_valid
      (by rw [corruptSlotPage_hSlotCount]; omega)
      (by rw [corruptSlotPage_sFlags0])
      (by rw [corruptSlotPage_sLen0]; norm_num)
      (by norm_num)
      (by rw [corruptSlotPage_length, corruptSlotPage_sOffset0, corruptSlotPage_sLen0]
          norm_num)

/-- C10: the claimed freelist-reuse/growth allocation behavior does not
exist in the code: opening an empty file succeeds, but `alloc_page` and
`free_page` execute the todo macro and panic (modelled as `none`) on
every call, so no allocation or reclamation property can hold. -/
theorem C10_alloc_free_unimplemented :
    FilePager.openPager [] = .ok ⟨List.replicate 4096 0, [], 1⟩ ∧
    FilePager.alloc_page ⟨List.replicate 4096 0, [], 1⟩ = none ∧
    FilePager.free_page ⟨List.replicate 4096 0, [], 1⟩ 3 = none :=
  ⟨openPager_nil, rfl, rfl⟩

/-- C9 (amended): `open` fails with Corruption when the file length is
not a multiple of 4096; on an empty file it installs one zeroed
4096-byte page and the next allocatable page id is 1 (`num_pages`
reports 1); on a non-empty page-aligned file whose u32-truncated page
count (length / 4096) mod 2^32 is nonzero — every real file below 2^44
bytes — the next allocatable id is that truncated count, which then
equals length / 4096; when the truncated count wraps to zero, `open`
takes the create branch, overwriting page 0 with zeros and setting the
next id to 1 (refuting the original unbounded length / 4096 claim,
`C9_counterexample`). -/
theorem C9_pager_open (f : List Nat) :
    (f.length % 4096 ≠ 0 →
      FilePager.openPager f = .error (.Corruption "db file length is not page-aligned")) ∧
    (f.length = 0 →
      FilePager.openPager f = .ok ⟨List.replicate 4096 0, [], 1⟩ ∧
      FilePager.num_pages ⟨List.replicate 4096 0, [], 1⟩ = .ok 1) ∧
    (f.length % 4096 = 0 → f.length / 4096 % 4294967296 ≠ 0 →
      FilePager.openPager f = .ok ⟨f, [], f.length / 4096 % 4294967296⟩ ∧
      (f.length < 17592186044416 →
        f.length / 4096 % 4294967296 = f.length / 4096) ∧
      FilePager.num_pages ⟨f, [], f.length / 4096 % 4294967296⟩ =
        .ok (f.length / 4096)) ∧
    (f.length % 4096 = 0 → f.length ≠ 0 → f.length / 4096 % 4294967296 = 0 →
      FilePager.openPager f =
        .ok ⟨writeBytes f 0 (List.replicate 4096 0), [], 1⟩) := by
  refine ⟨?_, ?_, ?_, ?_⟩
  · intro h
    rw [FilePager.openPager, if_pos (by simpa [PAGE_SIZE] using h)]
  · intro h
    have hf : f = [] := List.length_eq_zero.mp h
    subst hf
    refine ⟨openPager_nil, ?_⟩
    rw [FilePager.num_pages]
    simp only [PAGE_SIZE]
    rw [List.length_replicate]
  · intro h1 h2
    refine ⟨?_, ?_, ?_⟩
    · rw [FilePager.openPager]
      simp only [PAGE_SIZE]
      rw [if_neg (by simp [h1])]
      rw [if_neg h2]
    · intro h3
      have : f.length / 4096 < 4294967296 := by omega
      omega
    · rw [FilePager.num_pages]
      simp [PAGE_SIZE]
  · intro h1 h2 h3
    rw [FilePager.openPager]
    simp only [PAGE_SIZE]
    rw [if_neg (by simp [h1]), if_pos h3]

/-- C9 witness: the misaligned, empty and aligned branches at concrete
files. -/
theorem C9_pager_open_witness :
    FilePager.openPager (List.replicate 5 7) =
      .error (.Corruption "db file length is not page-aligned") ∧
    FilePager.openPager [] = .ok ⟨List.replicate 4096 0, [], 1⟩ ∧
    FilePager.num_pages ⟨List.replicate 4096 0, [], 1⟩ = .ok 1 := by
  refine ⟨(C9_pager_open (List.replicate 5 7)).1 (by norm_num), ?_, ?_⟩
  · exact ((C9_pager_open []).2.1 rfl).1
  · exact ((C9_pager_open []).2.1 rfl).2

/-- Counterexample to C9 as stated: a page-aligned file of 2^44 zero
bytes holds exactly 2^32 pages, so Rust truncates the page count
`as u32` to 0 and takes the empty-file branch: `open` succeeds but
overwrites page 0 with zeros and sets the next allocatable id to 1,
not to length / 4096 = 2^32 as the claim requires for every non-empty
page-aligned file. -/
theorem C9_counterexample :
    (List.replicate 17592186044416 (0:Nat)).length % 4096 = 0 ∧
    (List.replicate 17592186044416 (0:Nat)).length ≠ 0 ∧
    FilePager.openPager (List.replicate 17592186044416 0) =
      .ok ⟨writeBytes (List.replicate 17592186044416 0) 0
        (List.replicate 4096 0), [], 1⟩ ∧
    (1:Nat) ≠ (List.replicate 17592186044416 (0:Nat)).length / 4096 := by
  refine ⟨by norm_num, by norm_num, ?_, by norm_num⟩
  rw [FilePager.openPager]
  simp only [List.length_replicate]
  simp only [PAGE_SIZE]
  rw [if_neg (by norm_num), if_pos (by norm_num)]

/-- Counterexample to C3 as stated: on a valid page whose HAS_FREE_SLOTS
flag is stale (set with no slot allocated), an insert whose required
bytes (4075 + 6) exceed free_space() (4080) does fail with NoSpace, but
the failing call has already cleared the flag: the returned buffer is
`clearBuf staleFlagPage`, whose flags word differs (16 became 0), not
the untouched page. -/
theorem C3_counterexample :
    validate_header staleFlagPage = .ok () ∧
    free_space staleFlagPage = .ok 4080 ∧
    (List.replicate 4075 0 : List Nat).length + 6 = 4081 ∧
    insert staleFlagPage (List.replicate 4075 0) =
      (.error (.NoSpace "not enough space"), clearBuf staleFlagPage) ∧
    hFlags staleFlagPage = 16 ∧
    hFlags (clearBuf staleFlagPage) = 0 := by
  have h8 : (8:Nat) ≤ staleFlagPage.length := by rw [staleFlagPage_length]; omega
  refine ⟨staleFlagPage_valid, ?_, by norm_num, ?_, staleFlagPage_hFlags, ?_⟩
  · rw [free_space_ok (by rw [staleFlagPage_length]; omega)
      (by rw [staleFlagPage_hLower, staleFlagPage_hUpper]; omega),
      staleFlagPage_hLower, staleFlagPage_hUpper]
  · exact insert_nospace_clear staleFlagPage_length staleFlagPage_valid
      (by rw [staleFlagPage_hFlags]; norm_num)
      (by intro j hj; rw [staleFlagPage_hSlotCount] at hj; omega)
      (by norm_num)
      (by rw [staleFlagPage_hLower, staleFlagPage_hUpper]; norm_num)
  · rw [clearBuf_hFlags h8, staleFlagPage_hFlags]
    decide

/-- Counterexample to C4 as stated: `headerAliasPage` passes
`validate_header`, yet the in-place `update` of its live slot 0 (whose
recorded tuple range [0, 8) aliases the page header) returns Ok and
leaves a buffer that fails `validate_header` with lower (25443) greater
than upper (0), and whose `slot_count` dropped from 1 to 0. -/
theorem C4_counterexample :
    validate_header headerAliasPage = .ok () ∧
    update headerAliasPage 0 [99, 99] =
      some (.ok false, updateBufIn headerAliasPage 0 [99, 99]) ∧
    validate_header (updateBufIn headerAliasPage 0 [99, 99]) =
      .error (.Corruption "corrupt header: lower > upper") ∧
    hSlotCount headerAliasPage = 1 ∧
    hSlotCount (updateBufIn headerAliasPage 0 [99, 99]) = 0 := by
  have hupd : update headerAliasPage 0 [99, 99] =
      some (.ok false, updateBufIn headerAliasPage 0 [99, 99]) :=
    update_inplace_eq headerAliasPage_length headerAliasPage_valid
      (by rw [headerAliasPage_hSlotCount]; omega)
      (by rw [headerAliasPage_sFlags0])
      (by rw [headerAliasPage_sLen0]; norm_num)
      (by norm_num)
      (by rw [headerAliasPage_length, headerAliasPage_sOffset0, headerAliasPage_sLen0]
          norm_num)
  have hEq : updateBufIn headerAliasPage 0 [99, 99] =
      slotWrite (writeBytes (writeBytes headerAliasPage 0 [99, 99]) 2
        (List.replicate 6 0)) 0 ⟨0, 2, 0⟩ := by
    rw [updateBufIn, headerAliasPage_sOffset0, headerAliasPage_sLen0,
      headerAliasPage_sFlags0]
    norm_num
  have hA1 : (writeBytes headerAliasPage 0 [99, 99]).length = 4096 := by
    rw [length_writeBytes (by rw [headerAliasPage_length]; norm_num),
      headerAliasPage_length]
  have hA2 : (writeBytes (writeBytes headerAliasPage 0 [99, 99]) 2
      (List.replicate 6 0)).length = 4096 := by
    rw [length_writeBytes (by rw [hA1]; norm_num), hA1]
  have hN : (slotWrite (writeBytes (writeBytes headerAliasPage 0 [99, 99]) 2
      (List.replicate 6 0)) 0 ⟨0, 2, 0⟩).length = 4096 := by
    rw [length_slotWrite (by rw [hA2]; norm_num), hA2]
  have hbyte : ∀ p : Nat, p < 6 →
      getByte (slotWrite (writeBytes (writeBytes headerAliasPage 0 [99, 99]) 2
        (List.replicate 6 0)) 0 ⟨0, 2, 0⟩) p =
      if p < 2 then 99 else 0 := by
    intro p hp
    rw [getByte_slotWrite_out (by rw [hA2]; norm_num) (by omega)]
    by_cases hc : p < 2
    · rw [if_pos hc, getByte_writeBytes_lt (by rw [hA1]; norm_num) (by omega),
        getByte_writeBytes_in (by rw [headerAliasPage_length]; norm_num) (by omega)
          (by simp; omega)]
      interval_cases p
      · norm_num [getByte]
      · norm_num [getByte]
    · rw [if_neg hc,
        getByte_writeBytes_in (by rw [hA1]; norm_num) (by omega) (by simp; omega),
        getByte_replicate]
  have hlo : hLower (updateBufIn headerAliasPage 0 [99, 99]) = 25443 := by
    rw [hEq, hLower, hbyte 0 (by omega), hbyte 1 (by omega)]
    norm_num
  have hup : hUpper (updateBufIn headerAliasPage 0 [99, 99]) = 0 := by
    rw [hEq, hUpper, hbyte 2 (by omega), hbyte 3 (by omega)]
    norm_num
  have hsc : hSlotCount (updateBufIn headerAliasPage 0 [99, 99]) = 0 := by
    rw [hEq, hSlotCount, hbyte 4 (by omega), hbyte 5 (by omega)]
    norm_num
  have hlen4 : (updateBufIn headerAliasPage 0 [99, 99]).length = 4096 := by
    rw [hEq]
    exact hN
  have hinv : validate_header (updateBufIn headerAliasPage 0 [99, 99]) =
      .error (.Corruption "corrupt header: lower > upper") := by
    rw [validate_header, lower_ok (by rw [hlen4]; omega)]
    simp only []
    rw [upper_ok (by rw [hlen4]; omega)]
    simp only []
    rw [slot_count_ok (by rw [hlen4]; omega)]
    simp only []
    rw [hlo, hup]
    simp only [SLOTTED_HEADER_SIZE, PAGE_SIZE]
    rw [if_neg (by omega), if_neg (by omega), if_pos (by omega)]
  exact ⟨headerAliasPage_valid, hupd, hinv, headerAliasPage_hSlotCount, hsc⟩

/-- Counterexample to C5 as stated: on the fully valid page `onePage`,
updating live slot 0 with a payload longer than both the slot (10 bytes)
and free_space() (4064 bytes) fails with Corruption ("record is too
large") because the length does not fit a u16, not with NoSpace as the
claim requires for a payload exceeding free space. -/
theorem C5_counterexample :
    validate_header onePage = .ok () ∧
    sFlags onePage 0 % 2 = 0 ∧
    sLen onePage 0 < (List.replicate 65536 1 : List Nat).length ∧
    free_space onePage = .ok 4064 ∧
    update onePage 0 (List.replicate 65536 1) =
      some (.error (.Corruption "record is too large"), onePage) := by
  refine ⟨onePage_valid, by rw [onePage_sFlags0], ?_, ?_, ?_⟩
  · rw [onePage_sLen0]
    norm_num
  · rw [free_space_ok (by rw [onePage_length]; omega)
      (by rw [onePage_hLower, onePage_hUpper]; omega), onePage_hLower, onePage_hUpper]
  · exact update_toolarge onePage_length onePage_valid
      (by rw [onePage_hSlotCount]; omega)
      (by rw [onePage_sFlags0])
      (by norm_num)


/-- C3 (amended): on a valid page, an insert whose required bytes
(`data.length`, plus 6 when no reusable tombstone is advertised) exceed
`free_space()` and fit a u16 fails with NoSpace; the page is returned
either untouched or — when the stale HAS_FREE_SLOTS flag had to be
lazily cleared — with only the flags word (bytes 6 and 7) changed; the
lower, upper and slot_count header fields are unchanged in either case.
The original claim's "entire buffer exactly as it was" is refuted by
`C3_counterexample`. -/
theorem C3_insert_nospace (b : Buf) (d : List Nat)
    (hlen : b.length = 4096) (hv : validate_header b = .ok ())
    (hdl : d.length + 6 ≤ 65535)
    (hsp : hUpper b - hLower b < d.length + (if hasReusable b then 0 else 6)) :
    (insert b d).1 = .error (.NoSpace "not enough space") ∧
    ((insert b d).2 = b ∨ (insert b d).2 = clearBuf b) ∧
    (∀ p, p ≠ 6 → p ≠ 7 → getByte (insert b d).2 p = getByte b p) ∧
    hLower (insert b d).2 = hLower b ∧
    hUpper (insert b d).2 = hUpper b ∧
    hSlotCount (insert b d).2 = hSlotCount b := by
  have hb := hdr_bounds hlen hv
  have h8 : (8:Nat) ≤ b.length := by omega
  by_cases hfl : hFlags b &&& 16 = 0
  · have hru : hasReusable b = false := by
      simp [hasReusable, hfl]
    rw [hru] at hsp
    simp only [Bool.false_eq_true, if_false] at hsp
    rw [insert_nospace_direct hlen hv hfl hdl (by omega)]
    exact ⟨rfl, Or.inl rfl, fun p _ _ => rfl, rfl, rfl, rfl⟩
  · by_cases hdead : ∃ k, k < hSlotCount b ∧ sFlags b k % 2 = 1
    · classical
      have hk := Nat.find_spec hdead
      have hkmin : ∀ j, j < Nat.find hdead → sFlags b j % 2 = 0 := by
        intro j hj
        have hm := Nat.find_min hdead hj
        by_cases hj2 : j < hSlotCount b
        · simp only [hj2, true_and] at hm
          omega
        · omega
      have hru : hasReusable b = true :=
        (hasReusable_iff b).mpr ⟨hfl, Nat.find hdead, hk.1, hk.2⟩
      rw [hru] at hsp
      simp only [if_true] at hsp
      rw [insert_nospace_reuse hlen hv hfl hk.1 hk.2 hkmin (by omega) (by omega)]
      exact ⟨rfl, Or.inl rfl, fun p _ _ => rfl, rfl, rfl, rfl⟩
    · have hall : ∀ j, j < hSlotCount b → sFlags b j % 2 = 0 := by
        intro j hj
        by_contra hc
        exact hdead ⟨j, hj, by omega⟩
      have hru : hasReusable b = false := by
        cases hq : hasReusable b
        · rfl
        · exfalso
          obtain ⟨_, j, hj, hd⟩ := (hasReusable_iff b).mp hq
          have := hall j hj
          omega
      rw [hru] at hsp
      simp only [Bool.false_eq_true, if_false] at hsp
      rw [insert_nospace_clear hlen hv hfl hall hdl (by omega)]
      refine ⟨rfl, Or.inr rfl, ?_, clearBuf_hLower h8, clearBuf_hUpper h8,
        clearBuf_hSlotCount h8⟩
      intro p hp6 hp7
      exact clearBuf_getByte_out h8 p (by omega)

/-- C3 witness: the amended theorem applied to the stale-flag page and a
4075-byte record. -/
theorem C3_insert_nospace_witness :
    (insert staleFlagPage (List.replicate 4075 0)).1 =
      .error (.NoSpace "not enough space") ∧
    hSlotCount (insert staleFlagPage (List.replicate 4075 0)).2 =
      hSlotCount staleFlagPage := by
  have h := C3_insert_nospace staleFlagPage (List.replicate 4075 0)
    staleFlagPage_length staleFlagPage_valid (by norm_num)
    (by norm_num [hasReusable, staleFlagPage_hSlotCount, staleFlagPage_hLower,
      staleFlagPage_hUpper])
  exact ⟨h.1, h.2.2.2.2.2⟩

/-- C4 (amended): on a valid 4096-byte page, a successful insert leaves
the header valid and never decreases slot_count; a successful delete
leaves the header valid and slot_count unchanged; a successful update
whose slot's recorded tuple range lies inside the tuple area
(upper ≤ offset, offset + len ≤ 4096 — the amendment, refuted as
unnecessary by `C4_counterexample` only for corrupt slot ranges) leaves
the header valid and slot_count unchanged. -/
theorem C4_header_preservation (b : Buf)
    (hlen : b.length = 4096) (hv : validate_header b = .ok ()) :
    (∀ d r bi, insert b d = (.ok r, bi) →
      validate_header bi = .ok () ∧ hSlotCount b ≤ hSlotCount bi) ∧
    (∀ id bd, delete b id = (.ok (), bd) →
      validate_header bd = .ok () ∧ hSlotCount bd = hSlotCount b) ∧
    (∀ id d mv bu, update b id d = some (.ok mv, bu) →
      hUpper b ≤ sOffset b id → sOffset b id + sLen b id ≤ 4096 →
      validate_header bu = .ok () ∧ hSlotCount bu = hSlotCount b) := by
  have hb := hdr_bounds hlen hv
  have h8 : (8:Nat) ≤ b.length := by omega
  refine ⟨?_, ?_, ?_⟩
  · intro d r bi h
    rcases insert_ok_inv hlen hv h with
      ⟨hfl, hr, hbi, hsp⟩ | ⟨hfl, hall, hr, hbi, hsp⟩ | ⟨hfl, hr, hdead, hmin, hbi, hsp⟩
    · subst hbi
      refine ⟨iN_valid hlen hv hsp, ?_⟩
      rw [iN_hSlotCount hlen hv hsp]
      omega
    · subst hbi
      have hcl : (clearBuf b).length = 4096 := by
        rw [clearBuf_length h8]
        omega
      have hcv : validate_header (clearBuf b) = .ok () := clearBuf_valid hlen hv
      have hsp2 : d.length + 6 ≤ hUpper (clearBuf b) - hLower (clearBuf b) := by
        rw [clearBuf_hUpper h8, clearBuf_hLower h8]
        omega
      refine ⟨iN_valid hcl hcv hsp2, ?_⟩
      rw [iN_hSlotCount hcl hcv hsp2, clearBuf_hSlotCount h8]
      omega
    · subst hbi
      refine ⟨iR_valid hlen hv hr hsp, ?_⟩
      rw [iR_hSlotCount hlen hv hr hsp]
  · intro id bd h
    obtain ⟨hid, hcase⟩ := delete_ok_inv hlen hv h
    have hid6 : 16 + id * 6 + 6 ≤ b.length := by omega
    rcases hcase with ⟨_, hbd⟩ | ⟨_, hbd⟩ <;> subst hbd
    · exact ⟨hv, rfl⟩
    · exact ⟨deleteBuf_valid hlen hv hid, deleteBuf_hSlotCount hid6 h8⟩
  · intro id d mv bu h hoffup hend
    obtain ⟨hid, hlive, hdl65, hcase⟩ := update_ok_inv hlen hv h
    rcases hcase with ⟨hdl, _, hbu, hnp⟩ | ⟨hgt, _, hbu, hsp⟩ <;> subst hbu
    · exact ⟨uIn_valid hlen hv hid hdl hoffup hend,
        uIn_hSlotCount hlen hv hid hdl hoffup hend⟩
    · exact ⟨uMv_valid hlen hv hid hsp, uMv_hSlotCount hlen hv hid hsp⟩

/-- C4 witness: the delete component of the amended theorem at the
one-record page. -/
theorem C4_header_preservation_witness :
    validate_header (deleteBuf onePage 0) = .ok () ∧
    hSlotCount (deleteBuf onePage 0) = hSlotCount onePage := by
  have hd : delete onePage 0 = (.ok (), deleteBuf onePage 0) :=
    delete_live_eq onePage_length onePage_valid
      (by rw [onePage_hSlotCount]; omega) (by rw [onePage_sFlags0])
  exact (C4_header_preservation onePage onePage_length onePage_valid).2.1 0
    (deleteBuf onePage 0) hd

/-- C5 (amended): on a valid page with a live slot whose recorded tuple
range lies inside the tuple area, and a payload whose length fits a u16
(the amendment; `C5_counterexample` shows a 65536-byte payload raises
Corruption instead of NoSpace): a shorter-or-equal update returns false,
keeps upper and the slot offset, shrinks the recorded length, zero-fills
the vacated tail, and get returns the new data; a longer update fails
with NoSpace when the payload exceeds free_space(), and otherwise
returns true, strictly decreases upper, rewrites the slot's offset and
length, and get returns the new data. -/
theorem C5_update_inplace_vs_move (b : Buf) (id : Nat) (d : List Nat)
    (hlen : b.length = 4096) (hv : validate_header b = .ok ())
    (hid : id < hSlotCount b) (hlive : sFlags b id % 2 = 0)
    (hdl65 : d.length ≤ 65535)
    (hoffup : hUpper b ≤ sOffset b id) (hend : sOffset b id + sLen b id ≤ 4096) :
    (d.length ≤ sLen b id →
      update b id d = some (.ok false, updateBufIn b id d) ∧
      hUpper (updateBufIn b id d) = hUpper b ∧
      sOffset (updateBufIn b id d) id = sOffset b id ∧
      sLen (updateBufIn b id d) id = d.length ∧
      (∀ k, d.length ≤ k → k < sLen b id →
        getByte (updateBufIn b id d) (sOffset b id + k) = 0) ∧
      get (updateBufIn b id d) id = .ok (some d)) ∧
    (sLen b id < d.length → hUpper b - hLower b < d.length →
      update b id d = some (.error (.NoSpace "not enough space"), b)) ∧
    (sLen b id < d.length → d.length ≤ hUpper b - hLower b →
      update b id d = some (.ok true, updateBufMove b id d) ∧
      hUpper (updateBufMove b id d) = hUpper b - d.length ∧
      hUpper (updateBufMove b id d) < hUpper b ∧
      sOffset (updateBufMove b id d) id = hUpper b - d.length ∧
      sLen (updateBufMove b id d) id = d.length ∧
      get (updateBufMove b id d) id = .ok (some d)) := by
  have hb := hdr_bounds hlen hv
  refine ⟨?_, ?_, ?_⟩
  · intro hdl
    have hnp : sOffset b id + sLen b id ≤ b.length := by omega
    have hso : sOffset (updateBufIn b id d) id = sOffset b id := by
      rw [uIn_sOffset_self hlen hv hid hdl hend]
      omega
    have hsl : sLen (updateBufIn b id d) id = d.length := by
      rw [uIn_sLen_self hlen hv hid hdl hend]
      omega
    refine ⟨update_inplace_eq hlen hv hid hlive hdl hdl65 hnp,
      uIn_hUpper hlen hv hid hdl hoffup hend, hso, hsl,
      fun k hk1 hk2 => uIn_zero hlen hv hid hdl hoffup hend k hk1 hk2, ?_⟩
    have hv2 := uIn_valid hlen hv hid hdl hoffup hend
    have hlen2 : (updateBufIn b id d).length = 4096 := uIn_length hlen hv hid hdl hend
    have hsc2 : hSlotCount (updateBufIn b id d) = hSlotCount b :=
      uIn_hSlotCount hlen hv hid hdl hoffup hend
    have hsf2 : sFlags (updateBufIn b id d) id = sFlags b id % 65536 :=
      uIn_sFlags_self hlen hv hid hdl hend
    rw [get_live hlen2 hv2 (by rw [hsc2]; exact hid) (by rw [hsf2]; omega)
      (by rw [uIn_hUpper hlen hv hid hdl hoffup hend, hso]; omega)
      (by rw [hso, hsl]; omega), hso, hsl]
    have hrb : readBytes (updateBufIn b id d) (sOffset b id) d.length = d :=
      readBytes_eq rfl (by rw [hlen2]; omega)
        (fun j hj => uIn_data hlen hv hid hdl hoffup hend j hj)
    rw [hrb]
  · intro hgt hsp
    exact update_move_nospace hlen hv hid hlive hgt hdl65 hsp
  · intro hgt hsp
    refine ⟨update_move_eq hlen hv hid hlive hgt hsp,
      uMv_hUpper hlen hv hid hsp, ?_,
      uMv_sOffset_self hlen hv hid hsp, uMv_sLen_self hlen hv hid hsp, ?_⟩
    · rw [uMv_hUpper hlen hv hid hsp]
      omega
    · have hv2 := uMv_valid hlen hv hid hsp
      have hlen2 := uMv_length hlen hv hid hsp
      have hsc2 := uMv_hSlotCount hlen hv hid hsp
      have hsf2 := uMv_sFlags_self hlen hv hid hsp
      have hso := uMv_sOffset_self hlen hv hid hsp
      have hsl := uMv_sLen_self hlen hv hid hsp
      rw [get_live hlen2 hv2 (by rw [hsc2]; exact hid) (by rw [hsf2]; omega)
        (by rw [uMv_hUpper hlen hv hid hsp, hso])
        (by rw [hso, hsl]; omega), hso, hsl]
      have hrb : readBytes (updateBufMove b id d) (hUpper b - d.length) d.length = d :=
        readBytes_eq rfl (by rw [hlen2]; omega)
          (fun j hj => uMv_data hlen hv hid hsp j hj)
      rw [hrb]

/-- C5 witness: the in-place branch of the amended theorem at the
one-record page with a 2-byte payload. -/
theorem C5_update_witness :
    update onePage 0 [1, 2] = some (.ok false, updateBufIn onePage 0 [1, 2]) ∧
    hUpper (updateBufIn onePage 0 [1, 2]) = hUpper onePage ∧
    get (updateBufIn onePage 0 [1, 2]) 0 = .ok (some [1, 2]) := by
  have h := (C5_update_inplace_vs_move onePage 0 [1, 2] onePage_length onePage_valid
    (by rw [onePage_hSlotCount]; omega) (by rw [onePage_sFlags0]) (by norm_num)
    (by rw [onePage_hUpper, onePage_sOffset0])
    (by rw [onePage_sOffset0, onePage_sLen0])).1
    (by rw [onePage_sLen0]; norm_num)
  exact ⟨h.1, h.2.1, h.2.2.2.2.2⟩


/-- C6: on a valid page, delete of an out-of-range id fails with
InvalidArgument; delete of an already-DEAD slot is an Ok no-op; delete
of a live slot tombstones it (DEAD bit set, page HAS_FREE_SLOTS set,
get returns none, slot_count unchanged); and when the deleted slot is
the first dead one, an insert that fits in free space reuses exactly
that slot id, get of it returns the new data, and slot_count is
unchanged across the delete-then-reuse. -/
theorem C6_delete_and_reuse (b : Buf) (id : Nat)
    (hlen : b.length = 4096) (hv : validate_header b = .ok ()) :
    (hSlotCount b ≤ id →
      delete b id = (.error (.InvalidArgument "invalid slot_id"), b)) ∧
    (id < hSlotCount b → sFlags b id % 2 = 1 → delete b id = (.ok (), b)) ∧
    (id < hSlotCount b → sFlags b id % 2 = 0 →
      delete b id = (.ok (), deleteBuf b id) ∧
      sFlags (deleteBuf b id) id % 2 = 1 ∧
      hFlags (deleteBuf b id) &&& 16 ≠ 0 ∧
      get (deleteBuf b id) id = .ok none ∧
      hSlotCount (deleteBuf b id) = hSlotCount b) ∧
    (id < hSlotCount b → sFlags b id % 2 = 0 →
      (∀ j, j < id → sFlags b j % 2 = 0) →
      ∀ d : List Nat, d.length ≤ hUpper b - hLower b →
      insert (deleteBuf b id) d = (.ok id, insertBufReuse (deleteBuf b id) id d) ∧
      get (insertBufReuse (deleteBuf b id) id d) id = .ok (some d) ∧
      hSlotCount (insertBufReuse (deleteBuf b id) id d) = hSlotCount b) := by
  have hb := hdr_bounds hlen hv
  have h8 : (8:Nat) ≤ b.length := by omega
  refine ⟨delete_invalid hlen hv, delete_dead hlen hv, ?_, ?_⟩
  · intro hid hlive
    have hid6 : 16 + id * 6 + 6 ≤ b.length := by omega
    have hget : get (deleteBuf b id) id = .ok none :=
      get_dead (by rw [deleteBuf_length hid6 h8]; omega) (deleteBuf_valid hlen hv hid)
        (by rw [deleteBuf_hSlotCount hid6 h8]; exact hid) (deleteBuf_dead hid6 h8)
    exact ⟨delete_live_eq hlen hv hid hlive, deleteBuf_dead hid6 h8,
      deleteBuf_flag16 hid6 h8, hget, deleteBuf_hSlotCount hid6 h8⟩
  · intro hid hlive hmin d hsp
    have hid6 : 16 + id * 6 + 6 ≤ b.length := by omega
    have hlenD : (deleteBuf b id).length = 4096 := by
      rw [deleteBuf_length hid6 h8]
      omega
    have hvD : validate_header (deleteBuf b id) = .ok () := deleteBuf_valid hlen hv hid
    have hscD : hSlotCount (deleteBuf b id) = hSlotCount b := deleteBuf_hSlotCount hid6 h8
    have hidD : id < hSlotCount (deleteBuf b id) := by
      rw [hscD]
      exact hid
    have hminD : ∀ j, j < id → sFlags (deleteBuf b id) j % 2 = 0 := by
      intro j hj
      rw [deleteBuf_sFlags_other hid6 h8 (by omega)]
      exact hmin j hj
    have hspD : d.length ≤ hUpper (deleteBuf b id) - hLower (deleteBuf b id) := by
      rw [deleteBuf_hUpper hid6 h8, deleteBuf_hLower hid6 h8]
      omega
    refine ⟨insert_ok_reuse hlenD hvD (deleteBuf_flag16 hid6 h8) hidD
      (deleteBuf_dead hid6 h8) hminD hspD, ?_, ?_⟩
    · have hbD := hdr_bounds hlenD hvD
      obtain ⟨hoR, hlR, hfR⟩ := iR_slot_self hlenD hvD hidD hspD
      rw [get_live (iR_length hlenD hvD hidD hspD) (iR_valid hlenD hvD hidD hspD)
        (by rw [iR_hSlotCount hlenD hvD hidD hspD]; exact hidD)
        (by rw [hfR])
        (by rw [iR_hUpper hlenD hvD hidD hspD, hoR])
        (by rw [hoR, hlR]; omega), hoR, hlR]
      have hrb : readBytes (insertBufReuse (deleteBuf b id) id d)
          (hUpper (deleteBuf b id) - d.length) d.length = d :=
        readBytes_eq rfl (by rw [iR_length hlenD hvD hidD hspD]; omega)
          (fun j hj => iR_data hlenD hvD hidD hspD j hj)
      rw [hrb]
    · rw [iR_hSlotCount hlenD hvD hidD hspD, hscD]

/-- C6 witness: delete slot 0 of the one-record page, observe the
tombstone, then reuse it with a 1-byte record. -/
theorem C6_delete_and_reuse_witness :
    delete onePage 0 = (.ok (), deleteBuf onePage 0) ∧
    get (deleteBuf onePage 0) 0 = .ok none ∧
    insert (deleteBuf onePage 0) [9] =
      (.ok 0, insertBufReuse (deleteBuf onePage 0) 0 [9]) ∧
    get (insertBufReuse (deleteBuf onePage 0) 0 [9]) 0 = .ok (some [9]) ∧
    hSlotCount (insertBufReuse (deleteBuf onePage 0) 0 [9]) = hSlotCount onePage := by
  have h := C6_delete_and_reuse onePage 0 onePage_length onePage_valid
  have h3 := h.2.2.1 (by rw [onePage_hSlotCount]; omega) (by rw [onePage_sFlags0])
  have h4 := h.2.2.2 (by rw [onePage_hSlotCount]; omega) (by rw [onePage_sFlags0])
    (by intro j hj; omega) [9]
    (by rw [onePage_hUpper, onePage_hLower]; norm_num)
  exact ⟨h3.1, h3.2.2.2.1, h4.1, h4.2.1, h4.2.2⟩

/-- C7: on a valid page, a successful insert that allocates a fresh slot
(returned id = old slot_count) leaves free_space() smaller by exactly
data.length + 6; a successful insert that reuses a tombstone (returned
id < old slot_count) leaves it smaller by exactly data.length; a
successful delete leaves free_space() unchanged. -/
theorem C7_space_accounting (b : Buf)
    (hlen : b.length = 4096) (hv : validate_header b = .ok ()) :
    (∀ d r bi, insert b d = (.ok r, bi) →
      (r = hSlotCount b →
        free_space bi = .ok (hUpper b - hLower b - (d.length + 6))) ∧
      (r < hSlotCount b →
        free_space bi = .ok (hUpper b - hLower b - d.length))) ∧
    (∀ id bd, delete b id = (.ok (), bd) →
      free_space bd = .ok (hUpper b - hLower b)) := by
  have hb := hdr_bounds hlen hv
  have h8 : (8:Nat) ≤ b.length := by omega
  constructor
  · intro d r bi h
    rcases insert_ok_inv hlen hv h with
      ⟨hfl, hr, hbi, hsp⟩ | ⟨hfl, hall, hr, hbi, hsp⟩ | ⟨hfl, hr, hdead, hmin, hbi, hsp⟩
    · subst hbi
      subst hr
      constructor
      · intro _
        rw [free_space_ok (by rw [iN_length hlen hv hsp]; omega)
            (by rw [iN_hLower hlen hv hsp, iN_hUpper hlen hv hsp]; omega),
          iN_hLower hlen hv hsp, iN_hUpper hlen hv hsp]
        congr 1
        omega
      · intro hc
        omega
    · subst hbi
      subst hr
      have hcl : (clearBuf b).length = 4096 := by
        rw [clearBuf_length h8]
        omega
      have hcv : validate_header (clearBuf b) = .ok () := clearBuf_valid hlen hv
      have hsp2 : d.length + 6 ≤ hUpper (clearBuf b) - hLower (clearBuf b) := by
        rw [clearBuf_hUpper h8, clearBuf_hLower h8]
        omega
      have hbC := hdr_bounds hcl hcv
      constructor
      · intro _
        rw [free_space_ok (by rw [iN_length hcl hcv hsp2]; omega)
            (by rw [iN_hLower hcl hcv hsp2, iN_hUpper hcl hcv hsp2]; omega),
          iN_hLower hcl hcv hsp2, iN_hUpper hcl hcv hsp2, clearBuf_hUpper h8,
          clearBuf_hSlotCount h8]
        congr 1
        omega
      · intro hc
        omega
    · subst hbi
      constructor
      · intro hc
        omega
      · intro _
        rw [free_space_ok (by rw [iR_length hlen hv hr hsp]; omega)
            (by rw [iR_hLower hlen hv hr hsp, iR_hUpper hlen hv hr hsp]; omega),
          iR_hLower hlen hv hr hsp, iR_hUpper hlen hv hr hsp]
        congr 1
        omega
  · intro id bd h
    obtain ⟨hid, hcase⟩ := delete_ok_inv hlen hv h
    have hid6 : 16 + id * 6 + 6 ≤ b.length := by omega
    rcases hcase with ⟨_, hbd⟩ | ⟨_, hbd⟩ <;> subst hbd
    · exact free_space_ok (by omega) (by omega)
    · rw [free_space_ok (by rw [deleteBuf_length hid6 h8]; omega)
        (by rw [deleteBuf_hLower hid6 h8, deleteBuf_hUpper hid6 h8]; omega),
        deleteBuf_hLower hid6 h8, deleteBuf_hUpper hid6 h8]

/-- C7 witness: a fresh-slot insert of 1 byte drops free_space from 4064
to 4057; a delete leaves it at 4064. -/
theorem C7_space_accounting_witness :
    free_space (insertBufNew onePage [9]) = .ok 4057 ∧
    free_space (deleteBuf onePage 0) = .ok 4064 := by
  have h := C7_space_accounting onePage onePage_length onePage_valid
  constructor
  · have hins : insert onePage [9] =
        (.ok (hSlotCount onePage), insertBufNew onePage [9]) :=
      insert_ok_direct onePage_length onePage_valid (by rw [onePage_hFlags]; decide)
        (by rw [onePage_hUpper, onePage_hLower]; norm_num)
    have h1 := (h.1 [9] (hSlotCount onePage) (insertBufNew onePage [9]) hins).1 rfl
    have e : hUpper onePage - hLower onePage - ([9].length + 6) = 4057 := by
      rw [onePage_hUpper, onePage_hLower]
      norm_num
    rw [e] at h1
    exact h1
  · have hdel : delete onePage 0 = (.ok (), deleteBuf onePage 0) :=
      delete_live_eq onePage_length onePage_valid (by rw [onePage_hSlotCount]; omega)
        (by rw [onePage_sFlags0])
    have h2 := h.2 0 (deleteBuf onePage 0) hdel
    have e : hUpper onePage - hLower onePage = 4064 := by
      rw [onePage_hUpper, onePage_hLower]
    rw [e] at h2
    exact h2


/-- First-byte form of `getByte_writeBytes_self`. -/
theorem getByte_writeBytes_self0 {b : Buf} {off : Nat} {L : List Nat}
    (h : off + L.length ≤ b.length) (hL : 0 < L.length) :
    getByte (writeBytes b off L) off = getByte L 0 := by
  have h0 := getByte_writeBytes_self h 0 hL
  simpa using h0

/-- C8: each fixed-width codec primitive fails with
OutOfBounds {off, size, len} exactly when off > len, size > len or
off + size > len; otherwise a read returns the little-endian
recombination of the bytes [off, off+size) only, a write overwrites
exactly those bytes (same length, all other bytes unchanged), and a
read-after-write returns the written value reduced mod 2^width. -/
theorem C8_codec_bounds (b : Buf) (off v : Nat) :
    ((read_u16_le b off = .error (.OutOfBounds off 2 b.length) ∧
      write_u16_le b off v = .error (.OutOfBounds off 2 b.length)) ↔
      (off > b.length ∨ 2 > b.length ∨ off + 2 > b.length)) ∧
    (off + 2 ≤ b.length →
      read_u16_le b off = .ok (getByte b off + 256 * getByte b (off + 1)) ∧
      write_u16_le b off v = .ok (writeBytes b off [v % 256, v / 256 % 256]) ∧
      (writeBytes b off [v % 256, v / 256 % 256]).length = b.length ∧
      read_u16_le (writeBytes b off [v % 256, v / 256 % 256]) off = .ok (v % 65536) ∧
      (∀ j, j < off ∨ off + 2 ≤ j →
        getByte (writeBytes b off [v % 256, v / 256 % 256]) j = getByte b j)) ∧
    ((read_u32_le b off = .error (.OutOfBounds off 4 b.length) ∧
      write_u32_le b off v = .error (.OutOfBounds off 4 b.length)) ↔
      (off > b.length ∨ 4 > b.length ∨ off + 4 > b.length)) ∧
    (off + 4 ≤ b.length →
      read_u32_le b off = .ok (getByte b off + 256 * getByte b (off + 1) +
        65536 * getByte b (off + 2) + 16777216 * getByte b (off + 3)) ∧
      write_u32_le b off v = .ok (writeBytes b off
        [v % 256, v / 256 % 256, v / 65536 % 256, v / 16777216 % 256]) ∧
      (writeBytes b off
        [v % 256, v / 256 % 256, v / 65536 % 256, v / 16777216 % 256]).length
        = b.length ∧
      read_u32_le (writeBytes b off
        [v % 256, v / 256 % 256, v / 65536 % 256, v / 16777216 % 256]) off =
        .ok (v % 4294967296) ∧
      (∀ j, j < off ∨ off + 4 ≤ j →
        getByte (writeBytes b off
          [v % 256, v / 256 % 256, v / 65536 % 256, v / 16777216 % 256]) j
          = getByte b j)) ∧
    ((read_u64_le b off = .error (.OutOfBounds off 8 b.length) ∧
      write_u64_le b off v = .error (.OutOfBounds off 8 b.length)) ↔
      (off > b.length ∨ 8 > b.length ∨ off + 8 > b.length)) ∧
    (off + 8 ≤ b.length →
      write_u64_le b off v = .ok (writeBytes b off
        [v % 256, v / 256 % 256, v / 65536 % 256, v / 16777216 % 256,
         v / 4294967296 % 256, v / 1099511627776 % 256,
         v / 281474976710656 % 256, v / 72057594037927936 % 256]) ∧
      (writeBytes b off
        [v % 256, v / 256 % 256, v / 65536 % 256, v / 16777216 % 256,
         v / 4294967296 % 256, v / 1099511627776 % 256,
         v / 281474976710656 % 256, v / 72057594037927936 % 256]).length
        = b.length ∧
      read_u64_le (writeBytes b off
        [v % 256, v / 256 % 256, v / 65536 % 256, v / 16777216 % 256,
         v / 4294967296 % 256, v / 1099511627776 % 256,
         v / 281474976710656 % 256, v / 72057594037927936 % 256]) off =
        .ok (v % 18446744073709551616) ∧
      (∀ j, j < off ∨ off + 8 ≤ j →
        getByte (writeBytes b off
          [v % 256, v / 256 % 256, v / 65536 % 256, v / 16777216 % 256,
           v / 4294967296 % 256, v / 1099511627776 % 256,
           v / 281474976710656 % 256, v / 72057594037927936 % 256]) j
          = getByte b j)) := by
  refine ⟨?_, ?_, ?_, ?_, ?_, ?_⟩
  · constructor
    · rintro ⟨h1, -⟩
      by_contra hc
      push_neg at hc
      rw [read_u16_le_ok (by omega)] at h1
      simp at h1
    · intro hc
      constructor
      · rw [read_u16_le, checked_range, if_pos hc]
      · rw [write_u16_le, checked_range, if_pos hc]
  · intro h
    have hb2 : off + ([v % 256, v / 256 % 256] : List Nat).length ≤ b.length := by
      simp
      omega
    have hw : (writeBytes b off [v % 256, v / 256 % 256]).length = b.length :=
      length_writeBytes hb2
    refine ⟨read_u16_le_ok h, write_u16_le_ok h, hw, ?_, ?_⟩
    · rw [read_u16_le_ok (by rw [hw]; omega), getByte_write2_self0 h,
        getByte_write2_self1 h, u16_bytes_recombine]
    · intro j hj
      exact getByte_write2_out h hj
  · constructor
    · rintro ⟨h1, -⟩
      by_contra hc
      push_neg at hc
      rw [read_u32_le_ok (by omega)] at h1
      simp at h1
    · intro hc
      constructor
      · rw [read_u32_le, checked_range, if_pos hc]
      · rw [write_u32_le, checked_range, if_pos hc]
  · intro h
    have hb4 : off + ([v % 256, v / 256 % 256, v / 65536 % 256,
        v / 16777216 % 256] : List Nat).length ≤ b.length := by
      simp
      omega
    have hw : (writeBytes b off [v % 256, v / 256 % 256, v / 65536 % 256,
        v / 16777216 % 256]).length = b.length := length_writeBytes hb4
    refine ⟨read_u32_le_ok h, write_u32_le_ok h, hw, ?_, ?_⟩
    · rw [read_u32_le_ok (by rw [hw]; omega), getByte_writeBytes_self0 hb4 (by norm_num),
        getByte_writeBytes_self hb4 1 (by norm_num),
        getByte_writeBytes_self hb4 2 (by norm_num),
        getByte_writeBytes_self hb4 3 (by norm_num),
        show getByte ([v % 256, v / 256 % 256, v / 65536 % 256,
          v / 16777216 % 256] : List Nat) 0 = v % 256 from rfl,
        show getByte ([v % 256, v / 256 % 256, v / 65536 % 256,
          v / 16777216 % 256] : List Nat) 1 = v / 256 % 256 from rfl,
        show getByte ([v % 256, v / 256 % 256, v / 65536 % 256,
          v / 16777216 % 256] : List Nat) 2 = v / 65536 % 256 from rfl,
        show getByte ([v % 256, v / 256 % 256, v / 65536 % 256,
          v / 16777216 % 256] : List Nat) 3 = v / 16777216 % 256 from rfl]
      congr 1
      omega
    · intro j hj
      rcases hj with hj | hj
      · exact getByte_writeBytes_lt hb4 hj
      · exact getByte_writeBytes_ge hb4 (by simp; omega)
  · constructor
    · rintro ⟨h1, -⟩
      by_contra hc
      push_neg at hc
      rw [read_u64_le_ok (by omega)] at h1
      simp at h1
    · intro hc
      constructor
      · rw [read_u64_le, checked_range, if_pos hc]
      · rw [write_u64_le, checked_range, if_pos hc]
  · intro h
    have hb8 : off + ([v % 256, v / 256 % 256, v / 65536 % 256, v / 16777216 % 256,
        v / 4294967296 % 256, v / 1099511627776 % 256,
        v / 281474976710656 % 256, v / 72057594037927936 % 256] : List Nat).length
        ≤ b.length := by
      simp
      omega
    have hw : (writeBytes b off [v % 256, v / 256 % 256, v / 65536 % 256,
        v / 16777216 % 256, v / 4294967296 % 256, v / 1099511627776 % 256,
        v / 281474976710656 % 256, v / 72057594037927936 % 256]).length = b.length :=
      length_writeBytes hb8
    refine ⟨write_u64_le_ok h, hw, ?_, ?_⟩
    · rw [read_u64_le_ok (by rw [hw]; omega), getByte_writeBytes_self0 hb8 (by norm_num),
        getByte_writeBytes_self hb8 1 (by norm_num),
        getByte_writeBytes_self hb8 2 (by norm_num),
        getByte_writeBytes_self hb8 3 (by norm_num),
        getByte_writeBytes_self hb8 4 (by norm_num),
        getByte_writeBytes_self hb8 5 (by norm_num),
        getByte_writeBytes_self hb8 6 (by norm_num),
        getByte_writeBytes_self hb8 7 (by norm_num)]
      congr 1
      simp only [getByte, List.getD_cons_zero, List.getD_cons_succ]
      omega
    · intro j hj
      rcases hj with hj | hj
      · exact getByte_writeBytes_lt hb8 hj
      · exact getByte_writeBytes_ge hb8 (by simp; omega)

/-- C8 witness: the codec theorem evaluated on the 3-byte buffer
[1, 2, 3]: an in-bounds u16 read at offset 1 and the out-of-bounds u64
read at the same offset. -/
theorem C8_codec_bounds_witness :
    read_u16_le [1, 2, 3] 1 = .ok 770 ∧
    read_u64_le [1, 2, 3] 1 = .error (.OutOfBounds 1 8 3) := by
  have h := C8_codec_bounds [1, 2, 3] 1 770
  constructor
  · have h1 := (h.2.1 (by norm_num)).1
    simpa [getByte] using h1
  · have h2 := ((h.2.2.2.2.1).mpr (by norm_num)).1
    simpa using h2


/-- C1: inserting any sequence of records into a freshly initialized
page succeeds with the consecutive slot ids 0, 1, …, and afterwards
`get` of any of those ids returns exactly the record inserted under it
(the final state is fully determined, so the reads commute with any
interleaving of the inserts). -/
theorem C1_insert_get_roundtrip (b b₀ bf : Buf) (pt : Nat)
    (xs : List (List Nat)) (ids : List Nat) (i : Nat)
    (hlen : b.length = 4096) (hinit : init b pt = .ok b₀)
    (hrun : runInserts b₀ xs = .ok (ids, bf)) (hi : i < xs.length) :
    ids = List.range' 0 xs.length ∧ get bf i = .ok (some (xs.getD i [])) := by
  rw [init_eq hlen] at hinit
  have hb₀ : b₀ = initBuf b pt := (Except.ok.inj hinit).symm
  subst hb₀
  have hgs : GoodState [] (initBuf b pt) := goodState_init hlen
  obtain ⟨hids, hgsf⟩ := runInserts_goodState xs [] (initBuf b pt) ids bf hgs hrun
  constructor
  · simpa using hids
  · have hg := goodState_get hgsf (i := i) (by simpa using hi)
    simpa using hg

/-- C1 witness: init a zeroed buffer, insert the single record [5], read
it back from slot 0. -/
theorem C1_insert_get_roundtrip_witness :
    [0] = List.range' 0 1 ∧
    get (insertBufNew (initBuf zeros4096 0) [5]) 0 = .ok (some [5]) := by
  have hgs0 : GoodState [] (initBuf zeros4096 0) := @goodState_init zeros4096 0 zeros4096_length
  have h1 : insert (initBuf zeros4096 0) [5] =
      (.ok 0, insertBufNew (initBuf zeros4096 0) [5]) := by
    simpa using (goodState_insert_ok hgs0 (by norm_num [sumLens])).1
  have hrun : runInserts (initBuf zeros4096 0) [[5]] =
      .ok ([0], insertBufNew (initBuf zeros4096 0) [5]) := by
    rw [runInserts, h1]
    simp only []
    rw [runInserts]
  have h := C1_insert_get_roundtrip zeros4096 (initBuf zeros4096 0)
    (insertBufNew (initBuf zeros4096 0) [5]) 0 [[5]] [0] 0 zeros4096_length
    (init_eq zeros4096_length) hrun (by norm_num)
  constructor
  · simpa using h.1
  · simpa using h.2

end Nova
